import Mathlib

/-!
Contact-submission service: query builder, CSV codec and API contract.

A shallow embedding of the JavaScript sources

* `server.js`        (PostgreSQL variant of the REST API),
* `server-mssql.js`  (SQL Server variant of the REST API),
* `app.js`           (`LocalDataCentre`, the browser-local store),

followed by theorems about them.

Conventions of the embedding

* A JavaScript string is a list of characters (`JsString`).
* A JavaScript value is a `JsVal`.  Numbers are modelled on the integers
  (identifiers, counts, epoch milliseconds); a `Date` is carried by the two
  renderings the code can observe, `toISOString()` and `String(date)`; an array
  or nested object is carried by its `String(...)` rendering and is truthy.
* A JavaScript object is the list of its own properties in `Object.keys` order.
-/

namespace ContactApi

/-! ## JavaScript values -/

/-- A JavaScript string. -/
abbrev JsString := List Char

/-- A `Date`, observed through `toISOString()` and `String(date)`. -/
structure JsDate where
  iso : JsString
  text : JsString
deriving DecidableEq

/-- A JavaScript value.  A number is an integer, `num n`; the values the
handlers meet (identifiers, counts, placeholder numbers) are integers below
`2^53`, which JavaScript holds exactly and writes in plain decimal digits.  An
object is carried by its `String(...)` text. -/
inductive JsVal where
  | undefined : JsVal
  | null : JsVal
  | bool (b : Bool) : JsVal
  | num (n : Int) : JsVal
  | str (s : JsString) : JsVal
  | date (d : JsDate) : JsVal
  | obj (text : JsString) : JsVal
deriving DecidableEq

/-- A JavaScript object: its own properties, in `Object.keys` order. -/
abbrev JsObject := List (JsString × JsVal)

/-- Property read `o[k]` for a key that names no member of `Object.prototype`
(`name`, `email`, `total`, ...), and the own-property part of any read: an
absent property reads as `undefined`.  Reads with an arbitrary key go through
`readProp`. -/
def getProp (o : JsObject) (k : JsString) : JsVal :=
  match o with
  | [] => JsVal.undefined
  | (k', v) :: rest => if k' = k then v else getProp rest k

/-- The members of `Object.prototype` an object created by `{}` inherits, each
with its `String(...)` text as printed by Node.js. -/
def objectPrototype (key : JsString) : Option JsString :=
  if key = "__proto__".toList then some "[object Object]".toList
  else if key ∈ ["constructor".toList, "hasOwnProperty".toList, "isPrototypeOf".toList,
      "propertyIsEnumerable".toList, "toLocaleString".toList, "toString".toList,
      "valueOf".toList, "__defineGetter__".toList, "__defineSetter__".toList,
      "__lookupGetter__".toList, "__lookupSetter__".toList] then
    some ("function ".toList ++ (if key = "constructor".toList then "Object".toList else key)
      ++ "() \x7b [native code] \x7d".toList)
  else none

/-- Property read `o[k]` on an ordinary object, as the serializers do with
`row[header]`: an own property, or else the member of `Object.prototype` of
that name, carried by its `String(...)` text, or else `undefined`. -/
def readProp (o : JsObject) (k : JsString) : JsVal :=
  if o.any (fun e => e.1 = k) then getProp o k
  else
    match objectPrototype k with
    | some text => JsVal.obj text
    | none => JsVal.undefined

/-- The keys of an object: `Object.keys(o)`. -/
def objectKeys (o : JsObject) : List JsString := o.map Prod.fst

/-- The array index a property key denotes, if any: the key is the canonical
decimal text of a number below `2^32 - 1`.  Such keys come first, in ascending
order, in `Object.keys`. -/
def arrayIndex (k : JsString) : Option Nat :=
  let n := k.foldl (fun acc c => acc * 10 + (c.toNat - 48)) 0
  if k ≠ [] ∧ Nat.toDigits 10 n = k ∧ n < 4294967295 then some n else none

/-- Whether the property `k` comes before a new array-index property `n` in
`Object.keys` order. -/
def keyBefore (n : Nat) (k : JsString) : Bool :=
  match arrayIndex k with
  | some m => m < n
  | none => false

/-- Property write `o[k] = v` on an ordinary object: an existing property keeps
its position; a new array-index key goes among the index keys, in ascending
order; any other new key is appended. -/
def setProp (o : JsObject) (k : JsString) (v : JsVal) : JsObject :=
  if o.any (fun e => e.1 = k) then
    o.map fun e => if e.1 = k then (k, v) else e
  else
    match arrayIndex k with
    | some n => o.takeWhile (fun e => keyBefore n e.1) ++ (k, v) :: o.dropWhile (fun e => keyBefore n e.1)
    | none => o ++ [(k, v)]

/-- Truthiness, as tested by `if (x)`, `!x`, `x || y`, `x ? a : b`. -/
def truthy : JsVal → Bool
  | JsVal.undefined => false
  | JsVal.null => false
  | JsVal.bool b => b
  | JsVal.num n => n != 0
  | JsVal.str s => !s.isEmpty
  | JsVal.date _ => true
  | JsVal.obj _ => true

/-- Decimal text of an integer: `String(n)` for an integer-valued number below
`10^21` in absolute value, from which on JavaScript writes an exponent. -/
def intText (n : Int) : JsString :=
  match n with
  | Int.ofNat m => Nat.toDigits 10 m
  | Int.negSucc m => '-' :: Nat.toDigits 10 (m + 1)

/-- The abstract operation `ToString`, as applied by template literals and by
`Array.prototype.join` to an element that is neither `null` nor `undefined`. -/
def toStr : JsVal → JsString
  | JsVal.undefined => "undefined".toList
  | JsVal.null => "null".toList
  | JsVal.bool true => "true".toList
  | JsVal.bool false => "false".toList
  | JsVal.num n => intText n
  | JsVal.str s => s
  | JsVal.date d => d.text
  | JsVal.obj t => t

/-- What `Array.prototype.join` writes for one element: the empty string for
`null` and `undefined`, `ToString` of the element otherwise. -/
def joinItem : JsVal → JsString
  | JsVal.undefined => []
  | JsVal.null => []
  | v => toStr v

/-- The call `xs.join(sep)` on an array of strings. -/
def joinStrings (sep : JsString) (xs : List JsString) : JsString :=
  sep.intercalate xs

/-- The call `xs.join(sep)` on an array of values. -/
def joinVals (sep : JsString) (xs : List JsVal) : JsString :=
  joinStrings sep (xs.map joinItem)

/-- The call `s.includes(c)` for a one-character needle. -/
def includesChar (s : JsString) (c : Char) : Bool := s.contains c

/-- The call `s.replace(/c/g, by)`: every occurrence of the character `c` is
replaced by the string `rep`. -/
def replaceAllChar (c : Char) (rep : JsString) (s : JsString) : JsString :=
  match s with
  | [] => []
  | x :: rest => (if x = c then rep else [x]) ++ replaceAllChar c rep rest

/-- The call `s.startsWith(needle)`. -/
def startsWith : JsString → JsString → Bool
  | _, [] => true
  | [], _ :: _ => false
  | c :: s, d :: needle => c == d && startsWith s needle

/-- The call `s.includes(needle)`. -/
def includesStr (s needle : JsString) : Bool :=
  match s with
  | [] => needle.isEmpty
  | c :: rest => startsWith (c :: rest) needle || includesStr rest needle

/-- Strict equality `a === b` of two values that do not share an object
reference (a `Date`, an array or an object equals only itself). -/
def strictEq : JsVal → JsVal → Bool
  | JsVal.undefined, JsVal.undefined => true
  | JsVal.null, JsVal.null => true
  | JsVal.bool a, JsVal.bool b => a == b
  | JsVal.num a, JsVal.num b => a == b
  | JsVal.str a, JsVal.str b => a == b
  | _, _ => false

/-- The call `s.split(c)` for a one-character separator. -/
def splitChar (s : JsString) (c : Char) : List JsString := s.splitOn c

/-- White space and line terminators, the characters removed by `trim()`. -/
def isJsSpace (c : Char) : Bool :=
  c.val = 0x09 || c.val = 0x0A || c.val = 0x0B || c.val = 0x0C || c.val = 0x0D ||
  c.val = 0x20 || c.val = 0xA0 || c.val = 0x1680 ||
  (0x2000 ≤ c.val && c.val ≤ 0x200A) ||
  c.val = 0x2028 || c.val = 0x2029 || c.val = 0x202F || c.val = 0x205F ||
  c.val = 0x3000 || c.val = 0xFEFF

/-- The call `s.trim()`. -/
def trim (s : JsString) : JsString :=
  ((s.dropWhile isJsSpace).reverse.dropWhile isJsSpace).reverse

/-! ## CSV serializers -/

/-- The quoting branch shared by the three serializers:
`typeof value === 'string' && (value.includes(',') || value.includes('"'))`. -/
def needsQuoting (s : JsString) : Bool :=
  includesChar s ',' || includesChar s '"'

/-- The template literal with `value.replace(/"/g, '""')` between two double
quotes. -/
def quoted (s : JsString) : JsString :=
  "\"".toList ++ replaceAllChar '"' "\"\"".toList s ++ "\"".toList

namespace Pg

/-- The `headers.map` callback of `GET /api/export/csv` in `server.js`, applied
to `row[header]`. -/
def csvValue (value : JsVal) : JsVal :=
  match value with
  | JsVal.null => JsVal.str []
  | JsVal.undefined => JsVal.str []
  | JsVal.str s => if needsQuoting s then JsVal.str (quoted s) else JsVal.str s
  | JsVal.date d => JsVal.str d.iso
  | v => v

/-- The CSV text built by `GET /api/export/csv` in `server.js` from a
non-empty `result.rows`; `none` when there is no row (the 404 branch). -/
def exportCsv (rows : List JsObject) : Option JsString :=
  match rows with
  | [] => none
  | first :: _ =>
    let headers := objectKeys first
    let csv := joinStrings ",".toList headers ++ "\n".toList
    some (rows.foldl
      (fun csv row =>
        csv ++ (joinVals ",".toList (headers.map fun header => csvValue (readProp row header))
          ++ "\n".toList))
      csv)

end Pg

namespace Mssql

/-- The `headers.map` callback of `GET /api/export/csv` in `server-mssql.js`,
applied to `row[header]`. -/
def csvValue (value : JsVal) : JsVal :=
  match value with
  | JsVal.null => JsVal.str []
  | JsVal.undefined => JsVal.str []
  | JsVal.str s => if needsQuoting s then JsVal.str (quoted s) else JsVal.str s
  | v => v

/-- The CSV text built by `GET /api/export/csv` in `server-mssql.js` from a
non-empty `result.recordset`; `none` when there is no row (the 404 branch). -/
def exportCsv (recordset : List JsObject) : Option JsString :=
  match recordset with
  | [] => none
  | first :: _ =>
    let headers := objectKeys first
    let csv := joinStrings ",".toList headers ++ "\n".toList
    some (recordset.foldl
      (fun csv row =>
        csv ++ (joinVals ",".toList (headers.map fun header => csvValue (readProp row header))
          ++ "\n".toList))
      csv)

end Mssql

namespace LocalDataCentre

/-- The `headers.map` callback of `exportToCSV` in `app.js`, applied to
`row[header]`. -/
def csvValue (value : JsVal) : JsVal :=
  match value with
  | JsVal.str s => if needsQuoting s then JsVal.str (quoted s) else JsVal.str s
  | v => v

/-- The method `exportToCSV` of `app.js`, on the content of the store. -/
def exportToCSV (data : List JsObject) : JsString :=
  match data with
  | [] => "No data available".toList
  | first :: _ =>
    let headers := objectKeys first
    let csv := joinStrings ",".toList headers ++ "\n".toList
    data.foldl
      (fun csv row =>
        csv ++ (joinVals ",".toList (headers.map fun header => csvValue (readProp row header))
          ++ "\n".toList))
      csv

end LocalDataCentre

namespace LocalDataCentre

/-- The method `save` of `app.js`: the record is pushed after the stored ones.
The store holds the JSON text of the array; records whose values are strings,
numbers, booleans or `null` come back unchanged from `JSON.parse`. -/
def save (store : List JsObject) (data : JsObject) : List JsObject :=
  store ++ [data]

/-- The `headers.forEach` of `importFromCSV`: starting from `row`, each header
is assigned `values[index] ? values[index].trim() : ''`, `index` counting from
`index`.  An assignment to `row['__proto__']` of a string goes to the setter
of `Object.prototype`, which ignores it. -/
def fillRow (values : List JsString) (headers : List JsString) (index : Nat)
    (row : JsObject) : JsObject :=
  match headers with
  | [] => row
  | header :: rest =>
    let cell : JsString :=
      match values.get? index with
      | some v => if truthy (JsVal.str v) then trim v else []
      | none => []
    fillRow values rest (index + 1)
      (if trim header = "__proto__".toList then row
       else setProp row (trim header) (JsVal.str cell))

/-- The records parsed by `importFromCSV`: the array `data` before it is
saved. -/
def parseCSV (csvContent : JsString) : List JsObject :=
  let lines := splitChar csvContent '\n'
  let headers := splitChar (lines.headD []) ','
  (lines.drop 1).filterMap fun line =>
    if trim line = [] then none
    else some (fillRow (splitChar line ',') headers 0 [])

/-- The method `importFromCSV` of `app.js`: the new content of the store and
the returned count. -/
def importFromCSV (store : List JsObject) (csvContent : JsString) : List JsObject × Nat :=
  let data := parseCSV csvContent
  (data.foldl save store, data.length)

/-- One `data.filter` pass of `query` for the key `key`, whose filter value
`wanted` is truthy.  `toLowerCase` is `String.prototype.toLowerCase`.  The
result is `none` when the callback throws: a stored string is compared with a
filter value that has no `toLowerCase` method.  For a key the record lacks,
`item[key]` is `undefined` or a member of `Object.prototype`; neither is a
string nor equal to a truthy filter value, so the own-property read decides
the same records. -/
def filterBy (toLowerCase : JsString → JsString) (key : JsString) (wanted : JsVal)
    (data : List JsObject) : Option (List JsObject) :=
  match data with
  | [] => some []
  | item :: rest =>
    let keep : Option Bool :=
      match getProp item key with
      | JsVal.str s =>
        match wanted with
        | JsVal.str w => some (includesStr (toLowerCase s) (toLowerCase w))
        | _ => none
      | v => some (strictEq v wanted)
    match keep, filterBy toLowerCase key wanted rest with
    | some true, some kept => some (item :: kept)
    | some false, some kept => some kept
    | _, _ => none

/-- The method `query` of `app.js`, on the content `data` of the store: the
filters are applied key by key, in `Object.keys(filters)` order; `none` when a
callback throws. -/
def query (toLowerCase : JsString → JsString) (data : List JsObject)
    (filters : JsObject) : Option (List JsObject) :=
  (objectKeys filters).foldl
    (fun acc key =>
      match acc with
      | none => none
      | some data =>
        if truthy (getProp filters key) then filterBy toLowerCase key (getProp filters key) data
        else some data)
    (some data)

/-- The value of `(old || 0) + 1`: a number is incremented, a falsy value
counts as `0`, and any other value is turned into text and followed by `1`. -/
def orZeroPlusOne (old : JsVal) : JsVal :=
  match old with
  | JsVal.num n => if n = 0 then JsVal.num 1 else JsVal.num (n + 1)
  | JsVal.bool true => JsVal.num 2
  | JsVal.str s => if s.isEmpty then JsVal.num 1 else JsVal.str (s ++ "1".toList)
  | JsVal.date d => JsVal.str (d.text ++ "1".toList)
  | JsVal.obj t => JsVal.str (t ++ "1".toList)
  | _ => JsVal.num 1

/-- The read `breakdown[key]` on an object created by `{}`: an own property,
or else the member of `Object.prototype` of that name, carried by its
`String(...)` text `inherited key`, or else `undefined`. -/
def readWithPrototype (inherited : JsString → Option JsString) (o : JsObject)
    (key : JsString) : JsVal :=
  if o.any (fun e => e.1 = key) then getProp o key
  else
    match inherited key with
    | some text => JsVal.obj text
    | none => JsVal.undefined

/-- The property key of `item.platform || 'Unknown'`. -/
def platformKey (item : JsObject) : JsString :=
  if truthy (getProp item "platform".toList) then toStr (getProp item "platform".toList)
  else "Unknown".toList

/-- One step of the `data.forEach` of `getPlatformBreakdown`.  An assignment to
`breakdown['__proto__']` of a number or a string goes to the setter of
`Object.prototype`, which ignores it. -/
def countPlatform (inherited : JsString → Option JsString) (breakdown : JsObject)
    (item : JsObject) : JsObject :=
  let platform := platformKey item
  let count := orZeroPlusOne (readWithPrototype inherited breakdown platform)
  if platform = "__proto__".toList then breakdown else setProp breakdown platform count

/-- The method `getPlatformBreakdown` of `app.js`. -/
def getPlatformBreakdown (inherited : JsString → Option JsString) (data : List JsObject) :
    JsObject :=
  data.foldl (countPlatform inherited) []

/-- The object returned by `getStats`. -/
structure Stats where
  totalRecords : Nat
  lastUpdated : JsVal
  platforms : JsObject
deriving DecidableEq

/-- The method `getStats` of `app.js`, on the content `data` of the store. -/
def getStats (inherited : JsString → Option JsString) (data : List JsObject) : Stats :=
  { totalRecords := data.length
    lastUpdated :=
      match data.getLast? with
      | some last => getProp last "timestamp".toList
      | none => JsVal.null
    platforms := getPlatformBreakdown inherited data }

end LocalDataCentre

/-! ## The database, as seen by the handlers -/

/-- An SQL Server parameter type named in `request.input`. -/
inductive SqlType where
  | NVarChar : SqlType
  | DateTime : SqlType
  | Int : SqlType
deriving DecidableEq

/-- One `request.input(name, type, value)` of the SQL Server variant. -/
structure SqlInput where
  name : JsString
  type : SqlType
  value : JsVal
deriving DecidableEq

/-- A statement handed to the database: its text, the positional values of
`pool.query(text, values)` and the named inputs of `request.input`. -/
structure Statement where
  text : JsString
  values : List JsVal
  inputs : List SqlInput
deriving DecidableEq

/-- The answer of the database to a statement (`result.rows`, called
`result.recordset` by the SQL Server driver, and `result.rowCount`). -/
structure QueryResult where
  rows : List JsObject
  rowCount : Nat
deriving DecidableEq

/-- The connection pool: in a database state, a statement is answered by a
result or fails with an error whose `message` is given, and leaves a state. -/
structure Pool (σ : Type) where
  run : Statement → σ → Except JsString QueryResult × σ

/-- The JSON bodies sent by the handlers. -/
inductive Body where
  /-- The body `{ success: false, error }`. -/
  | failure (error : JsString) : Body
  /-- The body `{ success: true, message: 'Contact submission saved', data }`;
  `data` is `result.rows[0]`, absent when there is no row. -/
  | saved (data : Option JsObject) : Body
  /-- The CSV text sent by `res.send(csv)` with the headers `Content-Type:
  text/csv` and `Content-Disposition: attachment`. -/
  | csv (text : JsString) : Body
  /-- The body `{ success: true, message }`. -/
  | done (message : JsString) : Body
  /-- The body `{ success: true, count, data }`. -/
  | listed (count : Nat) (data : List JsObject) : Body
  /-- The body `{ success: true, data }` for one row. -/
  | found (data : JsObject) : Body
  /-- The body `{ success: true, count, filters, data }`. -/
  | queried (count : Nat) (filters : JsObject) (data : List JsObject) : Body
  /-- The body `{ success: true, stats: { totalRecords, recentSubmissions,
  platformBreakdown } }`. -/
  | stats (totalRecords recentSubmissions : JsVal) (platformBreakdown : List JsObject) : Body
deriving DecidableEq

/-- An HTTP response: status code and body. -/
structure Response where
  status : Nat
  body : Body
deriving DecidableEq

/-- What a handler did: its response, the statements it issued in order, and
the database state it left. -/
structure Outcome (σ : Type) where
  response : Response
  issued : List Statement
  state : σ

/-- The text of `INSERT ... RETURNING *` in `server.js`. -/
def Pg.insertText : JsString :=
  "\n            INSERT INTO contact_submissions (name, email, message, platform)\n            VALUES ($1, $2, $3, $4)\n            RETURNING *\n        ".toList

/-- The text of `INSERT ... OUTPUT INSERTED.*` in `server-mssql.js`. -/
def Mssql.insertText : JsString :=
  "\n            INSERT INTO ContactSubmissions (name, email, message, platform)\n            OUTPUT INSERTED.*\n            VALUES (@name, @email, @message, @platform)\n        ".toList

/-- The message of the `TypeError` raised by `pool.request()` when `pool` is
still `undefined` (the connection was never established). -/
def Mssql.undefinedPoolMessage : JsString :=
  "Cannot read properties of undefined (reading 'request')".toList

/-- The value of `platform || 'Unknown'`. -/
def platformOrUnknown (platform : JsVal) : JsVal :=
  if truthy platform then platform else JsVal.str "Unknown".toList

/-- The handler of `POST /api/contacts` in `server.js`, on `req.body`. -/
def Pg.createContact {σ : Type} (pool : Pool σ) (body : JsObject) (db : σ) : Outcome σ :=
  let name := getProp body "name".toList
  let email := getProp body "email".toList
  let message := getProp body "message".toList
  let platform := getProp body "platform".toList
  if !truthy name || !truthy email || !truthy message then
    { response := { status := 400, body := Body.failure "Name, email, and message are required".toList }
      issued := []
      state := db }
  else
    let query := Pg.insertText
    let values := [name, email, message, platformOrUnknown platform]
    let statement : Statement := { text := query, values := values, inputs := [] }
    match pool.run statement db with
    | (Except.ok result, db') =>
      { response := { status := 201, body := Body.saved result.rows.head? }
        issued := [statement]
        state := db' }
    | (Except.error message, db') =>
      { response := { status := 500, body := Body.failure message }
        issued := [statement]
        state := db' }

/-- The handler of `POST /api/contacts` in `server-mssql.js`, on `req.body`;
`pool` is `none` while the module variable `pool` is `undefined`. -/
def Mssql.createContact {σ : Type} (pool : Option (Pool σ)) (body : JsObject) (db : σ) :
    Outcome σ :=
  let name := getProp body "name".toList
  let email := getProp body "email".toList
  let message := getProp body "message".toList
  let platform := getProp body "platform".toList
  if !truthy name || !truthy email || !truthy message then
    { response := { status := 400, body := Body.failure "Name, email, and message are required".toList }
      issued := []
      state := db }
  else
    match pool with
    | none =>
      { response := { status := 500, body := Body.failure Mssql.undefinedPoolMessage }
        issued := []
        state := db }
    | some pool =>
      let inputs : List SqlInput :=
        [ { name := "name".toList, type := SqlType.NVarChar, value := name },
          { name := "email".toList, type := SqlType.NVarChar, value := email },
          { name := "message".toList, type := SqlType.NVarChar, value := message },
          { name := "platform".toList, type := SqlType.NVarChar, value := platformOrUnknown platform } ]
      let statement : Statement := { text := Mssql.insertText, values := [], inputs := inputs }
      match pool.run statement db with
      | (Except.ok result, db') =>
        { response := { status := 201, body := Body.saved result.rows.head? }
          issued := [statement]
          state := db' }
      | (Except.error message, db') =>
        { response := { status := 500, body := Body.failure message }
          issued := [statement]
          state := db' }

/-- The handler of `GET /api/export/csv` in `server.js`: the rows are read
with the list-all text, an empty result is answered 404, any other result is
sent as CSV, and a failure of the query is answered 500. -/
def Pg.exportCsvHandler {σ : Type} (pool : Pool σ) (db : σ) : Outcome σ :=
  let statement : Statement :=
    { text := "SELECT * FROM contact_submissions ORDER BY timestamp DESC".toList
      values := [], inputs := [] }
  match pool.run statement db with
  | (Except.ok result, db') =>
    match Pg.exportCsv result.rows with
    | none =>
      { response := { status := 404, body := Body.failure "No data to export".toList }
        issued := [statement]
        state := db' }
    | some csv =>
      { response := { status := 200, body := Body.csv csv }
        issued := [statement]
        state := db' }
  | (Except.error message, db') =>
    { response := { status := 500, body := Body.failure message }
      issued := [statement]
      state := db' }

/-- The handler of `GET /api/export/csv` in `server-mssql.js`; `pool` is `none`
while the module variable `pool` is `undefined`. -/
def Mssql.exportCsvHandler {σ : Type} (pool : Option (Pool σ)) (db : σ) : Outcome σ :=
  match pool with
  | none =>
    { response := { status := 500, body := Body.failure Mssql.undefinedPoolMessage }
      issued := []
      state := db }
  | some pool =>
    let statement : Statement :=
      { text := "SELECT * FROM ContactSubmissions ORDER BY timestamp DESC".toList
        values := [], inputs := [] }
    match pool.run statement db with
    | (Except.ok result, db') =>
      match Mssql.exportCsv result.rows with
      | none =>
        { response := { status := 404, body := Body.failure "No data to export".toList }
          issued := [statement]
          state := db' }
      | some csv =>
        { response := { status := 200, body := Body.csv csv }
          issued := [statement]
          state := db' }
    | (Except.error message, db') =>
      { response := { status := 500, body := Body.failure message }
        issued := [statement]
        state := db' }

/-- The text of the delete statement of `DELETE /api/contacts/:id` in
`server.js`. -/
def Pg.deleteText : JsString :=
  "DELETE FROM contact_submissions WHERE id = $1".toList

/-- The text of the delete statement of `DELETE /api/contacts/:id` in
`server-mssql.js`. -/
def Mssql.deleteText : JsString :=
  "DELETE FROM ContactSubmissions WHERE id = @id".toList

/-- The handler of `DELETE /api/contacts/:id` in `server.js`, on
`req.params.id`. -/
def Pg.deleteContact {σ : Type} (pool : Pool σ) (id : JsString) (db : σ) : Outcome σ :=
  let statement : Statement :=
    { text := Pg.deleteText, values := [JsVal.str id], inputs := [] }
  match pool.run statement db with
  | (Except.ok _, db') =>
    { response := { status := 200, body := Body.done "Contact deleted successfully".toList }
      issued := [statement]
      state := db' }
  | (Except.error message, db') =>
    { response := { status := 500, body := Body.failure message }
      issued := [statement]
      state := db' }

/-- The handler of `DELETE /api/contacts/:id` in `server-mssql.js`, on
`req.params.id`; `pool` is `none` while the module variable `pool` is
`undefined`. -/
def Mssql.deleteContact {σ : Type} (pool : Option (Pool σ)) (id : JsString) (db : σ) :
    Outcome σ :=
  match pool with
  | none =>
    { response := { status := 500, body := Body.failure Mssql.undefinedPoolMessage }
      issued := []
      state := db }
  | some pool =>
    let statement : Statement :=
      { text := Mssql.deleteText, values := []
        inputs := [{ name := "id".toList, type := SqlType.Int, value := JsVal.str id }] }
    match pool.run statement db with
    | (Except.ok _, db') =>
      { response := { status := 200, body := Body.done "Contact deleted successfully".toList }
        issued := [statement]
        state := db' }
    | (Except.error message, db') =>
      { response := { status := 500, body := Body.failure message }
        issued := [statement]
        state := db' }

/-! ## Query builders -/

/-- The text and the bound parameters built by a `POST /api/contacts/query`
handler before the statement is run. -/
structure BuiltQuery where
  query : JsString
  values : List JsVal
  inputs : List SqlInput
  paramCount : Nat
deriving DecidableEq

/-- One `if` block of the builder in `server.js`: the clause and `$n` are
appended to the text, the value is pushed, `paramCount` is incremented. -/
def Pg.addFilter (b : BuiltQuery) (clause : JsString) (value : JsVal) : BuiltQuery :=
  { b with
    query := b.query ++ (clause ++ "$".toList ++ toStr (JsVal.num b.paramCount))
    values := b.values ++ [value]
    paramCount := b.paramCount + 1 }

/-- The template literal that wraps a filter value between two `%`. -/
def wrapPercent (value : JsVal) : JsVal :=
  JsVal.str ("%".toList ++ toStr value ++ "%".toList)

/-- The query builder of `POST /api/contacts/query` in `server.js`. -/
def Pg.buildQuery (filters : JsObject) : BuiltQuery :=
  let b : BuiltQuery :=
    { query := "SELECT * FROM contact_submissions WHERE 1=1".toList
      values := [], inputs := [], paramCount := 1 }
  let b := if truthy (getProp filters "name".toList) then
      Pg.addFilter b " AND name ILIKE ".toList (wrapPercent (getProp filters "name".toList))
    else b
  let b := if truthy (getProp filters "email".toList) then
      Pg.addFilter b " AND email ILIKE ".toList (wrapPercent (getProp filters "email".toList))
    else b
  let b := if truthy (getProp filters "platform".toList) then
      Pg.addFilter b " AND platform = ".toList (getProp filters "platform".toList)
    else b
  let b := if truthy (getProp filters "startDate".toList) then
      Pg.addFilter b " AND timestamp >= ".toList (getProp filters "startDate".toList)
    else b
  let b := if truthy (getProp filters "endDate".toList) then
      Pg.addFilter b " AND timestamp <= ".toList (getProp filters "endDate".toList)
    else b
  { b with query := b.query ++ " ORDER BY timestamp DESC".toList }

/-- One `if` block of the builder in `server-mssql.js`: the clause is appended
to the text and the value is registered with `request.input`. -/
def Mssql.addFilter (b : BuiltQuery) (clause : JsString) (input : SqlInput) : BuiltQuery :=
  { b with
    query := b.query ++ clause
    inputs := b.inputs ++ [input] }

/-- The query builder of `POST /api/contacts/query` in `server-mssql.js`. -/
def Mssql.buildQuery (filters : JsObject) : BuiltQuery :=
  let b : BuiltQuery :=
    { query := "SELECT * FROM ContactSubmissions WHERE 1=1".toList
      values := [], inputs := [], paramCount := 0 }
  let b := if truthy (getProp filters "name".toList) then
      Mssql.addFilter b " AND name LIKE @name".toList
        { name := "name".toList, type := SqlType.NVarChar
          value := wrapPercent (getProp filters "name".toList) }
    else b
  let b := if truthy (getProp filters "email".toList) then
      Mssql.addFilter b " AND email LIKE @email".toList
        { name := "email".toList, type := SqlType.NVarChar
          value := wrapPercent (getProp filters "email".toList) }
    else b
  let b := if truthy (getProp filters "platform".toList) then
      Mssql.addFilter b " AND platform = @platform".toList
        { name := "platform".toList, type := SqlType.NVarChar
          value := getProp filters "platform".toList }
    else b
  let b := if truthy (getProp filters "startDate".toList) then
      Mssql.addFilter b " AND timestamp >= @startDate".toList
        { name := "startDate".toList, type := SqlType.DateTime
          value := getProp filters "startDate".toList }
    else b
  let b := if truthy (getProp filters "endDate".toList) then
      Mssql.addFilter b " AND timestamp <= @endDate".toList
        { name := "endDate".toList, type := SqlType.DateTime
          value := getProp filters "endDate".toList }
    else b
  { b with query := b.query ++ " ORDER BY timestamp DESC".toList }

/-- The text of the list-all query of `GET /api/contacts` in `server.js`. -/
def Pg.listAllText : JsString :=
  "SELECT * FROM contact_submissions ORDER BY timestamp DESC".toList

/-- The text of the list-all query of `GET /api/contacts` in
`server-mssql.js`. -/
def Mssql.listAllText : JsString :=
  "SELECT * FROM ContactSubmissions ORDER BY timestamp DESC".toList

/-! ## The other handlers -/

/-- The value of a character as a digit of `parseInt`: `0` to `9`, then the
letters of either case from ten on. -/
def digitValue (c : Char) : Option Nat :=
  if '0' ≤ c ∧ c ≤ '9' then some (c.toNat - 48)
  else if 'a' ≤ c ∧ c ≤ 'z' then some (c.toNat - 87)
  else if 'A' ≤ c ∧ c ≤ 'Z' then some (c.toNat - 55)
  else none

/-- The values of the leading digits of a text in a radix. -/
def leadingDigits (radix : Nat) : JsString → List Nat
  | [] => []
  | c :: rest =>
    match digitValue c with
    | some d => if d < radix then d :: leadingDigits radix rest else []
    | none => []

/-- The double nearest to a natural number, as a natural number: numbers below
`2^53` are exact, a larger one keeps its 53 leading bits, rounded to nearest,
ties to even. -/
def roundToDouble (n : Nat) : Nat :=
  if n < 2 ^ 53 then n
  else
    let dropped := Nat.log2 n - 52
    let kept := n / 2 ^ dropped
    let rest := n % 2 ^ dropped
    let half := 2 ^ (dropped - 1)
    let kept := if half < rest ∨ (rest = half ∧ kept % 2 = 1) then kept + 1 else kept
    kept * 2 ^ dropped

/-- The call `parseInt(v)` without a radix, as its result is written by
`res.json`: the text of `v` is read after its leading white space, an optional
sign and an optional `0x`, up to the first character that is not a digit of the
radix, and the integer read is rounded to a double; without any digit the
result is `NaN`, and beyond the largest double it is `Infinity`, both of which
JSON writes as `null`.  (For a decimal text of more than twenty significant
digits the language lets an engine round differently.) -/
def parseInt (v : JsVal) : JsVal :=
  let s := (toStr v).dropWhile isJsSpace
  let negative : Bool := s.head? = some '-'
  let s := match s with
    | '-' :: rest => rest
    | '+' :: rest => rest
    | s => s
  let radix : Nat := match s with
    | '0' :: 'x' :: _ => 16
    | '0' :: 'X' :: _ => 16
    | _ => 10
  let s := match s with
    | '0' :: 'x' :: rest => rest
    | '0' :: 'X' :: rest => rest
    | s => s
  match leadingDigits radix s with
  | [] => JsVal.null
  | digits =>
    let n : Nat := roundToDouble (digits.foldl (fun acc d => acc * radix + d) 0)
    if 2 ^ 1024 ≤ n then JsVal.null
    else JsVal.num (if negative then -(n : Int) else (n : Int))

/-- The message of the `TypeError` raised by reading the property `name` of
`undefined`, as `rows[0].total` does on an empty result. -/
def undefinedReadMessage (name : JsString) : JsString :=
  "Cannot read properties of undefined (reading '".toList ++ name ++ "')".toList

/-- The handler of `GET /api/contacts` in `server.js`. -/
def Pg.listContacts {σ : Type} (pool : Pool σ) (db : σ) : Outcome σ :=
  let statement : Statement := { text := Pg.listAllText, values := [], inputs := [] }
  match pool.run statement db with
  | (Except.ok result, db') =>
    { response := { status := 200, body := Body.listed result.rowCount result.rows }
      issued := [statement]
      state := db' }
  | (Except.error message, db') =>
    { response := { status := 500, body := Body.failure message }
      issued := [statement]
      state := db' }

/-- The handler of `GET /api/contacts` in `server-mssql.js`; the count is
`result.recordset.length`. -/
def Mssql.listContacts {σ : Type} (pool : Option (Pool σ)) (db : σ) : Outcome σ :=
  match pool with
  | none =>
    { response := { status := 500, body := Body.failure Mssql.undefinedPoolMessage }
      issued := []
      state := db }
  | some pool =>
    let statement : Statement := { text := Mssql.listAllText, values := [], inputs := [] }
    match pool.run statement db with
    | (Except.ok result, db') =>
      { response := { status := 200, body := Body.listed result.rows.length result.rows }
        issued := [statement]
        state := db' }
    | (Except.error message, db') =>
      { response := { status := 500, body := Body.failure message }
        issued := [statement]
        state := db' }

/-- The handler of `GET /api/contacts/:id` in `server.js`, on
`req.params.id`. -/
def Pg.getContact {σ : Type} (pool : Pool σ) (id : JsString) (db : σ) : Outcome σ :=
  let statement : Statement :=
    { text := "SELECT * FROM contact_submissions WHERE id = $1".toList
      values := [JsVal.str id], inputs := [] }
  match pool.run statement db with
  | (Except.ok result, db') =>
    match result.rows with
    | [] =>
      { response := { status := 404, body := Body.failure "Contact not found".toList }
        issued := [statement]
        state := db' }
    | row :: _ =>
      { response := { status := 200, body := Body.found row }
        issued := [statement]
        state := db' }
  | (Except.error message, db') =>
    { response := { status := 500, body := Body.failure message }
      issued := [statement]
      state := db' }

/-- The handler of `GET /api/contacts/:id` in `server-mssql.js`, on
`req.params.id`. -/
def Mssql.getContact {σ : Type} (pool : Option (Pool σ)) (id : JsString) (db : σ) :
    Outcome σ :=
  match pool with
  | none =>
    { response := { status := 500, body := Body.failure Mssql.undefinedPoolMessage }
      issued := []
      state := db }
  | some pool =>
    let statement : Statement :=
      { text := "SELECT * FROM ContactSubmissions WHERE id = @id".toList, values := []
        inputs := [{ name := "id".toList, type := SqlType.Int, value := JsVal.str id }] }
    match pool.run statement db with
    | (Except.ok result, db') =>
      match result.rows with
      | [] =>
        { response := { status := 404, body := Body.failure "Contact not found".toList }
          issued := [statement]
          state := db' }
      | row :: _ =>
        { response := { status := 200, body := Body.found row }
          issued := [statement]
          state := db' }
    | (Except.error message, db') =>
      { response := { status := 500, body := Body.failure message }
        issued := [statement]
        state := db' }

/-- The handler of `POST /api/contacts/query` in `server.js`, on `req.body`:
the built text is run with the built values. -/
def Pg.queryContacts {σ : Type} (pool : Pool σ) (filters : JsObject) (db : σ) : Outcome σ :=
  let b := Pg.buildQuery filters
  let statement : Statement := { text := b.query, values := b.values, inputs := [] }
  match pool.run statement db with
  | (Except.ok result, db') =>
    { response := { status := 200, body := Body.queried result.rowCount filters result.rows }
      issued := [statement]
      state := db' }
  | (Except.error message, db') =>
    { response := { status := 500, body := Body.failure message }
      issued := [statement]
      state := db' }

/-- The handler of `POST /api/contacts/query` in `server-mssql.js`, on
`req.body`: the built text is run with the registered inputs. -/
def Mssql.queryContacts {σ : Type} (pool : Option (Pool σ)) (filters : JsObject) (db : σ) :
    Outcome σ :=
  match pool with
  | none =>
    { response := { status := 500, body := Body.failure Mssql.undefinedPoolMessage }
      issued := []
      state := db }
  | some pool =>
    let b := Mssql.buildQuery filters
    let statement : Statement := { text := b.query, values := [], inputs := b.inputs }
    match pool.run statement db with
    | (Except.ok result, db') =>
      { response :=
          { status := 200, body := Body.queried result.rows.length filters result.rows }
        issued := [statement]
        state := db' }
    | (Except.error message, db') =>
      { response := { status := 500, body := Body.failure message }
        issued := [statement]
        state := db' }

/-- The body of the `try` block of a stats handler: the three statements are
run one after the other, the first failure ends the block, and the body is
built from the three results; reading `rows[0].total` or `rows[0].recent` of
an empty result raises a `TypeError`.  `convert` is what the variant applies
to the two counts. -/
def statsOutcome {σ : Type} (pool : Pool σ) (total platform recent : Statement)
    (convert : JsVal → JsVal) (db : σ) : Outcome σ :=
  match pool.run total db with
  | (Except.error message, db1) =>
    { response := { status := 500, body := Body.failure message }
      issued := [total]
      state := db1 }
  | (Except.ok totalResult, db1) =>
    match pool.run platform db1 with
    | (Except.error message, db2) =>
      { response := { status := 500, body := Body.failure message }
        issued := [total, platform]
        state := db2 }
    | (Except.ok platformResult, db2) =>
      match pool.run recent db2 with
      | (Except.error message, db3) =>
        { response := { status := 500, body := Body.failure message }
          issued := [total, platform, recent]
          state := db3 }
      | (Except.ok recentResult, db3) =>
        { response :=
            match totalResult.rows.head? with
            | none =>
              { status := 500, body := Body.failure (undefinedReadMessage "total".toList) }
            | some totalRow =>
              match recentResult.rows.head? with
              | none =>
                { status := 500, body := Body.failure (undefinedReadMessage "recent".toList) }
              | some recentRow =>
                { status := 200
                  body := Body.stats (convert (getProp totalRow "total".toList))
                    (convert (getProp recentRow "recent".toList)) platformResult.rows }
          issued := [total, platform, recent]
          state := db3 }

/-- The handler of `GET /api/stats` in `server.js`: the two counts go through
`parseInt`. -/
def Pg.getStats {σ : Type} (pool : Pool σ) (db : σ) : Outcome σ :=
  statsOutcome pool
    { text := "SELECT COUNT(*) as total FROM contact_submissions".toList
      values := [], inputs := [] }
    { text := "\n            SELECT platform, COUNT(*) as count \n            FROM contact_submissions \n            GROUP BY platform\n        ".toList
      values := [], inputs := [] }
    { text := "\n            SELECT COUNT(*) as recent \n            FROM contact_submissions \n            WHERE timestamp >= NOW() - INTERVAL '7 days'\n        ".toList
      values := [], inputs := [] }
    parseInt db

/-- The handler of `GET /api/stats` in `server-mssql.js`: the two counts are
sent as the driver returns them. -/
def Mssql.getStats {σ : Type} (pool : Option (Pool σ)) (db : σ) : Outcome σ :=
  match pool with
  | none =>
    { response := { status := 500, body := Body.failure Mssql.undefinedPoolMessage }
      issued := []
      state := db }
  | some pool =>
    statsOutcome pool
      { text := "SELECT COUNT(*) as total FROM ContactSubmissions".toList
        values := [], inputs := [] }
      { text := "\n            SELECT platform, COUNT(*) as count \n            FROM ContactSubmissions \n            GROUP BY platform\n        ".toList
        values := [], inputs := [] }
      { text := "\n            SELECT COUNT(*) as recent \n            FROM ContactSubmissions \n            WHERE timestamp >= DATEADD(day, -7, GETDATE())\n        ".toList
        values := [], inputs := [] }
      id db

/-- The handler of `DELETE /api/contacts` in `server.js`. -/
def Pg.clearContacts {σ : Type} (pool : Pool σ) (db : σ) : Outcome σ :=
  let statement : Statement :=
    { text := "DELETE FROM contact_submissions".toList, values := [], inputs := [] }
  match pool.run statement db with
  | (Except.ok _, db') =>
    { response := { status := 200, body := Body.done "All contacts cleared".toList }
      issued := [statement]
      state := db' }
  | (Except.error message, db') =>
    { response := { status := 500, body := Body.failure message }
      issued := [statement]
      state := db' }

/-- The handler of `DELETE /api/contacts` in `server-mssql.js`. -/
def Mssql.clearContacts {σ : Type} (pool : Option (Pool σ)) (db : σ) : Outcome σ :=
  match pool with
  | none =>
    { response := { status := 500, body := Body.failure Mssql.undefinedPoolMessage }
      issued := []
      state := db }
  | some pool =>
    let statement : Statement :=
      { text := "DELETE FROM ContactSubmissions".toList, values := [], inputs := [] }
    match pool.run statement db with
    | (Except.ok _, db') =>
      { response := { status := 200, body := Body.done "All contacts cleared".toList }
        issued := [statement]
        state := db' }
    | (Except.error message, db') =>
      { response := { status := 500, body := Body.failure message }
        issued := [statement]
        state := db' }

/-- A request to one of the eight routes under `/api` that reach the store,
with what the handler reads of it. -/
inductive ApiRequest where
  /-- The route `GET /api/contacts`. -/
  | listContacts : ApiRequest
  /-- The route `GET /api/contacts/:id`. -/
  | getContact (id : JsString) : ApiRequest
  /-- The route `POST /api/contacts`, with `req.body`. -/
  | createContact (body : JsObject) : ApiRequest
  /-- The route `POST /api/contacts/query`, with `req.body`. -/
  | queryContacts (filters : JsObject) : ApiRequest
  /-- The route `GET /api/stats`. -/
  | getStats : ApiRequest
  /-- The route `GET /api/export/csv`. -/
  | exportCsv : ApiRequest
  /-- The route `DELETE /api/contacts/:id`. -/
  | deleteContact (id : JsString) : ApiRequest
  /-- The route `DELETE /api/contacts`. -/
  | clearContacts : ApiRequest
deriving DecidableEq

/-- The routes of `server.js`: each request goes to its handler. -/
def Pg.handle {σ : Type} (pool : Pool σ) (request : ApiRequest) (db : σ) : Outcome σ :=
  match request with
  | ApiRequest.listContacts => Pg.listContacts pool db
  | ApiRequest.getContact id => Pg.getContact pool id db
  | ApiRequest.createContact body => Pg.createContact pool body db
  | ApiRequest.queryContacts filters => Pg.queryContacts pool filters db
  | ApiRequest.getStats => Pg.getStats pool db
  | ApiRequest.exportCsv => Pg.exportCsvHandler pool db
  | ApiRequest.deleteContact id => Pg.deleteContact pool id db
  | ApiRequest.clearContacts => Pg.clearContacts pool db

/-- The routes of `server-mssql.js`: each request goes to its handler. -/
def Mssql.handle {σ : Type} (pool : Option (Pool σ)) (request : ApiRequest) (db : σ) :
    Outcome σ :=
  match request with
  | ApiRequest.listContacts => Mssql.listContacts pool db
  | ApiRequest.getContact id => Mssql.getContact pool id db
  | ApiRequest.createContact body => Mssql.createContact pool body db
  | ApiRequest.queryContacts filters => Mssql.queryContacts pool filters db
  | ApiRequest.getStats => Mssql.getStats pool db
  | ApiRequest.exportCsv => Mssql.exportCsvHandler pool db
  | ApiRequest.deleteContact id => Mssql.deleteContact pool id db
  | ApiRequest.clearContacts => Mssql.clearContacts pool db

/-! ## The client of the API -/

/-- A value read from a property of a parsed response body: an array of
records, a record, or a value of another kind. -/
inductive ApiValue where
  | records (rows : List JsObject) : ApiValue
  | record (row : JsObject) : ApiValue
  | value (v : JsVal) : ApiValue
deriving DecidableEq

/-- Truthiness of a value read from a response body; arrays and objects are
truthy. -/
def ApiValue.truthy : ApiValue → Bool
  | ApiValue.records _ => true
  | ApiValue.record _ => true
  | ApiValue.value v => ContactApi.truthy v

/-- The value `await response.json()` resolves to: `null`, an object with its
properties, or a value of another kind (a boolean, a number, a string, an
array), every named property of which reads `undefined`. -/
inductive ParsedBody where
  | null : ParsedBody
  | object (fields : List (JsString × ApiValue)) : ParsedBody
  | other : ParsedBody
deriving DecidableEq

/-- How the two awaits of a method of `SQLDataCentre` end: `fetch` rejects,
`response.json()` rejects because the body is not JSON, or the body is
parsed. -/
inductive Exchange where
  | rejected : Exchange
  | notJson : Exchange
  | parsed (result : ParsedBody) : Exchange
deriving DecidableEq

/-- Property read `result[k]` on the fields of a parsed object. -/
def fieldOf (fields : List (JsString × ApiValue)) (k : JsString) : ApiValue :=
  match fields with
  | [] => ApiValue.value JsVal.undefined
  | (k', v) :: rest => if k' = k then v else fieldOf rest k

/-- The expression `result.success ? result[k] : otherwise` inside the `try`
block of a method of `SQLDataCentre`, and the value `otherwise` its `catch`
block returns; reading a property of `null` throws. -/
def successOr (k : JsString) (otherwise : ApiValue) (exchange : Exchange) : ApiValue :=
  match exchange with
  | Exchange.rejected => otherwise
  | Exchange.notJson => otherwise
  | Exchange.parsed ParsedBody.null => otherwise
  | Exchange.parsed ParsedBody.other => otherwise
  | Exchange.parsed (ParsedBody.object fields) =>
    if (fieldOf fields "success".toList).truthy then fieldOf fields k else otherwise

/-- The expression `return result.success` inside the `try` block of a method
of `SQLDataCentre` whose `catch` block returns `false`. -/
def successFlag (exchange : Exchange) : ApiValue :=
  match exchange with
  | Exchange.rejected => ApiValue.value (JsVal.bool false)
  | Exchange.notJson => ApiValue.value (JsVal.bool false)
  | Exchange.parsed ParsedBody.null => ApiValue.value (JsVal.bool false)
  | Exchange.parsed ParsedBody.other => ApiValue.value JsVal.undefined
  | Exchange.parsed (ParsedBody.object fields) => fieldOf fields "success".toList

namespace SQLDataCentre

/-- The method `save` of `app-sql.js`, on the way its request ended. -/
def save (exchange : Exchange) : ApiValue := successFlag exchange

/-- The method `getAll` of `app-sql.js`, on the way its request ended. -/
def getAll (exchange : Exchange) : ApiValue :=
  successOr "data".toList (ApiValue.records []) exchange

/-- The method `query` of `app-sql.js`, on the way its request ended. -/
def query (exchange : Exchange) : ApiValue :=
  successOr "data".toList (ApiValue.records []) exchange

/-- The method `getStats` of `app-sql.js`, on the way its request ended. -/
def getStats (exchange : Exchange) : ApiValue :=
  successOr "stats".toList (ApiValue.value JsVal.null) exchange

/-- The method `clear` of `app-sql.js`, on the way its request ended. -/
def clear (exchange : Exchange) : ApiValue := successFlag exchange

/-- The method `delete` of `app-sql.js`, on the way its request ended. -/
def delete (exchange : Exchange) : ApiValue := successFlag exchange

end SQLDataCentre

/-- What the submit handler of the contact form shows: the text of the alert,
and whether the form was reset. -/
structure FormOutcome where
  alert : JsString
  formReset : Bool
deriving DecidableEq

/-- The submit handler of the contact form in `app-sql.js`, on the way the
request of `dataCentre.save(formData)` ended. -/
def submitContactForm (exchange : Exchange) : FormOutcome :=
  let success := SQLDataCentre.save exchange
  if success.truthy then
    { alert := "✅ Message sent successfully! Your data has been saved to SQL Server.".toList
      formReset := true }
  else
    { alert := "❌ Error saving data. Please make sure the server is running.".toList
      formReset := false }

/-! ## Reading of the generated SQL

The statements built by the handlers are SQL text.  To speak about the rows
they select, the text is read as a `Select`, whose rendering is proved equal to
the text the code builds, and a `Select` is given the meaning the SQL standard
gives it over a table of submissions.  What depends on the database
installation (casts of bound values, collations) is left to an `Engine`. -/

/-- A column of the submissions table. -/
inductive Column where
  | id : Column
  | name : Column
  | email : Column
  | message : Column
  | platform : Column
  | timestamp : Column
  | created_at : Column
deriving DecidableEq

/-- The name of a column in SQL text. -/
def Column.text : Column → JsString
  | Column.id => "id".toList
  | Column.name => "name".toList
  | Column.email => "email".toList
  | Column.message => "message".toList
  | Column.platform => "platform".toList
  | Column.timestamp => "timestamp".toList
  | Column.created_at => "created_at".toList

/-- A parameter placeholder: `$n` (PostgreSQL) or `@name` (SQL Server). -/
inductive Placeholder where
  | positional (n : Nat) : Placeholder
  | named (name : JsString) : Placeholder
deriving DecidableEq

/-- The text of a placeholder. -/
def Placeholder.text : Placeholder → JsString
  | Placeholder.positional n => "$".toList ++ Nat.toDigits 10 n
  | Placeholder.named name => "@".toList ++ name

/-- A condition of a `WHERE` clause. -/
inductive Cond where
  /-- The condition `1=1`. -/
  | always : Cond
  /-- The condition `column ILIKE placeholder`. -/
  | ilike (c : Column) (p : Placeholder) : Cond
  /-- The condition `column LIKE placeholder`. -/
  | like (c : Column) (p : Placeholder) : Cond
  /-- The condition `column = placeholder`. -/
  | eq (c : Column) (p : Placeholder) : Cond
  /-- The condition `column >= placeholder`. -/
  | ge (c : Column) (p : Placeholder) : Cond
  /-- The condition `column <= placeholder`. -/
  | le (c : Column) (p : Placeholder) : Cond
deriving DecidableEq

/-- The text of a condition. -/
def Cond.text : Cond → JsString
  | Cond.always => "1=1".toList
  | Cond.ilike c p => c.text ++ " ILIKE ".toList ++ p.text
  | Cond.like c p => c.text ++ " LIKE ".toList ++ p.text
  | Cond.eq c p => c.text ++ " = ".toList ++ p.text
  | Cond.ge c p => c.text ++ " >= ".toList ++ p.text
  | Cond.le c p => c.text ++ " <= ".toList ++ p.text

/-- A sort key of an `ORDER BY` clause: a column and whether it is `DESC`. -/
structure SortKey where
  column : Column
  desc : Bool
deriving DecidableEq

/-- The text of a sort key. -/
def SortKey.text (k : SortKey) : JsString :=
  k.column.text ++ (if k.desc then " DESC".toList else " ASC".toList)

/-- A statement `SELECT * FROM table [WHERE c AND ...] [ORDER BY k, ...]`. -/
structure Select where
  table : JsString
  conds : List Cond
  orderBy : List SortKey
deriving DecidableEq

/-- The SQL text of a `Select`. -/
def Select.text (q : Select) : JsString :=
  "SELECT * FROM ".toList ++ q.table
    ++ (if q.conds = [] then []
        else " WHERE ".toList ++ " AND ".toList.intercalate (q.conds.map Cond.text))
    ++ (if q.orderBy = [] then []
        else " ORDER BY ".toList ++ ", ".toList.intercalate (q.orderBy.map SortKey.text))

/-- The conditions added by a query builder for the truthy recognized keys of
`filters`; `place k n` is the placeholder of the key `k` when it is the `n`-th
bound parameter. -/
def filterConds (pattern : Column → Placeholder → Cond)
    (place : JsString → Nat → Placeholder) (filters : JsObject) : List Cond :=
  let add (acc : List Cond) (key : JsString) (mk : Placeholder → Cond) : List Cond :=
    if truthy (getProp filters key) then acc ++ [mk (place key acc.length)] else acc
  let acc := add [Cond.always] "name".toList (pattern Column.name)
  let acc := add acc "email".toList (pattern Column.email)
  let acc := add acc "platform".toList (Cond.eq Column.platform)
  let acc := add acc "startDate".toList (Cond.ge Column.timestamp)
  add acc "endDate".toList (Cond.le Column.timestamp)

/-- The statement built by `POST /api/contacts/query` in `server.js`, read as
a `Select`. -/
def Pg.querySelect (filters : JsObject) : Select :=
  { table := "contact_submissions".toList
    conds := filterConds Cond.ilike (fun _ n => Placeholder.positional n) filters
    orderBy := [{ column := Column.timestamp, desc := true }] }

/-- The statement built by `POST /api/contacts/query` in `server-mssql.js`,
read as a `Select`. -/
def Mssql.querySelect (filters : JsObject) : Select :=
  { table := "ContactSubmissions".toList
    conds := filterConds Cond.like (fun key _ => Placeholder.named key) filters
    orderBy := [{ column := Column.timestamp, desc := true }] }

/-- The list-all statement of `GET /api/contacts` in `server.js`, read as a
`Select`. -/
def Pg.listAllSelect : Select :=
  { table := "contact_submissions".toList
    conds := []
    orderBy := [{ column := Column.timestamp, desc := true }] }

/-- The list-all statement of `GET /api/contacts` in `server-mssql.js`, read as
a `Select`. -/
def Mssql.listAllSelect : Select :=
  { table := "ContactSubmissions".toList
    conds := []
    orderBy := [{ column := Column.timestamp, desc := true }] }

/-- A stored submission: one row of the table.  Times are instants on the
database clock. -/
structure Row where
  id : Int
  name : JsString
  email : JsString
  message : JsString
  platform : JsString
  timestamp : Int
  created_at : Int
deriving DecidableEq

/-- What depends on the database installation: the case folding of `ILIKE`,
`LIKE` and `=` on text under the collation of the column, and the casts of a
bound value to text and to a timestamp (`none` is SQL `NULL`). -/
structure Engine where
  fold : Char → Char
  like : JsString → JsString → Bool
  textEq : JsString → JsString → Bool
  asText : JsVal → Option JsString
  asTime : JsVal → Option Int

/-- The text a bound value denotes: a string denotes itself. -/
def Engine.boundText (e : Engine) : JsVal → Option JsString
  | JsVal.str s => some s
  | v => e.asText v

/-- Pattern matching of `ILIKE`: `%` matches any sequence of characters, `_`
any single character, a backslash makes the next character literal, and
letters are compared after case folding. -/
def ilikeMatch (fold : Char → Char) : JsString → JsString → Bool
  | [], [] => true
  | [], _ :: _ => false
  | p :: ps, s =>
    if p = '%' then s.tails.any fun t => ilikeMatch fold ps t
    else if p = '_' then
      match s with
      | [] => false
      | _ :: t => ilikeMatch fold ps t
    else if p = '\\' then
      match ps, s with
      | q :: qs, c :: t => fold q == fold c && ilikeMatch fold qs t
      | _, _ => false
    else
      match s with
      | [] => false
      | c :: t => fold p == fold c && ilikeMatch fold ps t

/-- The text of a text column of a row; `none` for the other columns. -/
def Row.textOf (r : Row) : Column → Option JsString
  | Column.name => some r.name
  | Column.email => some r.email
  | Column.message => some r.message
  | Column.platform => some r.platform
  | _ => none

/-- The instant of a time column of a row; `none` for the other columns. -/
def Row.timeOf (r : Row) : Column → Option Int
  | Column.timestamp => some r.timestamp
  | Column.created_at => some r.created_at
  | _ => none

/-- Whether a row satisfies a condition under the bindings `bind`; a
comparison with `NULL` or with an unbound placeholder selects no row. -/
def Cond.holds (e : Engine) (bind : Placeholder → Option JsVal) (r : Row) : Cond → Bool
  | Cond.always => true
  | Cond.ilike c p =>
    match r.textOf c, (bind p).bind e.boundText with
    | some s, some pattern => ilikeMatch e.fold pattern s
    | _, _ => false
  | Cond.like c p =>
    match r.textOf c, (bind p).bind e.boundText with
    | some s, some pattern => e.like pattern s
    | _, _ => false
  | Cond.eq c p =>
    match r.textOf c, (bind p).bind e.boundText with
    | some s, some wanted => e.textEq s wanted
    | _, _ => false
  | Cond.ge c p =>
    match r.timeOf c, (bind p).bind e.asTime with
    | some t, some bound => decide (bound ≤ t)
    | _, _ => false
  | Cond.le c p =>
    match r.timeOf c, (bind p).bind e.asTime with
    | some t, some bound => decide (t ≤ bound)
    | _, _ => false

/-- The bindings of a built query: `$n` is the `n`-th element of `values`,
`@name` the value registered under `name`. -/
def BuiltQuery.bind (b : BuiltQuery) : Placeholder → Option JsVal
  | Placeholder.positional n => if n = 0 then none else b.values.get? (n - 1)
  | Placeholder.named name => (b.inputs.find? fun i => i.name = name).map SqlInput.value

/-- The integer a row is sorted by, for the columns used as sort keys. -/
def Row.sortValue (r : Row) : Column → Int
  | Column.id => r.id
  | Column.timestamp => r.timestamp
  | Column.created_at => r.created_at
  | _ => 0

/-- Whether `a` may come before `b` under the sort keys: at the first key on
which they differ, `a` is on the side the key asks for. -/
def mayPrecede (keys : List SortKey) (a b : Row) : Bool :=
  match keys with
  | [] => true
  | k :: rest =>
    if a.sortValue k.column = b.sortValue k.column then mayPrecede rest a b
    else if k.desc then decide (b.sortValue k.column < a.sortValue k.column)
    else decide (a.sortValue k.column < b.sortValue k.column)

/-- The answers SQL allows for a `Select` over a table: the selected rows, in
any order that respects the sort keys. -/
def Select.admits (e : Engine) (q : Select) (bind : Placeholder → Option JsVal)
    (table : List Row) (out : List Row) : Prop :=
  out.Perm (table.filter fun r => q.conds.all (Cond.holds e bind r)) ∧
  out.Pairwise fun a b => mayPrecede q.orderBy a b = true

/-- Case-insensitive containment: `needle` occurs in `s` up to case folding. -/
def containsFolded (fold : Char → Char) (needle s : JsString) : Prop :=
  ∃ before middle after, s = before ++ middle ++ after ∧ middle.map fold = needle.map fold

/-- An engine for evaluation on ASCII text: ASCII case folding, exact text
equality, `LIKE` as `ILIKE` without folding, no cast of other values. -/
def asciiEngine : Engine :=
  { fold := Char.toLower
    like := ilikeMatch id
    textEq := fun a b => a == b
    asText := fun _ => none
    asTime := fun _ => none }

/-- Lower-casing of the letters `A`..`Z`; on ASCII text this is
`String.prototype.toLowerCase`. -/
def asciiLower (s : JsString) : JsString := s.map Char.toLower

/-! ## Vocabulary of the statements -/

/-- The line written for one record: its values in header order, each passed
through the callback of the serializer, then joined by commas. -/
def rowLine (csvValue : JsVal → JsVal) (headers : List JsString) (row : JsObject) : JsString :=
  joinStrings ",".toList (headers.map fun header => joinItem (csvValue (readProp row header)))

/-- The header line: the keys joined by commas. -/
def headerLine (headers : List JsString) : JsString :=
  joinStrings ",".toList headers

/-- The filter keys the query builders read. -/
def recognizedKeys : List JsString :=
  ["name".toList, "email".toList, "platform".toList, "startDate".toList, "endDate".toList]

/-- A pool on which every statement fails with the given message. -/
def failingPool (message : JsString) : Pool Unit :=
  { run := fun _ db => (Except.error message, db) }

/-- A pool over a table kept in memory: a statement with four values is
answered by the row it inserts, numbered after the rows already stored. -/
def memoryPool : Pool (List JsObject) :=
  { run := fun statement db =>
      let row : JsObject :=
        [ ("id".toList, JsVal.num (db.length + 1)),
          ("name".toList, statement.values.getD 0 JsVal.null),
          ("email".toList, statement.values.getD 1 JsVal.null),
          ("message".toList, statement.values.getD 2 JsVal.null),
          ("platform".toList, statement.values.getD 3 JsVal.null) ]
      (Except.ok { rows := [row], rowCount := 1 }, db ++ [row]) }

/-- A row with the given identifier, name and timestamp. -/
def sampleRow (id : Int) (name : JsString) (timestamp : Int) : Row :=
  { id := id, name := name, email := "a@x.com".toList, message := "hi".toList
    platform := "Desktop".toList, timestamp := timestamp, created_at := timestamp }

/-- The sort keys `timestamp DESC`. -/
def byTimestampDesc : List SortKey := [{ column := Column.timestamp, desc := true }]

/-- The sort keys `timestamp DESC, id DESC`. -/
def byTimestampThenIdDesc : List SortKey :=
  [{ column := Column.timestamp, desc := true }, { column := Column.id, desc := true }]

/-- A record of the local store holding only a platform. -/
def platformRecord (platform : JsString) : JsObject :=
  [("platform".toList, JsVal.str platform)]

/-- A submission as the contact form of `app.js` stores it: the object literal
`formData`, with its keys in the order they are written. -/
structure Submission where
  id : Int
  name : JsString
  email : JsString
  message : JsString
  timestamp : JsString
  platform : JsString
deriving DecidableEq

/-- The stored object of a submission. -/
def Submission.toObject (s : Submission) : JsObject :=
  [ ("id".toList, JsVal.num s.id),
    ("name".toList, JsVal.str s.name),
    ("email".toList, JsVal.str s.email),
    ("message".toList, JsVal.str s.message),
    ("timestamp".toList, JsVal.str s.timestamp),
    ("platform".toList, JsVal.str s.platform) ]

/-- A text that survives the CSV round trip of `app.js` unchanged: no comma,
no double quote, no newline, and no white space at either end. -/
def Plain (s : JsString) : Prop :=
  ',' ∉ s ∧ '"' ∉ s ∧ '\n' ∉ s ∧ trim s = s

/-- The insert issued by `POST /api/contacts` in `server.js` for a body. -/
def Pg.insertStatement (body : JsObject) : Statement :=
  { text := Pg.insertText
    values := [getProp body "name".toList, getProp body "email".toList,
      getProp body "message".toList, platformOrUnknown (getProp body "platform".toList)]
    inputs := [] }

/-- The insert issued by `POST /api/contacts` in `server-mssql.js` for a
body. -/
def Mssql.insertStatement (body : JsObject) : Statement :=
  { text := Mssql.insertText
    values := []
    inputs :=
      [ { name := "name".toList, type := SqlType.NVarChar, value := getProp body "name".toList },
        { name := "email".toList, type := SqlType.NVarChar, value := getProp body "email".toList },
        { name := "message".toList, type := SqlType.NVarChar,
          value := getProp body "message".toList },
        { name := "platform".toList, type := SqlType.NVarChar,
          value := platformOrUnknown (getProp body "platform".toList) } ] }

/-- The response to a create request whose insert was answered by `answer`. -/
def createdResponse (answer : Except JsString QueryResult) : Response :=
  match answer with
  | Except.ok result => { status := 201, body := Body.saved result.rows.head? }
  | Except.error message => { status := 500, body := Body.failure message }

/-- The response to a create request that fails validation. -/
def requiredFieldsResponse : Response :=
  { status := 400, body := Body.failure "Name, email, and message are required".toList }

/-- The keys of a stored submission. -/
def submissionKeys : List JsString :=
  ["id".toList, "name".toList, "email".toList, "message".toList, "timestamp".toList,
   "platform".toList]

/-- The value `values[index] ? values[index].trim() : ''` of `importFromCSV`
for a field text. -/
def importedCell (v : JsString) : JsString :=
  if truthy (JsVal.str v) then trim v else []

/-- The record `importFromCSV` builds from the exported line of a submission
whose texts are plain: every value is a string, the identifier in decimal. -/
def Submission.imported (s : Submission) : JsObject :=
  [ ("id".toList, JsVal.str (intText s.id)),
    ("name".toList, JsVal.str s.name),
    ("email".toList, JsVal.str s.email),
    ("message".toList, JsVal.str s.message),
    ("timestamp".toList, JsVal.str s.timestamp),
    ("platform".toList, JsVal.str s.platform) ]

/-- A submission whose five texts are plain. -/
def Submission.Plain (s : Submission) : Prop :=
  ContactApi.Plain s.name ∧ ContactApi.Plain s.email ∧ ContactApi.Plain s.message ∧
  ContactApi.Plain s.timestamp ∧ ContactApi.Plain s.platform

instance (s : JsString) : Decidable (Plain s) := by
  unfold Plain
  infer_instance

instance (s : Submission) : Decidable s.Plain := by
  unfold Submission.Plain
  infer_instance

/-- A submission of the sample store, with the given name and message. -/
def sampleSubmission (id : Int) (name message : JsString) : Submission :=
  { id := id, name := name, email := "a@x.com".toList, message := message
    timestamp := "2024-05-01T10:00:00.000Z".toList, platform := "Desktop".toList }

/-- The sum of the counts of a platform breakdown; a count that is not a
number adds nothing. -/
def sumCounts (breakdown : JsObject) : Int :=
  (breakdown.map fun e =>
    match e.2 with
    | JsVal.num n => n
    | _ => 0).sum

/-- A database holding the submissions table, for the delete statements of
both variants: `DELETE ... WHERE id = <param>` removes the rows whose `id` is
the integer the bound value denotes and reports how many it removed.  `asInt`
is the cast of a bound value to the type of the `id` column; the statement
fails on a value it rejects.  Other statements are outside this database. -/
def tablePool (asInt : JsVal → Option Int) : Pool (List Row) :=
  { run := fun statement table =>
      let bound : Option JsVal :=
        if statement.text = Pg.deleteText then statement.values.head?
        else if statement.text = Mssql.deleteText then
          (statement.inputs.find? fun i => i.name = "id".toList).map SqlInput.value
        else none
      match bound.bind asInt with
      | some n =>
        (Except.ok { rows := [], rowCount := (table.filter fun r => r.id = n).length },
          table.filter fun r => r.id ≠ n)
      | none => (Except.error "invalid input syntax for type integer".toList, table) }

/-- A cast of decimal text to an integer, for evaluation: the decimal text of
a natural number denotes it, anything else is rejected. -/
def decimalInt (v : JsVal) : Option Int :=
  match v with
  | JsVal.str s =>
    let n : Int := s.foldl (fun acc c => acc * 10 + ((c.toNat : Int) - 48)) 0
    if s ≠ [] ∧ intText n = s then some n else none
  | _ => none

/-- A pool that answers every statement with the given rows. -/
def fixedPool (rows : List JsObject) : Pool Unit :=
  { run := fun _ db => (Except.ok { rows := rows, rowCount := rows.length }, db) }

/-- No key of the first record and no field written for a record holds a
newline. -/
def NewlineFree (csvValue : JsVal → JsVal) (first : JsObject) (rows : List JsObject) : Prop :=
  (∀ h ∈ objectKeys first, '\n' ∉ h) ∧
  ∀ row ∈ rows, ∀ h ∈ objectKeys first, '\n' ∉ joinItem (csvValue (readProp row h))

instance (csvValue : JsVal → JsVal) (first : JsObject) (rows : List JsObject) :
    Decidable (NewlineFree csvValue first rows) := by
  unfold NewlineFree
  infer_instance

/-- A timestamp of the sample rows, with its two renderings. -/
def sampleDate : JsDate :=
  { iso := "2024-05-01T10:00:00.000Z".toList
    text := "Wed May 01 2024 10:00:00 GMT+0000 (Coordinated Universal Time)".toList }

/-- A row as a driver returns it, with a `Date` in its timestamp column. -/
def sampleResultRow (id : Int) (name : JsString) : JsObject :=
  [ ("id".toList, JsVal.num id), ("name".toList, JsVal.str name),
    ("email".toList, JsVal.str "a@x.com".toList), ("message".toList, JsVal.str "hi".toList),
    ("platform".toList, JsVal.str "Desktop".toList), ("timestamp".toList, JsVal.date sampleDate) ]

/-- The statement issued by `GET /api/export/csv` in `server.js`. -/
def Pg.exportStatement : Statement :=
  { text := "SELECT * FROM contact_submissions ORDER BY timestamp DESC".toList
    values := [], inputs := [] }

/-- The statement issued by `GET /api/export/csv` in `server-mssql.js`. -/
def Mssql.exportStatement : Statement :=
  { text := "SELECT * FROM ContactSubmissions ORDER BY timestamp DESC".toList
    values := [], inputs := [] }

/-- The response of an export endpoint whose query was answered by `answer`,
`exportCsv` being the serializer of the variant. -/
def exportResponse (exportCsv : List JsObject → Option JsString)
    (answer : Except JsString QueryResult) : Response :=
  match answer with
  | Except.ok result =>
    match exportCsv result.rows with
    | none => { status := 404, body := Body.failure "No data to export".toList }
    | some csv => { status := 200, body := Body.csv csv }
  | Except.error message => { status := 500, body := Body.failure message }

/-- A value that is a string. -/
def IsText (v : JsVal) : Prop := ∃ s, v = JsVal.str s

/-- A platform breakdown in which every key occurs once, every count is a
number, and the counts sum to `k`. -/
def CountsTo (b : JsObject) (k : Int) : Prop :=
  (objectKeys b).Nodup ∧ (∀ e ∈ b, ∃ n, e.2 = JsVal.num n) ∧ sumCounts b = k

/-- The message of the first failure met when the statements are run in order
from a database state, if one of them fails. -/
def firstFailure {σ : Type} (pool : Pool σ) : List Statement → σ → Option JsString
  | [], _ => none
  | statement :: rest, db =>
    match pool.run statement db with
    | (Except.error message, _) => some message
    | (Except.ok _, db') => firstFailure pool rest db'

/-- The parsed body `{ success: false, error }` of a failure response. -/
def failureJson (error : JsString) : ParsedBody :=
  ParsedBody.object
    [ ("success".toList, ApiValue.value (JsVal.bool false)),
      ("error".toList, ApiValue.value (JsVal.str error)) ]

/-- The parsed body `{ success: true, count, data }` of a list response. -/
def listedJson (count : Nat) (rows : List JsObject) : ParsedBody :=
  ParsedBody.object
    [ ("success".toList, ApiValue.value (JsVal.bool true)),
      ("count".toList, ApiValue.value (JsVal.num count)),
      ("data".toList, ApiValue.records rows) ]

/-- The recognized filters of the PostgreSQL builder in the order of its `if`
blocks: the key, the clause appended before the placeholder, and whether the
value is wrapped between two `%`. -/
def Pg.filterSpecs : List (JsString × JsString × Bool) :=
  [ ("name".toList, " AND name ILIKE ".toList, true),
    ("email".toList, " AND email ILIKE ".toList, true),
    ("platform".toList, " AND platform = ".toList, false),
    ("startDate".toList, " AND timestamp >= ".toList, false),
    ("endDate".toList, " AND timestamp <= ".toList, false) ]

/-- The recognized filters whose key holds a truthy value, in order. -/
def Pg.activeFilters (filters : JsObject) : List (JsString × JsString × Bool) :=
  Pg.filterSpecs.filter fun spec => truthy (getProp filters spec.1)

/-- The value a recognized filter binds: wrapped as `'%' + value + '%'` for
name and email, unchanged for the others. -/
def Pg.boundValue (filters : JsObject) (spec : JsString × JsString × Bool) : JsVal :=
  if spec.2.2 then wrapPercent (getProp filters spec.1) else getProp filters spec.1

/-- The text of the placeholder `$n`. -/
def dollar (n : Nat) : JsString := '$' :: Nat.toDigits 10 n

/-- The conditions appended for a list of filters, the first of which uses the
placeholder `$n`: each clause followed by its placeholder, numbered upwards. -/
def Pg.clauses : Nat → List (JsString × JsString × Bool) → JsString
  | _, [] => []
  | n, spec :: rest => spec.2.1 ++ dollar n ++ Pg.clauses (n + 1) rest

/-- The request body of the example: Ann writing from a phone. -/
def annBody : JsObject :=
  [ ("name".toList, JsVal.str "Ann".toList), ("email".toList, JsVal.str "a@x.com".toList),
    ("message".toList, JsVal.str "hi".toList), ("platform".toList, JsVal.str "Mobile".toList) ]

/-- A key that survives the header line of `exportToCSV` and the `split` and
`trim` of `importFromCSV`: no comma, no newline, no white space at either
end. -/
def PlainKey (k : JsString) : Prop :=
  ',' ∉ k ∧ '\n' ∉ k ∧ trim k = k

instance (k : JsString) : Decidable (PlainKey k) := by
  unfold PlainKey
  infer_instance

/-- The object obtained from `{}` by assigning the given properties in order;
a list of properties is in `Object.keys` order when this gives it back. -/
def objectOf (entries : JsObject) : JsObject :=
  entries.foldl (fun o e => setProp o e.1 e.2) []

/-- The object holding, for each header in order, the field a record has under
that header. -/
def recordWithKeys (headers : List JsString) (r : JsObject) : JsObject :=
  objectOf (headers.map fun h => (h, getProp r h))

/-- A record whose fields are all plain texts. -/
def PlainRecord (r : JsObject) : Prop :=
  ∀ e ∈ r, ∃ v, e.2 = JsVal.str v ∧ Plain v

/-- The text of a string value, empty for any other value. -/
def textOf : JsVal → JsString
  | JsVal.str s => s
  | _ => []

instance (r : JsObject) : Decidable (PlainRecord r) :=
  decidable_of_iff (∀ e ∈ r, e.2 = JsVal.str (textOf e.2) ∧ Plain (textOf e.2))
    ⟨fun h e he => ⟨textOf e.2, h e he⟩,
     fun h e he => by
      obtain ⟨v, hv, hp⟩ := h e he
      rw [hv]
      exact ⟨rfl, hp⟩⟩

/-- A record of the sample store with two fields. -/
def sampleRecord (name city : JsString) : JsObject :=
  [("name".toList, JsVal.str name), ("city".toList, JsVal.str city)]

/-- A record that owns a property named `__proto__`, as `JSON.parse` creates
it from the text `{"__proto__":"x","a":"y"}`. -/
def protoRecord : JsObject :=
  [("__proto__".toList, JsVal.str "x".toList), ("a".toList, JsVal.str "y".toList)]

/-- A store of one record whose first value and whose second key hold a
newline. -/
def newlineRecords : List JsObject :=
  [[("a".toList, JsVal.str "x\ny".toList), ("b\nc".toList, JsVal.str "z".toList)]]

/-- The text the PostgreSQL builder gives when `flags` tells which recognized
keys hold a truthy value. -/
def Pg.textFor (flags : JsString → Bool) : JsString :=
  "SELECT * FROM contact_submissions WHERE 1=1".toList
    ++ Pg.clauses 1 (Pg.filterSpecs.filter fun spec => flags spec.1)
    ++ " ORDER BY timestamp DESC".toList

/-- The recognized filters of the SQL Server builder in the order of its `if`
blocks: the key, which is also the name of the input, the clause appended, the
type of the input, and whether the value is wrapped between two `%`. -/
def Mssql.filterSpecs : List (JsString × JsString × SqlType × Bool) :=
  [ ("name".toList, " AND name LIKE @name".toList, SqlType.NVarChar, true),
    ("email".toList, " AND email LIKE @email".toList, SqlType.NVarChar, true),
    ("platform".toList, " AND platform = @platform".toList, SqlType.NVarChar, false),
    ("startDate".toList, " AND timestamp >= @startDate".toList, SqlType.DateTime, false),
    ("endDate".toList, " AND timestamp <= @endDate".toList, SqlType.DateTime, false) ]

/-- The text the SQL Server builder gives when `flags` tells which recognized
keys hold a truthy value. -/
def Mssql.textFor (flags : JsString → Bool) : JsString :=
  "SELECT * FROM ContactSubmissions WHERE 1=1".toList
    ++ (Mssql.filterSpecs.filter fun spec => flags spec.1).flatMap (fun spec => spec.2.1)
    ++ " ORDER BY timestamp DESC".toList

/-- The input a recognized filter registers: named after the key, with the
type of the block, the value wrapped as `'%' + value + '%'` for name and email
and unchanged for the others. -/
def Mssql.boundInput (filters : JsObject) (spec : JsString × JsString × SqlType × Bool) :
    SqlInput :=
  { name := spec.1, type := spec.2.2.1
    value := if spec.2.2.2 then wrapPercent (getProp filters spec.1) else getProp filters spec.1 }

/-- The inputs registered by the SQL Server builder: one for each recognized
key holding a truthy value, in order. -/
def Mssql.boundInputs (filters : JsObject) : List SqlInput :=
  (Mssql.filterSpecs.filter fun spec => truthy (getProp filters spec.1)).map
    (Mssql.boundInput filters)

/-- The statements run, in order, when the given statements are sent one
after the other from a database state and the first failure ends the run. -/
def ranUntilFailure {σ : Type} (pool : Pool σ) : List Statement → σ → List Statement
  | [], _ => []
  | statement :: rest, db =>
    match pool.run statement db with
    | (Except.error _, _) => [statement]
    | (Except.ok _, db') => statement :: ranUntilFailure pool rest db'

/-- The store operation of each route of `server.js`: the statements its
handler sends to the pool, in order; a create request that fails validation
sends none. -/
def Pg.statementsOf (request : ApiRequest) : List Statement :=
  match request with
  | ApiRequest.listContacts =>
    [{ text := "SELECT * FROM contact_submissions ORDER BY timestamp DESC".toList
       values := [], inputs := [] }]
  | ApiRequest.getContact id =>
    [{ text := "SELECT * FROM contact_submissions WHERE id = $1".toList
       values := [JsVal.str id], inputs := [] }]
  | ApiRequest.createContact body =>
    if truthy (getProp body "name".toList) ∧ truthy (getProp body "email".toList) ∧
        truthy (getProp body "message".toList) then
      [Pg.insertStatement body]
    else []
  | ApiRequest.queryContacts filters =>
    [{ text := (Pg.buildQuery filters).query, values := (Pg.buildQuery filters).values
       inputs := [] }]
  | ApiRequest.getStats =>
    [ { text := "SELECT COUNT(*) as total FROM contact_submissions".toList
        values := [], inputs := [] },
      { text := "\n            SELECT platform, COUNT(*) as count \n            FROM contact_submissions \n            GROUP BY platform\n        ".toList
        values := [], inputs := [] },
      { text := "\n            SELECT COUNT(*) as recent \n            FROM contact_submissions \n            WHERE timestamp >= NOW() - INTERVAL '7 days'\n        ".toList
        values := [], inputs := [] } ]
  | ApiRequest.exportCsv =>
    [{ text := "SELECT * FROM contact_submissions ORDER BY timestamp DESC".toList
       values := [], inputs := [] }]
  | ApiRequest.deleteContact id =>
    [{ text := "DELETE FROM contact_submissions WHERE id = $1".toList
       values := [JsVal.str id], inputs := [] }]
  | ApiRequest.clearContacts =>
    [{ text := "DELETE FROM contact_submissions".toList, values := [], inputs := [] }]

/-- The store operation of each route of `server-mssql.js` once the pool is
connected: the statements its handler sends, in order, with their inputs; a
create request that fails validation sends none. -/
def Mssql.statementsOf (request : ApiRequest) : List Statement :=
  match request with
  | ApiRequest.listContacts =>
    [{ text := "SELECT * FROM ContactSubmissions ORDER BY timestamp DESC".toList
       values := [], inputs := [] }]
  | ApiRequest.getContact id =>
    [{ text := "SELECT * FROM ContactSubmissions WHERE id = @id".toList, values := []
       inputs := [{ name := "id".toList, type := SqlType.Int, value := JsVal.str id }] }]
  | ApiRequest.createContact body =>
    if truthy (getProp body "name".toList) ∧ truthy (getProp body "email".toList) ∧
        truthy (getProp body "message".toList) then
      [Mssql.insertStatement body]
    else []
  | ApiRequest.queryContacts filters =>
    [{ text := (Mssql.buildQuery filters).query, values := []
       inputs := (Mssql.buildQuery filters).inputs }]
  | ApiRequest.getStats =>
    [ { text := "SELECT COUNT(*) as total FROM ContactSubmissions".toList
        values := [], inputs := [] },
      { text := "\n            SELECT platform, COUNT(*) as count \n            FROM ContactSubmissions \n            GROUP BY platform\n        ".toList
        values := [], inputs := [] },
      { text := "\n            SELECT COUNT(*) as recent \n            FROM ContactSubmissions \n            WHERE timestamp >= DATEADD(day, -7, GETDATE())\n        ".toList
        values := [], inputs := [] } ]
  | ApiRequest.exportCsv =>
    [{ text := "SELECT * FROM ContactSubmissions ORDER BY timestamp DESC".toList
       values := [], inputs := [] }]
  | ApiRequest.deleteContact id =>
    [{ text := "DELETE FROM ContactSubmissions WHERE id = @id".toList, values := []
       inputs := [{ name := "id".toList, type := SqlType.Int, value := JsVal.str id }] }]
  | ApiRequest.clearContacts =>
    [{ text := "DELETE FROM ContactSubmissions".toList, values := [], inputs := [] }]

/-- A database holding two submissions stored at the same instant: it answers
the list-all text of `server.js` with the two rows in one order and any other
statement with the two rows in the other order, as `ORDER BY timestamp DESC`
allows for rows of equal timestamp. -/
def tiePool : Pool Unit :=
  { run := fun statement db =>
      if statement.text = Pg.listAllText then
        (Except.ok { rows := [sampleResultRow 1 "Anna".toList, sampleResultRow 2 "Juan".toList]
                     rowCount := 2 }, db)
      else
        (Except.ok { rows := [sampleResultRow 2 "Juan".toList, sampleResultRow 1 "Anna".toList]
                     rowCount := 2 }, db) }

/-! ## Lemmas -/

theorem foldl_append_eq (f : JsObject → JsString) (rows : List JsObject) (init : JsString) :
    rows.foldl (fun csv row => csv ++ f row) init = init ++ rows.flatMap f := by
  induction rows generalizing init with
  | nil => simp
  | cons r rs ih => simp [ih, List.append_assoc]

theorem Pg.pgExport_cons (first : JsObject) (rest : List JsObject) :
    Pg.exportCsv (first :: rest) =
      some (headerLine (objectKeys first) ++ '\n' ::
        (first :: rest).flatMap fun row => rowLine Pg.csvValue (objectKeys first) row ++ ['\n']) := by
  simp only [Pg.exportCsv, foldl_append_eq]
  simp [headerLine, rowLine, joinVals, List.map_map, Function.comp_def]

theorem Mssql.mssqlExport_cons (first : JsObject) (rest : List JsObject) :
    Mssql.exportCsv (first :: rest) =
      some (headerLine (objectKeys first) ++ '\n' ::
        (first :: rest).flatMap fun row => rowLine Mssql.csvValue (objectKeys first) row ++ ['\n']) := by
  simp only [Mssql.exportCsv, foldl_append_eq]
  simp [headerLine, rowLine, joinVals, List.map_map, Function.comp_def]

theorem LocalDataCentre.exportToCSV_cons (first : JsObject) (rest : List JsObject) :
    LocalDataCentre.exportToCSV (first :: rest) =
      headerLine (objectKeys first) ++ '\n' ::
        (first :: rest).flatMap fun row =>
          rowLine LocalDataCentre.csvValue (objectKeys first) row ++ ['\n'] := by
  simp only [LocalDataCentre.exportToCSV, foldl_append_eq]
  simp [headerLine, rowLine, joinVals, List.map_map, Function.comp_def]

/-- A text made of newline-terminated lines is the lines, and an empty last
piece, joined by newlines. -/
theorem lines_eq_intercalate (first : JsString) (lines : List JsString) :
    first ++ '\n' :: lines.flatMap (fun l => l ++ ['\n'])
      = ['\n'].intercalate (first :: lines ++ [[]]) := by
  induction lines generalizing first with
  | nil => simp [List.intercalate]
  | cons l ls ih =>
    have := ih l
    simp only [List.intercalate, List.cons_append, List.intersperse_cons_cons,
      List.flatten_cons, List.flatMap_cons, List.append_assoc, List.singleton_append,
      List.nil_append] at this ⊢
    rw [this]

/-- Splitting newline-terminated lines that hold no newline gives the lines
back, followed by one empty piece. -/
theorem split_lines (first : JsString) (lines : List JsString)
    (hfirst : '\n' ∉ first) (hlines : ∀ l ∈ lines, '\n' ∉ l) :
    splitChar (first ++ '\n' :: lines.flatMap (fun l => l ++ ['\n'])) '\n'
      = first :: lines ++ [[]] := by
  rw [lines_eq_intercalate, splitChar]
  apply List.splitOn_intercalate
  · intro l hl
    simp only [List.cons_append, List.mem_cons, List.mem_append, List.mem_singleton,
      List.not_mem_nil, or_false] at hl
    rcases hl with rfl | hl | rfl
    · exact hfirst
    · exact hlines l hl
    · simp
  · simp

theorem flatMap_rowLine (csvValue : JsVal → JsVal) (headers : List JsString)
    (rows : List JsObject) :
    (rows.flatMap fun row => rowLine csvValue headers row ++ ['\n'])
      = (rows.map (rowLine csvValue headers)).flatMap (fun l => l ++ ['\n']) := by
  induction rows with
  | nil => rfl
  | cons r rs ih => simp [ih]

/-- A comma-joined line holds no newline when none of its fields does. -/
theorem not_mem_joinStrings (c : Char) (sep : JsString) (xs : List JsString)
    (hsep : c ∉ sep) (hxs : ∀ x ∈ xs, c ∉ x) : c ∉ joinStrings sep xs := by
  induction xs with
  | nil => simp [joinStrings, List.intercalate]
  | cons x rest ih =>
    cases rest with
    | nil => simpa [joinStrings, List.intercalate] using hxs x (by simp)
    | cons y ys =>
      have hrest := ih (fun z hz => hxs z (List.mem_cons_of_mem _ hz))
      have hx := hxs x (by simp)
      simp only [joinStrings, List.intercalate, List.intersperse_cons_cons, List.flatten_cons,
        List.mem_append, not_or] at hrest ⊢
      exact ⟨hx, hsep, hrest⟩

/-- The built query is determined by the truthiness of the five recognized
keys and by the values of those that are truthy. -/
theorem buildQuery_congr (f g : JsObject)
    (ht : ∀ k ∈ recognizedKeys, truthy (getProp f k) = truthy (getProp g k))
    (hv : ∀ k ∈ recognizedKeys, truthy (getProp g k) = true → getProp f k = getProp g k) :
    Pg.buildQuery f = Pg.buildQuery g ∧ Mssql.buildQuery f = Mssql.buildQuery g := by
  have t1 := ht "name".toList (by decide)
  have t2 := ht "email".toList (by decide)
  have t3 := ht "platform".toList (by decide)
  have t4 := ht "startDate".toList (by decide)
  have t5 := ht "endDate".toList (by decide)
  have v1 := hv "name".toList (by decide)
  have v2 := hv "email".toList (by decide)
  have v3 := hv "platform".toList (by decide)
  have v4 := hv "startDate".toList (by decide)
  have v5 := hv "endDate".toList (by decide)
  constructor
  · simp only [Pg.buildQuery, t1, t2, t3, t4, t5]
    cases c1 : truthy (getProp g "name".toList) <;>
    cases c2 : truthy (getProp g "email".toList) <;>
    cases c3 : truthy (getProp g "platform".toList) <;>
    cases c4 : truthy (getProp g "startDate".toList) <;>
    cases c5 : truthy (getProp g "endDate".toList) <;>
    simp_all
  · simp only [Mssql.buildQuery, t1, t2, t3, t4, t5]
    cases c1 : truthy (getProp g "name".toList) <;>
    cases c2 : truthy (getProp g "email".toList) <;>
    cases c3 : truthy (getProp g "platform".toList) <;>
    cases c4 : truthy (getProp g "startDate".toList) <;>
    cases c5 : truthy (getProp g "endDate".toList) <;>
    simp_all

/-- The text built by the PostgreSQL builder is the SQL text of its reading. -/
theorem Pg.pgQuery_text (f : JsObject) :
    (Pg.buildQuery f).query = (Pg.querySelect f).text := by
  cases c1 : truthy (getProp f "name".toList) <;>
  cases c2 : truthy (getProp f "email".toList) <;>
  cases c3 : truthy (getProp f "platform".toList) <;>
  cases c4 : truthy (getProp f "startDate".toList) <;>
  cases c5 : truthy (getProp f "endDate".toList) <;>
  simp only [Pg.buildQuery, Pg.querySelect, filterConds, Pg.addFilter, c1, c2, c3, c4, c5,
    Bool.false_eq_true, if_true, if_false] <;>
  rfl

/-- The text built by the SQL Server builder is the SQL text of its reading. -/
theorem Mssql.mssqlQuery_text (f : JsObject) :
    (Mssql.buildQuery f).query = (Mssql.querySelect f).text := by
  cases c1 : truthy (getProp f "name".toList) <;>
  cases c2 : truthy (getProp f "email".toList) <;>
  cases c3 : truthy (getProp f "platform".toList) <;>
  cases c4 : truthy (getProp f "startDate".toList) <;>
  cases c5 : truthy (getProp f "endDate".toList) <;>
  simp only [Mssql.buildQuery, Mssql.querySelect, filterConds, Mssql.addFilter, c1, c2, c3, c4,
    c5, Bool.false_eq_true, if_true, if_false] <;>
  rfl

/-- The conditions of the reading depend on the truthiness of the recognized
keys only. -/
theorem filterConds_congr (pattern : Column → Placeholder → Cond)
    (place : JsString → Nat → Placeholder) (f g : JsObject)
    (ht : ∀ k ∈ recognizedKeys, truthy (getProp f k) = truthy (getProp g k)) :
    filterConds pattern place f = filterConds pattern place g := by
  simp only [filterConds, ht "name".toList (by decide), ht "email".toList (by decide),
    ht "platform".toList (by decide), ht "startDate".toList (by decide),
    ht "endDate".toList (by decide)]

theorem ilikeMatch_cons (fold : Char → Char) (p : Char) (ps s : JsString) :
    ilikeMatch fold (p :: ps) s =
      if p = '%' then s.tails.any fun t => ilikeMatch fold ps t
      else if p = '_' then
        match s with
        | [] => false
        | _ :: t => ilikeMatch fold ps t
      else if p = '\\' then
        match ps, s with
        | q :: qs, c :: t => fold q == fold c && ilikeMatch fold qs t
        | _, _ => false
      else
        match s with
        | [] => false
        | c :: t => fold p == fold c && ilikeMatch fold ps t := by
  cases ps <;> cases s <;> rfl

theorem ilikeMatch_percent (fold : Char → Char) (p s : JsString) :
    ilikeMatch fold ('%' :: p) s = true ↔ ∃ t, t <:+ s ∧ ilikeMatch fold p t = true := by
  rw [ilikeMatch_cons]
  simp only [if_true, List.any_eq_true, List.mem_tails]

theorem ilikeMatch_literal (fold : Char → Char) (n : JsString)
    (hn : ∀ c ∈ n, c ≠ '%' ∧ c ≠ '_' ∧ c ≠ '\\') (s : JsString) :
    ilikeMatch fold (n ++ ['%']) s = true ↔
      ∃ middle after, s = middle ++ after ∧ middle.map fold = n.map fold := by
  induction n generalizing s with
  | nil =>
    simp only [List.nil_append, ilikeMatch_percent, List.map_nil, List.map_eq_nil_iff]
    constructor
    · intro _; exact ⟨[], s, rfl, rfl⟩
    · intro _; exact ⟨[], List.nil_suffix, rfl⟩
  | cons c n ih =>
    obtain ⟨h1, h2, h3⟩ := hn c (by simp)
    have ih' := ih (fun d hd => hn d (List.mem_cons_of_mem _ hd))
    rw [List.cons_append, ilikeMatch_cons]
    simp only [h1, h2, h3, if_false]
    cases s with
    | nil =>
      simp
    | cons d t =>
      simp only [Bool.and_eq_true, beq_iff_eq, ih' t]
      constructor
      · rintro ⟨hcd, mid, post, rfl, hmid⟩
        exact ⟨d :: mid, post, rfl, by simp [hcd, hmid]⟩
      · rintro ⟨mid, post, hs, hmid⟩
        cases mid with
        | nil => simp at hmid
        | cons m mid =>
          simp only [List.map_cons, List.cons.injEq] at hmid
          simp only [List.cons_append, List.cons.injEq] at hs
          obtain ⟨rfl, rfl⟩ := hs
          exact ⟨hmid.1.symm, mid, post, rfl, hmid.2⟩

theorem ilikeMatch_wrapped (fold : Char → Char) (n : JsString)
    (hn : ∀ c ∈ n, c ≠ '%' ∧ c ≠ '_' ∧ c ≠ '\\') (s : JsString) :
    ilikeMatch fold ('%' :: n ++ ['%']) s = true ↔ containsFolded fold n s := by
  rw [List.cons_append, ilikeMatch_percent]
  simp only [ilikeMatch_literal fold n hn, containsFolded]
  constructor
  · rintro ⟨t, ⟨pre, rfl⟩, mid, post, rfl, hmid⟩
    exact ⟨pre, mid, post, by simp, hmid⟩
  · rintro ⟨pre, mid, post, rfl, hmid⟩
    exact ⟨mid ++ post, ⟨pre, by simp⟩, mid, post, rfl, hmid⟩

theorem mayPrecede_timestamp (a b : Row) :
    mayPrecede byTimestampDesc a b = true ↔ b.timestamp ≤ a.timestamp := by
  simp only [mayPrecede, byTimestampDesc, Row.sortValue]
  by_cases h : a.timestamp = b.timestamp
  · simp [h]
  · simp only [h, if_false, if_true, decide_eq_true_eq]
    omega

theorem admits_sorted (e : Engine) (q : Select) (bind : Placeholder → Option JsVal)
    (table out : List Row) (hq : q.orderBy = byTimestampDesc)
    (h : q.admits e bind table out) :
    out.Pairwise fun a b => b.timestamp ≤ a.timestamp := by
  have := h.2
  rw [hq] at this
  exact this.imp fun {a b} hab => (mayPrecede_timestamp a b).mp hab

theorem Pg.bind_name (f : JsObject) (h : truthy (getProp f "name".toList) = true) :
    (Pg.buildQuery f).bind (Placeholder.positional 1)
      = some (wrapPercent (getProp f "name".toList)) := by
  cases c2 : truthy (getProp f "email".toList) <;>
  cases c3 : truthy (getProp f "platform".toList) <;>
  cases c4 : truthy (getProp f "startDate".toList) <;>
  cases c5 : truthy (getProp f "endDate".toList) <;>
  simp only [Pg.buildQuery, Pg.addFilter, BuiltQuery.bind, h, c2, c3, c4, c5,
    Bool.false_eq_true, if_true, if_false] <;>
  rfl

theorem Pg.bind_email (f : JsObject) (h : truthy (getProp f "email".toList) = true) :
    (Pg.buildQuery f).bind
        (Placeholder.positional (if truthy (getProp f "name".toList) then 2 else 1))
      = some (wrapPercent (getProp f "email".toList)) := by
  cases c1 : truthy (getProp f "name".toList) <;>
  cases c3 : truthy (getProp f "platform".toList) <;>
  cases c4 : truthy (getProp f "startDate".toList) <;>
  cases c5 : truthy (getProp f "endDate".toList) <;>
  simp only [Pg.buildQuery, Pg.addFilter, BuiltQuery.bind, h, c1, c3, c4, c5,
    Bool.false_eq_true, if_true, if_false] <;>
  rfl

theorem Pg.conds_name (f : JsObject) (h : truthy (getProp f "name".toList) = true) :
    Cond.ilike Column.name (Placeholder.positional 1) ∈ (Pg.querySelect f).conds := by
  cases c2 : truthy (getProp f "email".toList) <;>
  cases c3 : truthy (getProp f "platform".toList) <;>
  cases c4 : truthy (getProp f "startDate".toList) <;>
  cases c5 : truthy (getProp f "endDate".toList) <;>
  simp only [Pg.querySelect, filterConds, h, c2, c3, c4, c5,
    Bool.false_eq_true, if_true, if_false] <;>
  decide

theorem Pg.conds_email (f : JsObject) (h : truthy (getProp f "email".toList) = true) :
    Cond.ilike Column.email
        (Placeholder.positional (if truthy (getProp f "name".toList) then 2 else 1))
      ∈ (Pg.querySelect f).conds := by
  cases c1 : truthy (getProp f "name".toList) <;>
  cases c3 : truthy (getProp f "platform".toList) <;>
  cases c4 : truthy (getProp f "startDate".toList) <;>
  cases c5 : truthy (getProp f "endDate".toList) <;>
  simp only [Pg.querySelect, filterConds, h, c1, c3, c4, c5,
    Bool.false_eq_true, if_true, if_false] <;>
  decide

theorem truthy_str (n : JsString) (hn : n ≠ []) : truthy (JsVal.str n) = true := by
  cases n with
  | nil => exact absurd rfl hn
  | cons c cs => rfl

theorem createdResponse_ne (answer : Except JsString QueryResult) :
    createdResponse answer ≠ requiredFieldsResponse := by
  cases answer <;> simp [createdResponse, requiredFieldsResponse]

theorem Pg.pgCreate_valid {σ : Type} (pool : Pool σ) (body : JsObject) (db : σ)
    (h1 : truthy (getProp body "name".toList) = true)
    (h2 : truthy (getProp body "email".toList) = true)
    (h3 : truthy (getProp body "message".toList) = true) :
    (Pg.createContact pool body db).issued = [Pg.insertStatement body] ∧
    (Pg.createContact pool body db).response
      = createdResponse (pool.run (Pg.insertStatement body) db).1 ∧
    (Pg.createContact pool body db).state = (pool.run (Pg.insertStatement body) db).2 := by
  simp only [Pg.createContact, h1, h2, h3, Pg.insertStatement]
  rcases pool.run _ db with ⟨_ | _, _⟩ <;> simp [createdResponse]

theorem Mssql.mssqlCreate_valid {σ : Type} (pool : Pool σ) (body : JsObject) (db : σ)
    (h1 : truthy (getProp body "name".toList) = true)
    (h2 : truthy (getProp body "email".toList) = true)
    (h3 : truthy (getProp body "message".toList) = true) :
    (Mssql.createContact (some pool) body db).issued = [Mssql.insertStatement body] ∧
    (Mssql.createContact (some pool) body db).response
      = createdResponse (pool.run (Mssql.insertStatement body) db).1 ∧
    (Mssql.createContact (some pool) body db).state
      = (pool.run (Mssql.insertStatement body) db).2 := by
  simp only [Mssql.createContact, h1, h2, h3, Mssql.insertStatement]
  rcases pool.run _ db with ⟨_ | _, _⟩ <;> simp [createdResponse]

theorem Pg.pgCreate_invalid {σ : Type} (pool : Pool σ) (body : JsObject) (db : σ)
    (h : truthy (getProp body "name".toList) = false ∨
      truthy (getProp body "email".toList) = false ∨
      truthy (getProp body "message".toList) = false) :
    Pg.createContact pool body db
      = { response := requiredFieldsResponse, issued := [], state := db } := by
  rcases h with h | h | h <;>
    simp only [Pg.createContact, h, Bool.not_false, Bool.true_or, Bool.or_true, if_true,
      requiredFieldsResponse]

theorem Mssql.mssqlCreate_invalid {σ : Type} (pool : Option (Pool σ)) (body : JsObject)
    (db : σ)
    (h : truthy (getProp body "name".toList) = false ∨
      truthy (getProp body "email".toList) = false ∨
      truthy (getProp body "message".toList) = false) :
    Mssql.createContact pool body db
      = { response := requiredFieldsResponse, issued := [], state := db } := by
  rcases h with h | h | h <;>
    simp only [Mssql.createContact, h, Bool.not_false, Bool.true_or, Bool.or_true, if_true,
      requiredFieldsResponse]

theorem startsWith_iff (s needle : JsString) :
    startsWith s needle = true ↔ ∃ after, s = needle ++ after := by
  induction needle generalizing s with
  | nil => simp [startsWith]
  | cons d ds ih =>
    cases s with
    | nil => simp [startsWith]
    | cons c cs =>
      simp only [startsWith, Bool.and_eq_true, beq_iff_eq, ih, List.cons_append, List.cons.injEq]
      constructor
      · rintro ⟨rfl, a, rfl⟩; exact ⟨a, rfl, rfl⟩
      · rintro ⟨a, rfl, rfl⟩; exact ⟨rfl, a, rfl⟩

theorem includesStr_iff (s needle : JsString) :
    includesStr s needle = true ↔ ∃ before after, s = before ++ needle ++ after := by
  induction s with
  | nil =>
    simp only [includesStr, List.isEmpty_iff]
    constructor
    · rintro rfl; exact ⟨[], [], rfl⟩
    · rintro ⟨a, b, h⟩
      have := congrArg List.length h
      simp at this
      exact List.length_eq_zero.mp (by omega)
  | cons c cs ih =>
    simp only [includesStr, Bool.or_eq_true, startsWith_iff, ih]
    constructor
    · rintro (⟨a, h⟩ | ⟨b, a, h⟩)
      · exact ⟨[], a, by simpa using h⟩
      · exact ⟨c :: b, a, by simp [h]⟩
    · rintro ⟨b, a, h⟩
      cases b with
      | nil => exact Or.inl ⟨a, by simpa using h⟩
      | cons b0 bs =>
        simp only [List.cons_append, List.cons.injEq] at h
        exact Or.inr ⟨bs, a, by simpa using h.2⟩

theorem LocalDataCentre.filterBy_str (toLowerCase : JsString → JsString) (key w : JsString)
    (data : List JsObject) :
    LocalDataCentre.filterBy toLowerCase key (JsVal.str w) data
      = some (data.filter fun item =>
          match getProp item key with
          | JsVal.str s => includesStr (toLowerCase s) (toLowerCase w)
          | _ => false) := by
  induction data with
  | nil => rfl
  | cons item rest ih =>
    simp only [LocalDataCentre.filterBy, ih, List.filter_cons]
    cases hv : getProp item key <;> simp [strictEq]
    case str s =>
      rcases Bool.eq_false_or_eq_true (includesStr (toLowerCase s) (toLowerCase w)) with hi | hi <;>
        simp [hi]

theorem fillRow_submission (v0 v1 v2 v3 v4 v5 : JsString) :
    LocalDataCentre.fillRow [v0, v1, v2, v3, v4, v5] submissionKeys 0 []
      = [("id".toList, JsVal.str (importedCell v0)), ("name".toList, JsVal.str (importedCell v1)),
         ("email".toList, JsVal.str (importedCell v2)),
         ("message".toList, JsVal.str (importedCell v3)),
         ("timestamp".toList, JsVal.str (importedCell v4)),
         ("platform".toList, JsVal.str (importedCell v5))] := by
  rfl

theorem toDigitsCore_chars (fuel n : Nat) (ds : List Char) (c : Char)
    (hc : c ∈ Nat.toDigitsCore 10 fuel n ds) : c ∈ ds ∨ c ∈ "0123456789".toList := by
  induction fuel generalizing n ds with
  | zero => exact Or.inl (by simpa [Nat.toDigitsCore] using hc)
  | succ fuel ih =>
    have hd : Nat.digitChar (n % 10) ∈ "0123456789".toList := by
      have hlt : n % 10 < 10 := Nat.mod_lt _ (by decide)
      have hall : ∀ d < 10, Nat.digitChar d ∈ "0123456789".toList := by decide
      exact hall _ hlt
    simp only [Nat.toDigitsCore] at hc
    split at hc
    · rcases List.mem_cons.mp hc with rfl | h
      · exact Or.inr hd
      · exact Or.inl h
    · rcases ih _ _ hc with h | h
      · rcases List.mem_cons.mp h with rfl | h'
        · exact Or.inr hd
        · exact Or.inl h'
      · exact Or.inr h

theorem intText_chars (n : Int) (c : Char) (hc : c ∈ intText n) :
    c ∈ "-0123456789".toList := by
  have hsub : ∀ d ∈ "0123456789".toList, d ∈ "-0123456789".toList := by decide
  cases n with
  | ofNat m =>
    rcases toDigitsCore_chars _ _ _ c hc with h | h
    · simp at h
    · exact hsub c h
  | negSucc m =>
    rcases List.mem_cons.mp hc with rfl | h
    · decide
    · rcases toDigitsCore_chars _ _ _ c h with h | h
      · simp at h
      · exact hsub c h

theorem dropWhile_eq_self {p : Char → Bool} (s : JsString) (h : ∀ c ∈ s, p c = false) :
    s.dropWhile p = s := by
  cases s with
  | nil => rfl
  | cons c cs => simp [List.dropWhile, h c (by simp)]

theorem trim_eq_self (s : JsString) (h : ∀ c ∈ s, isJsSpace c = false) : trim s = s := by
  unfold trim
  rw [dropWhile_eq_self s h, dropWhile_eq_self s.reverse (fun c hc => h c (List.mem_reverse.mp hc)),
    List.reverse_reverse]

theorem trim_ne_nil (s : JsString) (c : Char) (hc : c ∈ s) (hs : isJsSpace c = false) :
    trim s ≠ [] := by
  intro h
  unfold trim at h
  have h1 : (s.dropWhile isJsSpace).reverse.dropWhile isJsSpace = [] := by
    simpa using h
  have h2 : ∀ x ∈ s.dropWhile isJsSpace, isJsSpace x = true := by
    intro x hx
    exact List.dropWhile_eq_nil_iff.mp h1 x (List.mem_reverse.mpr hx)
  have h3 : s.dropWhile isJsSpace = [] := by
    rw [← List.dropWhile_idempotent]
    exact List.dropWhile_eq_nil_iff.mpr h2
  have h4 := List.dropWhile_eq_nil_iff.mp h3 c hc
  rw [hs] at h4
  exact Bool.false_ne_true h4

theorem intText_plain (n : Int) :
    ',' ∉ intText n ∧ '\n' ∉ intText n ∧ trim (intText n) = intText n := by
  have hall : ∀ c ∈ "-0123456789".toList, c ≠ ',' ∧ c ≠ '\n' ∧ isJsSpace c = false := by decide
  refine ⟨fun h => (hall _ (intText_chars n _ h)).1 rfl,
    fun h => (hall _ (intText_chars n _ h)).2.1 rfl,
    trim_eq_self _ fun c hc => (hall c (intText_chars n c hc)).2.2⟩

theorem importedCell_eq (v : JsString) (h : trim v = v) : importedCell v = v := by
  cases v with
  | nil => rfl
  | cons c cs => simp [importedCell, truthy, h]

theorem csvValue_plain (v : JsString) (h : Plain v) :
    joinItem (LocalDataCentre.csvValue (JsVal.str v)) = v := by
  have hq : needsQuoting v = false := by
    simp [needsQuoting, includesChar, h.1, h.2.1]
  simp [LocalDataCentre.csvValue, hq, joinItem, toStr]

theorem rowLine_submission (s : Submission) (h : s.Plain) :
    rowLine LocalDataCentre.csvValue submissionKeys s.toObject
      = [','].intercalate [intText s.id, s.name, s.email, s.message, s.timestamp, s.platform] := by
  obtain ⟨h1, h2, h3, h4, h5⟩ := h
  have e0 : joinItem (LocalDataCentre.csvValue (readProp s.toObject "id".toList)) = intText s.id :=
    rfl
  have e1 : joinItem (LocalDataCentre.csvValue (readProp s.toObject "name".toList)) = s.name :=
    csvValue_plain _ h1
  have e2 : joinItem (LocalDataCentre.csvValue (readProp s.toObject "email".toList)) = s.email :=
    csvValue_plain _ h2
  have e3 : joinItem (LocalDataCentre.csvValue (readProp s.toObject "message".toList))
      = s.message := csvValue_plain _ h3
  have e4 : joinItem (LocalDataCentre.csvValue (readProp s.toObject "timestamp".toList))
      = s.timestamp := csvValue_plain _ h4
  have e5 : joinItem (LocalDataCentre.csvValue (readProp s.toObject "platform".toList))
      = s.platform := csvValue_plain _ h5
  simp only [rowLine, submissionKeys, List.map_cons, List.map_nil, e0, e1, e2, e3, e4, e5]
  rfl

theorem parse_line_submission (s : Submission) (h : s.Plain) :
    (if trim (rowLine LocalDataCentre.csvValue submissionKeys s.toObject) = [] then none
      else some (LocalDataCentre.fillRow
        (splitChar (rowLine LocalDataCentre.csvValue submissionKeys s.toObject) ',')
        submissionKeys 0 [])) = some s.imported := by
  have hsplit : splitChar (rowLine LocalDataCentre.csvValue submissionKeys s.toObject) ','
      = [intText s.id, s.name, s.email, s.message, s.timestamp, s.platform] := by
    rw [rowLine_submission s h, splitChar]
    apply List.splitOn_intercalate
    · intro l hl
      simp only [List.mem_cons, List.mem_singleton, List.not_mem_nil, or_false] at hl
      rcases hl with rfl | rfl | rfl | rfl | rfl | rfl
      · exact (intText_plain s.id).1
      · exact h.1.1
      · exact h.2.1.1
      · exact h.2.2.1.1
      · exact h.2.2.2.1.1
      · exact h.2.2.2.2.1
    · simp
  have hblank : trim (rowLine LocalDataCentre.csvValue submissionKeys s.toObject) ≠ [] := by
    apply trim_ne_nil _ ','
    · rw [rowLine_submission s h]
      simp [List.intercalate]
    · decide
  rw [if_neg hblank, hsplit, fillRow_submission,
    importedCell_eq _ (intText_plain s.id).2.2, importedCell_eq _ h.1.2.2.2,
    importedCell_eq _ h.2.1.2.2.2, importedCell_eq _ h.2.2.1.2.2.2,
    importedCell_eq _ h.2.2.2.1.2.2.2, importedCell_eq _ h.2.2.2.2.2.2.2]
  rfl

theorem rowLine_no_newline (s : Submission) (h : s.Plain) :
    '\n' ∉ rowLine LocalDataCentre.csvValue submissionKeys s.toObject := by
  rw [rowLine_submission s h]
  apply not_mem_joinStrings '\n' [','] _ (by decide)
  intro l hl
  simp only [List.mem_cons, List.mem_singleton, List.not_mem_nil, or_false] at hl
  rcases hl with rfl | rfl | rfl | rfl | rfl | rfl
  · exact (intText_plain s.id).2.1
  · exact h.1.2.2.1
  · exact h.2.1.2.2.1
  · exact h.2.2.1.2.2.1
  · exact h.2.2.2.1.2.2.1
  · exact h.2.2.2.2.2.2.1

theorem parseCSV_export_submissions (subs : List Submission) (h : ∀ s ∈ subs, s.Plain) :
    LocalDataCentre.parseCSV (LocalDataCentre.exportToCSV (subs.map Submission.toObject))
      = subs.map Submission.imported := by
  cases subs with
  | nil => decide
  | cons first rest =>
    have hkeys : objectKeys first.toObject = submissionKeys := rfl
    have hheader : headerLine submissionKeys
        = "id,name,email,message,timestamp,platform".toList := by decide
    rw [List.map_cons, LocalDataCentre.exportToCSV_cons, hkeys, flatMap_rowLine,
      LocalDataCentre.parseCSV, ← List.map_cons, split_lines]
    · simp only [List.headD_cons, List.cons_append, List.drop_succ_cons, List.drop_zero]
      have hsplit : splitChar (headerLine submissionKeys) ',' = submissionKeys := by decide
      rw [hsplit, List.filterMap_append]
      have hlast : List.filterMap
          (fun line => if trim line = [] then none
            else some (LocalDataCentre.fillRow (splitChar line ',') submissionKeys 0 []))
          [([] : JsString)] = [] := by decide
      rw [hlast, List.append_nil, List.map_map, List.filterMap_map]
      have : ∀ l : List Submission, (∀ s ∈ l, s.Plain) →
          List.filterMap
            ((fun line => if trim line = [] then none
              else some (LocalDataCentre.fillRow (splitChar line ',') submissionKeys 0 [])) ∘
              (rowLine LocalDataCentre.csvValue submissionKeys ∘ Submission.toObject)) l
            = l.map Submission.imported := by
        intro l hl
        induction l with
        | nil => rfl
        | cons a t ih =>
          rw [List.filterMap_cons, List.map_cons]
          have ha := parse_line_submission a (hl a (by simp))
          simp only [Function.comp] at ha ⊢
          rw [ha, ih (fun s hs => hl s (List.mem_cons_of_mem _ hs))]
      exact this _ h
    · rw [hheader]; decide
    · intro l hl
      obtain ⟨o, ho, rfl⟩ := List.mem_map.mp hl
      obtain ⟨s, hs, rfl⟩ := List.mem_map.mp ho
      exact rowLine_no_newline s (h s hs)

theorem foldl_save (data store : List JsObject) :
    data.foldl LocalDataCentre.save store = store ++ data := by
  induction data generalizing store with
  | nil => simp
  | cons d ds ih => simp [LocalDataCentre.save, ih]

theorem getProp_absent (row : JsObject) (h : JsString) (hh : h ∉ objectKeys row) :
    getProp row h = JsVal.undefined := by
  induction row with
  | nil => rfl
  | cons e rest ih =>
    obtain ⟨k, v⟩ := e
    simp only [objectKeys, List.map_cons, List.mem_cons, not_or] at hh
    have hne : ¬ k = h := fun hk => hh.1 hk.symm
    simp only [getProp, hne, if_false]
    exact ih hh.2

theorem readProp_of_mem (r : JsObject) (h : JsString) (hh : h ∈ objectKeys r) :
    readProp r h = getProp r h := by
  have hany : r.any (fun e => decide (e.1 = h)) = true := by
    obtain ⟨e, he, hek⟩ := List.mem_map.mp hh
    exact List.any_eq_true.mpr ⟨e, he, decide_eq_true hek⟩
  unfold readProp
  rw [if_pos hany]

theorem readProp_of_defined (r : JsObject) (h : JsString)
    (hd : getProp r h ≠ JsVal.undefined) : readProp r h = getProp r h := by
  by_cases hh : h ∈ objectKeys r
  · exact readProp_of_mem r h hh
  · exact absurd (getProp_absent r h hh) hd

theorem readProp_of_absent (r : JsObject) (h : JsString) (hh : h ∉ objectKeys r) :
    readProp r h = match objectPrototype h with
      | some text => JsVal.obj text
      | none => JsVal.undefined := by
  have hany : ¬ r.any (fun e => decide (e.1 = h)) = true := by
    intro hany
    obtain ⟨e, he, hek⟩ := List.any_eq_true.mp hany
    exact hh (List.mem_map.mpr ⟨e, he, of_decide_eq_true hek⟩)
  unfold readProp
  rw [if_neg hany]

theorem readProp_of_plain_key (r : JsObject) (h : JsString) (hp : objectPrototype h = none) :
    readProp r h = getProp r h := by
  by_cases hh : h ∈ objectKeys r
  · exact readProp_of_mem r h hh
  · rw [readProp_of_absent r h hh, hp, getProp_absent r h hh]

theorem rowLine_congr (csvValue : JsVal → JsVal) (headers : List JsString) (r r' : JsObject)
    (h : ∀ k ∈ headers, readProp r k = readProp r' k) :
    rowLine csvValue headers r = rowLine csvValue headers r' := by
  unfold rowLine
  congr 1
  apply List.map_congr_left
  intro k hk
  rw [h k hk]

theorem flatMap_rowLine_congr (csvValue : JsVal → JsVal) (headers : List JsString)
    (rest rest' : List JsObject)
    (h : List.Forall₂ (fun r r' => ∀ k ∈ headers, readProp r k = readProp r' k) rest rest') :
    (rest.flatMap fun row => rowLine csvValue headers row ++ ['\n'])
      = rest'.flatMap fun row => rowLine csvValue headers row ++ ['\n'] := by
  induction h with
  | nil => rfl
  | cons hr _ ih =>
    simp only [List.flatMap_cons, ih, rowLine_congr csvValue headers _ _ hr]

theorem intercalate_append (sep : JsString) (xs ys : List JsString) (hx : xs ≠ [])
    (hy : ys ≠ []) :
    sep.intercalate (xs ++ ys) = sep.intercalate xs ++ sep ++ sep.intercalate ys := by
  induction xs with
  | nil => exact absurd rfl hx
  | cons x rest ih =>
    cases rest with
    | nil =>
      cases ys with
      | nil => exact absurd rfl hy
      | cons y ys' => simp [List.intercalate]
    | cons x' rest' =>
      have := ih (by simp)
      simp only [List.intercalate, List.cons_append, List.intersperse_cons_cons,
        List.flatten_cons, List.append_assoc] at this ⊢
      rw [this]

theorem rowLine_append (csvValue : JsVal → JsVal) (before after : List JsString)
    (row : JsObject) (hb : before ≠ []) (ha : after ≠ []) :
    rowLine csvValue (before ++ after) row
      = rowLine csvValue before row ++ ',' :: rowLine csvValue after row := by
  unfold rowLine joinStrings
  rw [List.map_append, intercalate_append _ _ _ (by simpa using hb) (by simpa using ha)]
  simp

theorem rowLine_single (csvValue : JsVal → JsVal) (h : JsString) (row : JsObject) :
    rowLine csvValue [h] row = joinItem (csvValue (readProp row h)) := by
  simp [rowLine, joinStrings, List.intercalate]

theorem count_newline_lines (first : JsString) (lines : List JsString)
    (hfirst : '\n' ∉ first) (hlines : ∀ l ∈ lines, '\n' ∉ l) :
    (first ++ '\n' :: lines.flatMap (fun l => l ++ ['\n'])).count '\n' = lines.length + 1 := by
  have hflat : (lines.flatMap (fun l => l ++ ['\n'])).count '\n' = lines.length := by
    induction lines with
    | nil => rfl
    | cons l ls ih =>
      have hl := hlines l (by simp)
      have := ih (fun x hx => hlines x (List.mem_cons_of_mem _ hx))
      simp only [List.flatMap_cons, List.count_append, this, List.count_eq_zero_of_not_mem hl,
        List.length_cons]
      simp
      omega
  rw [List.count_append, List.count_eq_zero_of_not_mem hfirst, List.count_cons_self, hflat]
  omega

theorem newlineFree_lines (csvValue : JsVal → JsVal) (first : JsObject) (rows : List JsObject)
    (h : NewlineFree csvValue first rows) :
    '\n' ∉ headerLine (objectKeys first) ∧
    ∀ l ∈ rows.map (rowLine csvValue (objectKeys first)), '\n' ∉ l := by
  refine ⟨not_mem_joinStrings '\n' _ _ (by decide) h.1, ?_⟩
  intro l hl
  obtain ⟨row, hrow, rfl⟩ := List.mem_map.mp hl
  apply not_mem_joinStrings '\n' _ _ (by decide)
  intro x hx
  obtain ⟨k, hk, rfl⟩ := List.mem_map.mp hx
  exact h.2 row hrow k hk

theorem export_line_count (csvValue : JsVal → JsVal) (first : JsObject) (rows : List JsObject)
    (h : NewlineFree csvValue first rows) :
    splitChar (headerLine (objectKeys first) ++ '\n' ::
        rows.flatMap fun row => rowLine csvValue (objectKeys first) row ++ ['\n']) '\n'
      = headerLine (objectKeys first) :: rows.map (rowLine csvValue (objectKeys first)) ++ [[]] ∧
    (headerLine (objectKeys first) ++ '\n' ::
        rows.flatMap fun row => rowLine csvValue (objectKeys first) row ++ ['\n']).count '\n'
      = rows.length + 1 := by
  obtain ⟨h1, h2⟩ := newlineFree_lines csvValue first rows h
  rw [flatMap_rowLine]
  exact ⟨split_lines _ _ h1 h2, by rw [count_newline_lines _ _ h1 h2, List.length_map]⟩

theorem Pg.pgExportHandler_response {σ : Type} (pool : Pool σ) (db : σ) :
    (Pg.exportCsvHandler pool db).response
      = exportResponse Pg.exportCsv (pool.run Pg.exportStatement db).1 := by
  simp only [Pg.exportCsvHandler, Pg.exportStatement, exportResponse]
  rcases pool.run _ db with ⟨_ | result, _⟩
  · rfl
  · cases h : Pg.exportCsv result.rows <;> simp only [h]

theorem Mssql.mssqlExportHandler_response {σ : Type} (pool : Pool σ) (db : σ) :
    (Mssql.exportCsvHandler (some pool) db).response
      = exportResponse Mssql.exportCsv (pool.run Mssql.exportStatement db).1 := by
  simp only [Mssql.exportCsvHandler, Mssql.exportStatement, exportResponse]
  rcases pool.run _ db with ⟨_ | result, _⟩
  · rfl
  · cases h : Mssql.exportCsv result.rows <;> simp only [h]

theorem exportResponse_cases (exportCsv : List JsObject → Option JsString)
    (hnone : ∀ rows, exportCsv rows = none ↔ rows = [])
    (answer : Except JsString QueryResult) :
    (exportResponse exportCsv answer
        = { status := 404, body := Body.failure "No data to export".toList } ↔
      ∃ result, answer = Except.ok result ∧ result.rows = []) ∧
    (∀ message, answer = Except.error message →
      exportResponse exportCsv answer = { status := 500, body := Body.failure message }) ∧
    (∀ csv, (exportResponse exportCsv answer).body = Body.csv csv →
      ∃ result, answer = Except.ok result ∧ result.rows ≠ [] ∧
        exportCsv result.rows = some csv ∧ (exportResponse exportCsv answer).status = 200) := by
  cases answer with
  | error message =>
    refine ⟨⟨fun h => ?_, fun h => ?_⟩, fun m hm => ?_, fun csv h => ?_⟩
    · simp [exportResponse] at h
    · obtain ⟨_, h, _⟩ := h; cases h
    · cases hm; rfl
    · simp [exportResponse] at h
  | ok result =>
    cases hc : exportCsv result.rows with
    | none =>
      have hrows := (hnone result.rows).mp hc
      refine ⟨⟨fun _ => ⟨result, rfl, hrows⟩, (fun _ => by simp [exportResponse, hc])⟩,
        (fun m hm => by cases hm), fun csv h => ?_⟩
      simp [exportResponse, hc] at h
    | some text =>
      have hrows : result.rows ≠ [] := fun h => by
        rw [(hnone result.rows).mpr h] at hc; cases hc
      refine ⟨⟨fun h => ?_, fun h => ?_⟩, (fun m hm => by cases hm), fun csv h => ?_⟩
      · simp [exportResponse, hc] at h
      · obtain ⟨r, hr, hr'⟩ := h
        cases hr
        exact absurd hr' hrows
      · simp only [exportResponse, hc, Body.csv.injEq] at h
        subst h
        exact ⟨result, rfl, hrows, hc, by simp [exportResponse, hc]⟩

theorem Pg.pgExport_none (rows : List JsObject) : Pg.exportCsv rows = none ↔ rows = [] := by
  cases rows with
  | nil => simp [Pg.exportCsv]
  | cons first rest => simp [Pg.pgExport_cons]

theorem Mssql.mssqlExport_none (rows : List JsObject) :
    Mssql.exportCsv rows = none ↔ rows = [] := by
  cases rows with
  | nil => simp [Mssql.exportCsv]
  | cons first rest => simp [Mssql.mssqlExport_cons]

theorem splitChar_cons (c a : Char) (s : JsString) :
    splitChar (a :: s) c
      = if a = c then [] :: splitChar s c else (splitChar s c).modifyHead (List.cons a) := by
  unfold splitChar List.splitOn
  rw [List.splitOnP_cons]
  by_cases h : a = c <;> simp [h]

theorem splitChar_ne_nil (s : JsString) (c : Char) : splitChar s c ≠ [] :=
  List.splitOnP_ne_nil _ _

theorem splitChar_append_cons (c : Char) (x y : JsString) :
    splitChar (x ++ c :: y) c = splitChar x c ++ splitChar y c := by
  induction x with
  | nil =>
    rw [List.nil_append, splitChar_cons, if_pos rfl]
    rfl
  | cons a xs ih =>
    rw [List.cons_append, splitChar_cons, splitChar_cons, ih]
    by_cases h : a = c
    · simp [h]
    · simp only [h, if_false]
      cases hs : splitChar xs c with
      | nil => exact absurd hs (splitChar_ne_nil xs c)
      | cons l ls => rfl

theorem splitChar_mem_subset (c : Char) (s : JsString) :
    ∀ l ∈ splitChar s c, ∀ x ∈ l, x ∈ s := by
  induction s with
  | nil =>
    intro l hl x hx
    have : splitChar [] c = [[]] := rfl
    rw [this] at hl
    simp at hl
    subst hl
    simp at hx
  | cons a s ih =>
    intro l hl x hx
    rw [splitChar_cons] at hl
    by_cases h : a = c
    · simp only [h, if_true, List.mem_cons] at hl
      rcases hl with rfl | hl
      · simp at hx
      · exact List.mem_cons_of_mem _ (ih l hl x hx)
    · simp only [h, if_false] at hl
      cases hs : splitChar s c with
      | nil => exact absurd hs (splitChar_ne_nil s c)
      | cons l0 ls =>
        rw [hs] at hl ih
        simp only [List.modifyHead, List.mem_cons] at hl
        rcases hl with rfl | hl
        · rcases List.mem_cons.mp hx with rfl | hx'
          · simp
          · exact List.mem_cons_of_mem _ (ih l0 (by simp) x hx')
        · exact List.mem_cons_of_mem _ (ih l (by simp [hl]) x hx)

theorem trim_eq_nil (s : JsString) (h : ∀ c ∈ s, isJsSpace c = true) : trim s = [] := by
  unfold trim
  have : s.dropWhile isJsSpace = [] := List.dropWhile_eq_nil_iff.mpr h
  rw [this]
  rfl

theorem parseCSV_blank_tail (t tail : JsString) (h : ∀ c ∈ tail, isJsSpace c = true) :
    LocalDataCentre.parseCSV (t ++ '\n' :: tail) = LocalDataCentre.parseCSV t := by
  unfold LocalDataCentre.parseCSV
  simp only [splitChar_append_cons]
  cases hs : splitChar t '\n' with
  | nil => exact absurd hs (splitChar_ne_nil t '\n')
  | cons header lines =>
    simp only [List.cons_append, List.headD_cons, List.drop_succ_cons, List.drop_zero,
      List.filterMap_append]
    have hblank : List.filterMap
        (fun line => if trim line = [] then none
          else some (LocalDataCentre.fillRow (splitChar line ',') (splitChar header ',') 0 []))
        (splitChar tail '\n') = [] := by
      apply List.filterMap_eq_nil_iff.mpr
      intro l hl
      have : trim l = [] := trim_eq_nil l fun x hx => h x (splitChar_mem_subset '\n' tail l hl x hx)
      simp [this]
    rw [hblank, List.append_nil]

theorem setProp_values (P : JsVal → Prop) (o : JsObject) (k : JsString) (v : JsVal)
    (ho : ∀ e ∈ o, P e.2) (hv : P v) : ∀ e ∈ setProp o k v, P e.2 := by
  intro e he
  unfold setProp at he
  split at he
  · obtain ⟨e0, he0, rfl⟩ := List.mem_map.mp he
    by_cases hk : e0.1 = k
    · simpa [hk] using hv
    · simpa [hk] using ho e0 he0
  · split at he
    · rcases List.mem_append.mp he with h | h
      · exact ho e ((List.takeWhile_sublist _).subset h)
      · rcases List.mem_cons.mp h with rfl | h
        · exact hv
        · exact ho e ((List.dropWhile_sublist _).subset h)
    · rcases List.mem_append.mp he with h | h
      · exact ho e h
      · simp at h; subst h; exact hv

theorem fillRow_values (values headers : List JsString) (index : Nat) (row : JsObject)
    (hrow : ∀ e ∈ row, IsText e.2) :
    ∀ e ∈ LocalDataCentre.fillRow values headers index row, IsText e.2 := by
  induction headers generalizing index row with
  | nil => exact hrow
  | cons header rest ih =>
    unfold LocalDataCentre.fillRow
    apply ih
    split
    · exact hrow
    · exact setProp_values IsText _ _ _ hrow ⟨_, rfl⟩

theorem filterMap_nonblank (f : JsString → JsObject) (lines : List JsString) :
    lines.filterMap (fun line => if trim line = [] then none else some (f line))
      = (lines.filter fun line => decide (trim line ≠ [])).map f := by
  induction lines with
  | nil => rfl
  | cons l ls ih =>
    by_cases h : trim l = []
    · simp [List.filterMap_cons, List.filter_cons, h, ih]
    · simp [List.filterMap_cons, List.filter_cons, h, ih]

theorem Pg.pgDelete_run (asInt : JsVal → Option Int) (table : List Row) (id : JsString)
    (n : Int) (hid : asInt (JsVal.str id) = some n) :
    (Pg.deleteContact (tablePool asInt) id table).response
      = { status := 200, body := Body.done "Contact deleted successfully".toList } ∧
    (Pg.deleteContact (tablePool asInt) id table).state = table.filter fun r => r.id ≠ n := by
  have hrun : (tablePool asInt).run
      { text := Pg.deleteText, values := [JsVal.str id], inputs := [] } table
      = (Except.ok { rows := [], rowCount := (table.filter fun r => r.id = n).length },
          table.filter fun r => r.id ≠ n) := by
    simp only [tablePool, if_true, List.head?_cons]
    rw [show ((some (JsVal.str id)).bind fun a => asInt a) = some n from hid]
  simp only [Pg.deleteContact, hrun, and_self]

theorem Mssql.mssqlDelete_run (asInt : JsVal → Option Int) (table : List Row) (id : JsString)
    (n : Int) (hid : asInt (JsVal.str id) = some n) :
    (Mssql.deleteContact (some (tablePool asInt)) id table).response
      = { status := 200, body := Body.done "Contact deleted successfully".toList } ∧
    (Mssql.deleteContact (some (tablePool asInt)) id table).state
      = table.filter fun r => r.id ≠ n := by
  have hne : ¬ Mssql.deleteText = Pg.deleteText := by decide
  have hrun : (tablePool asInt).run
      { text := Mssql.deleteText, values := []
        inputs := [{ name := "id".toList, type := SqlType.Int, value := JsVal.str id }] } table
      = (Except.ok { rows := [], rowCount := (table.filter fun r => r.id = n).length },
          table.filter fun r => r.id ≠ n) := by
    simp only [tablePool, hne, if_false, if_true, List.find?_cons, decide_True, Option.map_some']
    rw [show ((some (JsVal.str id)).bind fun a => asInt a) = some n from hid]
  simp only [Mssql.deleteContact, hrun, and_self]

theorem filter_ne_self (table : List Row) (n : Int) (h : ∀ r ∈ table, r.id ≠ n) :
    (table.filter fun r => r.id ≠ n) = table := by
  apply List.filter_eq_self.mpr
  intro r hr
  simpa using h r hr

theorem orZeroPlusOne_num (n : Int) :
    LocalDataCentre.orZeroPlusOne (JsVal.num n) = JsVal.num (n + 1) := by
  by_cases h : n = 0
  · simp [LocalDataCentre.orZeroPlusOne, h]
  · simp [LocalDataCentre.orZeroPlusOne, h]

theorem sumCounts_cons (key : JsString) (n : Int) (rest : JsObject) :
    sumCounts ((key, JsVal.num n) :: rest) = n + sumCounts rest := rfl

theorem any_key_iff (b : JsObject) (key : JsString) :
    b.any (fun e => decide (e.1 = key)) = true ↔ key ∈ objectKeys b := by
  simp only [List.any_eq_true, decide_eq_true_eq, objectKeys, List.mem_map]

theorem map_replace_absent (b : JsObject) (key : JsString) (v : JsVal)
    (h : key ∉ objectKeys b) :
    b.map (fun e => if e.1 = key then (key, v) else e) = b := by
  induction b with
  | nil => rfl
  | cons e rest ih =>
    simp only [objectKeys, List.map_cons, List.mem_cons, not_or] at h
    have hne : ¬ e.1 = key := fun hk => h.1 hk.symm
    simp only [List.map_cons, hne, if_false]
    rw [ih h.2]

theorem replace_counts (b : JsObject) (key : JsString) (k : Int) (hb : CountsTo b k)
    (hkey : key ∈ objectKeys b) :
    ∃ n, getProp b key = JsVal.num n ∧
      CountsTo (b.map fun e => if e.1 = key then (key, JsVal.num (n + 1)) else e) (k + 1) := by
  induction b generalizing k with
  | nil => simp [objectKeys] at hkey
  | cons e rest ih =>
    obtain ⟨k0, v0⟩ := e
    obtain ⟨hnodup, hnum, hsum⟩ := hb
    simp only [objectKeys, List.map_cons, List.nodup_cons] at hnodup
    obtain ⟨n0, hn0⟩ := hnum (k0, v0) (by simp)
    simp only at hn0
    subst hn0
    have hrest : CountsTo rest (sumCounts rest) :=
      ⟨hnodup.2, fun e he => hnum e (List.mem_cons_of_mem _ he), rfl⟩
    rw [sumCounts_cons] at hsum
    by_cases hk : k0 = key
    · subst hk
      refine ⟨n0, by simp only [getProp, if_true], ?_⟩
      have habs : k0 ∉ objectKeys rest := hnodup.1
      simp only [List.map_cons, if_true, map_replace_absent rest k0 _ habs]
      refine ⟨?_, ?_, ?_⟩
      · exact List.nodup_cons.mpr hnodup
      · intro e he
        rcases List.mem_cons.mp he with rfl | he
        · exact ⟨_, rfl⟩
        · exact hnum e (List.mem_cons_of_mem _ he)
      · rw [sumCounts_cons]
        omega
    · have hkey' : key ∈ objectKeys rest := by
        simp only [objectKeys, List.map_cons, List.mem_cons] at hkey
        rcases hkey with h | h
        · exact absurd h.symm hk
        · exact h
      obtain ⟨n, hget, hc⟩ := ih (sumCounts rest) hrest hkey'
      refine ⟨n, by simp only [getProp, hk, if_false, hget], ?_⟩
      simp only [List.map_cons, hk, if_false]
      obtain ⟨c1, c2, c3⟩ := hc
      refine ⟨?_, ?_, ?_⟩
      · refine List.nodup_cons.mpr ⟨?_, c1⟩
        intro hmem
        apply hnodup.1
        obtain ⟨e, he, hek⟩ := List.mem_map.mp hmem
        obtain ⟨e0, he0, rfl⟩ := List.mem_map.mp he
        by_cases h0 : e0.1 = key
        · simp only [h0, if_true] at hek
          exact absurd hek.symm hk
        · simp only [h0, if_false] at hek
          exact List.mem_map.mpr ⟨e0, he0, hek⟩
      · intro e he
        rcases List.mem_cons.mp he with rfl | he
        · exact ⟨_, rfl⟩
        · exact c2 e he
      · rw [sumCounts_cons]
        omega

theorem insert_counts (b : JsObject) (key : JsString) (k : Int) (hb : CountsTo b k)
    (hkey : key ∉ objectKeys b) (p : JsString × JsVal → Bool) :
    CountsTo (b.takeWhile p ++ (key, JsVal.num 1) :: b.dropWhile p) (k + 1) ∧
    CountsTo (b ++ [(key, JsVal.num 1)]) (k + 1) := by
  obtain ⟨hnodup, hnum, hsum⟩ := hb
  have hsplit : b.takeWhile p ++ b.dropWhile p = b := List.takeWhile_append_dropWhile p b
  have hperm : (b.takeWhile p ++ (key, JsVal.num 1) :: b.dropWhile p).Perm
      ((key, JsVal.num 1) :: b) := by
    have : (b.takeWhile p ++ (key, JsVal.num 1) :: b.dropWhile p).Perm
        ((key, JsVal.num 1) :: (b.takeWhile p ++ b.dropWhile p)) := List.perm_middle
    rwa [hsplit] at this
  have hperm2 : (b ++ [(key, JsVal.num 1)]).Perm ((key, JsVal.num 1) :: b) :=
    List.perm_append_singleton _ _
  have hcons : CountsTo ((key, JsVal.num 1) :: b) (k + 1) := by
    refine ⟨?_, ?_, ?_⟩
    · exact List.nodup_cons.mpr ⟨hkey, hnodup⟩
    · intro e he
      rcases List.mem_cons.mp he with rfl | he
      · exact ⟨_, rfl⟩
      · exact hnum e he
    · rw [sumCounts_cons]
      omega
  have transfer : ∀ l : JsObject, l.Perm ((key, JsVal.num 1) :: b) → CountsTo l (k + 1) := by
    intro l hl
    obtain ⟨c1, c2, c3⟩ := hcons
    refine ⟨?_, ?_, ?_⟩
    · exact ((hl.map Prod.fst).nodup_iff).mpr c1
    · intro e he
      exact c2 e (hl.subset he)
    · rw [← c3]
      exact (hl.map _).sum_eq
  exact ⟨transfer _ hperm, transfer _ hperm2⟩

theorem countPlatform_counts (inherited : JsString → Option JsString) (b : JsObject)
    (item : JsObject) (k : Int) (hb : CountsTo b k)
    (hin : inherited (LocalDataCentre.platformKey item) = none)
    (hproto : LocalDataCentre.platformKey item ≠ "__proto__".toList) :
    CountsTo (LocalDataCentre.countPlatform inherited b item) (k + 1) := by
  unfold LocalDataCentre.countPlatform
  simp only [hproto, if_false]
  by_cases hown : LocalDataCentre.platformKey item ∈ objectKeys b
  · obtain ⟨n, hget, hc⟩ := replace_counts b _ k hb hown
    have hany := (any_key_iff b (LocalDataCentre.platformKey item)).mpr hown
    simp only [LocalDataCentre.readWithPrototype, hany, if_true, hget, orZeroPlusOne_num,
      setProp]
    exact hc
  · have hany : b.any (fun e => decide (e.1 = LocalDataCentre.platformKey item)) = false := by
      cases h : b.any (fun e => decide (e.1 = LocalDataCentre.platformKey item))
      · rfl
      · exact absurd ((any_key_iff b _).mp h) hown
    simp only [LocalDataCentre.readWithPrototype, hany, Bool.false_eq_true, if_false, hin, setProp]
    have h1 : LocalDataCentre.orZeroPlusOne JsVal.undefined = JsVal.num 1 := rfl
    rw [h1]
    cases arrayIndex (LocalDataCentre.platformKey item) with
    | some n => exact (insert_counts b _ k hb hown _).1
    | none => exact (insert_counts b _ k hb hown (fun _ => true)).2

/-- Away from the names inherited from `Object.prototype`, the platform counts
of `getStats` are numbers that sum to `totalRecords`. -/
theorem breakdown_counts_sum (inherited : JsString → Option JsString) (data : List JsObject)
    (h : ∀ item ∈ data, inherited (LocalDataCentre.platformKey item) = none ∧
      LocalDataCentre.platformKey item ≠ "__proto__".toList) :
    sumCounts (LocalDataCentre.getStats inherited data).platforms
      = (LocalDataCentre.getStats inherited data).totalRecords := by
  have key : ∀ (items : List JsObject) (b : JsObject) (k : Int), CountsTo b k →
      (∀ item ∈ items, inherited (LocalDataCentre.platformKey item) = none ∧
        LocalDataCentre.platformKey item ≠ "__proto__".toList) →
      CountsTo (items.foldl (LocalDataCentre.countPlatform inherited) b) (k + items.length) := by
    intro items
    induction items with
    | nil => intro b k hb _; simpa using hb
    | cons item rest ih =>
      intro b k hb hitems
      have hstep := countPlatform_counts inherited b item k hb (hitems item (by simp)).1
        (hitems item (by simp)).2
      have := ih _ _ hstep (fun i hi => hitems i (List.mem_cons_of_mem _ hi))
      simp only [List.foldl_cons, List.length_cons]
      have hk : k + 1 + (rest.length : Int) = k + ((rest.length + 1 : Nat) : Int) := by
        push_cast; ring
      rw [← hk]
      exact this
  have h0 : CountsTo [] 0 := ⟨by simp [objectKeys], by simp, rfl⟩
  have := (key data [] 0 h0 h).2.2
  simp only [LocalDataCentre.getStats, LocalDataCentre.getPlatformBreakdown]
  simpa using this

theorem statsOutcome_failure {σ : Type} (pool : Pool σ) (s1 s2 s3 : Statement)
    (convert : JsVal → JsVal) (db : σ) :
    (∀ m, firstFailure pool (statsOutcome pool s1 s2 s3 convert db).issued db = some m →
      (statsOutcome pool s1 s2 s3 convert db).response = ⟨500, Body.failure m⟩) ∧
    (∀ e, (statsOutcome pool s1 s2 s3 convert db).response.body = Body.failure e →
      (statsOutcome pool s1 s2 s3 convert db).response.status = 500) := by
  unfold statsOutcome
  rcases h1 : pool.run s1 db with ⟨r1 | r1, db1⟩
  · simp only [firstFailure, h1]; simp
  · rcases h2 : pool.run s2 db1 with ⟨r2 | r2, db2⟩
    · simp only [firstFailure, h1, h2]; simp
    · rcases h3 : pool.run s3 db2 with ⟨r3 | r3, db3⟩
      · simp only [firstFailure, h1, h2, h3]; simp
      · simp only [firstFailure, h1, h2, h3]
        cases r1.rows.head? <;> cases r3.rows.head? <;> simp

theorem Pg.pgHandle_failure {σ : Type} (pool : Pool σ) (request : ApiRequest) (db : σ) :
    (∀ m, firstFailure pool (Pg.handle pool request db).issued db = some m →
      (Pg.handle pool request db).response = ⟨500, Body.failure m⟩) ∧
    (∀ e, (Pg.handle pool request db).response.body = Body.failure e →
      (Pg.handle pool request db).response.status ∈ [400, 404, 500]) := by
  cases request with
  | listContacts =>
    simp only [Pg.handle, Pg.listContacts]
    rcases h : pool.run _ db with ⟨r | r, db1⟩ <;> simp only [firstFailure, h] <;> simp
  | getContact id =>
    simp only [Pg.handle, Pg.getContact]
    rcases h : pool.run _ db with ⟨r | r, db1⟩
    · simp only [firstFailure, h]; simp
    · cases hr : r.rows <;> simp only [hr, firstFailure, h] <;> simp
  | createContact body =>
    simp only [Pg.handle, Pg.createContact]
    split
    · simp [firstFailure]
    · rcases h : pool.run _ db with ⟨r | r, db1⟩ <;> simp only [firstFailure, h] <;> simp
  | queryContacts filters =>
    simp only [Pg.handle, Pg.queryContacts]
    rcases h : pool.run _ db with ⟨r | r, db1⟩ <;> simp only [firstFailure, h] <;> simp
  | getStats =>
    simp only [Pg.handle, Pg.getStats]
    refine ⟨(statsOutcome_failure pool _ _ _ _ db).1, fun e he => ?_⟩
    rw [(statsOutcome_failure pool _ _ _ _ db).2 e he]; simp
  | exportCsv =>
    simp only [Pg.handle, Pg.exportCsvHandler]
    rcases h : pool.run _ db with ⟨r | r, db1⟩
    · simp only [firstFailure, h]; simp
    · cases hr : Pg.exportCsv r.rows <;> simp only [hr, firstFailure, h] <;> simp
  | deleteContact id =>
    simp only [Pg.handle, Pg.deleteContact]
    rcases h : pool.run _ db with ⟨r | r, db1⟩ <;> simp only [firstFailure, h] <;> simp
  | clearContacts =>
    simp only [Pg.handle, Pg.clearContacts]
    rcases h : pool.run _ db with ⟨r | r, db1⟩ <;> simp only [firstFailure, h] <;> simp

theorem Mssql.mssqlHandle_failure {σ : Type} (pool : Pool σ) (request : ApiRequest) (db : σ) :
    (∀ m, firstFailure pool (Mssql.handle (some pool) request db).issued db = some m →
      (Mssql.handle (some pool) request db).response = ⟨500, Body.failure m⟩) ∧
    (∀ e, (Mssql.handle (some pool) request db).response.body = Body.failure e →
      (Mssql.handle (some pool) request db).response.status ∈ [400, 404, 500]) := by
  cases request with
  | listContacts =>
    simp only [Mssql.handle, Mssql.listContacts]
    rcases h : pool.run _ db with ⟨r | r, db1⟩ <;> simp only [firstFailure, h] <;> simp
  | getContact id =>
    simp only [Mssql.handle, Mssql.getContact]
    rcases h : pool.run _ db with ⟨r | r, db1⟩
    · simp only [firstFailure, h]; simp
    · cases hr : r.rows <;> simp only [hr, firstFailure, h] <;> simp
  | createContact body =>
    simp only [Mssql.handle, Mssql.createContact]
    split
    · simp [firstFailure]
    · rcases h : pool.run _ db with ⟨r | r, db1⟩ <;> simp only [firstFailure, h] <;> simp
  | queryContacts filters =>
    simp only [Mssql.handle, Mssql.queryContacts]
    rcases h : pool.run _ db with ⟨r | r, db1⟩ <;> simp only [firstFailure, h] <;> simp
  | getStats =>
    simp only [Mssql.handle, Mssql.getStats]
    refine ⟨(statsOutcome_failure pool _ _ _ _ db).1, fun e he => ?_⟩
    rw [(statsOutcome_failure pool _ _ _ _ db).2 e he]; simp
  | exportCsv =>
    simp only [Mssql.handle, Mssql.exportCsvHandler]
    rcases h : pool.run _ db with ⟨r | r, db1⟩
    · simp only [firstFailure, h]; simp
    · cases hr : Mssql.exportCsv r.rows <;> simp only [hr, firstFailure, h] <;> simp
  | deleteContact id =>
    simp only [Mssql.handle, Mssql.deleteContact]
    rcases h : pool.run _ db with ⟨r | r, db1⟩ <;> simp only [firstFailure, h] <;> simp
  | clearContacts =>
    simp only [Mssql.handle, Mssql.clearContacts]
    rcases h : pool.run _ db with ⟨r | r, db1⟩ <;> simp only [firstFailure, h] <;> simp

theorem Mssql.mssqlHandle_undefined {σ : Type} (request : ApiRequest) (db : σ) :
    (Mssql.handle (none : Option (Pool σ)) request db).issued = [] ∧
    ((Mssql.handle (none : Option (Pool σ)) request db).response
        = ⟨500, Body.failure Mssql.undefinedPoolMessage⟩ ∨
      (Mssql.handle (none : Option (Pool σ)) request db).response = requiredFieldsResponse) := by
  cases request with
  | createContact body =>
    simp only [Mssql.handle, Mssql.createContact]
    split
    · exact ⟨rfl, Or.inr rfl⟩
    · exact ⟨rfl, Or.inl rfl⟩
  | _ => exact ⟨rfl, Or.inl rfl⟩

theorem getProp_of_mem_keys (r : JsObject) (h : JsString) (hh : h ∈ objectKeys r) :
    ∃ e ∈ r, getProp r h = e.2 := by
  induction r with
  | nil => simp [objectKeys] at hh
  | cons e rest ih =>
    obtain ⟨k, v⟩ := e
    by_cases hk : k = h
    · exact ⟨(k, v), by simp, by simp [getProp, hk]⟩
    · have hmem : h ∈ objectKeys rest := by
        simp only [objectKeys, List.map_cons, List.mem_cons] at hh
        rcases hh with hh | hh
        · exact absurd hh.symm hk
        · exact hh
      obtain ⟨e', he', heq⟩ := ih hmem
      exact ⟨e', List.mem_cons_of_mem _ he', by simp only [getProp, hk, if_false]; exact heq⟩

theorem getProp_plain (r : JsObject) (hr : PlainRecord r) (h : JsString)
    (hh : h ∈ objectKeys r) :
    getProp r h = JsVal.str (textOf (getProp r h)) ∧ Plain (textOf (getProp r h)) := by
  obtain ⟨e, he, heq⟩ := getProp_of_mem_keys r h hh
  obtain ⟨v, hv, hp⟩ := hr e he
  rw [heq, hv]
  exact ⟨rfl, hp⟩

theorem rowLine_plain (headers : List JsString) (r : JsObject)
    (hr : ∀ h ∈ headers, getProp r h = JsVal.str (textOf (getProp r h)) ∧
      Plain (textOf (getProp r h))) :
    rowLine LocalDataCentre.csvValue headers r
      = [','].intercalate (headers.map fun h => textOf (getProp r h)) := by
  unfold rowLine joinStrings
  congr 1
  apply List.map_congr_left
  intro h hh
  obtain ⟨h1, h2⟩ := hr h hh
  have hread : readProp r h = getProp r h :=
    readProp_of_defined r h (by rw [h1]; exact fun hc => by cases hc)
  rw [hread, h1]
  exact csvValue_plain _ h2

theorem fillRow_map (f : JsString → JsString) (hs : List JsString)
    (hh : ∀ h ∈ hs, trim h = h ∧ h ≠ "__proto__".toList ∧ trim (f h) = f h)
    (before : List JsString) (row : JsObject) :
    LocalDataCentre.fillRow (before ++ hs.map f) hs before.length row
      = (hs.map fun h => (h, JsVal.str (f h))).foldl (fun o e => setProp o e.1 e.2) row := by
  induction hs generalizing before row with
  | nil => rfl
  | cons h tl ih =>
    obtain ⟨h1, h2, h3⟩ := hh h (by simp)
    have hget : (before ++ f h :: tl.map f).get? before.length = some (f h) := by
      rw [List.get?_eq_getElem?, List.getElem?_append_right (Nat.le_refl _)]
      simp
    have hcell : (if truthy (JsVal.str (f h)) then trim (f h) else []) = f h :=
      importedCell_eq _ h3
    unfold LocalDataCentre.fillRow
    simp only [List.map_cons, List.foldl_cons, hget, h1, h2, if_false, hcell]
    have := ih (fun x hx => hh x (List.mem_cons_of_mem _ hx)) (before ++ [f h])
      (setProp row h (JsVal.str (f h)))
    simp only [List.append_assoc, List.singleton_append, List.length_append, List.length_singleton]
      at this
    exact this


theorem exists_not_space (s : JsString) (hs : s ≠ []) (ht : trim s = s) :
    ∃ c ∈ s, isJsSpace c = false := by
  by_contra hno
  have hall : ∀ c ∈ s, isJsSpace c = true := by
    intro c hc
    by_contra hc'
    exact hno ⟨c, hc, by simpa using hc'⟩
  exact hs (ht ▸ trim_eq_nil s hall)

theorem getProp_cons (x : JsString) (y : JsVal) (rest : JsObject) (k : JsString) :
    getProp ((x, y) :: rest) k = if x = k then y else getProp rest k := rfl

theorem getProp_append (a b : JsObject) (k : JsString) :
    getProp (a ++ b) k = if k ∈ objectKeys a then getProp a k else getProp b k := by
  induction a with
  | nil => rfl
  | cons e rest ih =>
    obtain ⟨x, y⟩ := e
    rw [List.cons_append, getProp_cons, getProp_cons, ih]
    by_cases hx : x = k
    · have hmem : k ∈ objectKeys ((x, y) :: rest) := by
        rw [hx]; exact List.mem_cons_self _ _
      rw [if_pos hx, if_pos hmem, if_pos hx]
    · rw [if_neg hx, if_neg hx]
      have hiff : k ∈ objectKeys ((x, y) :: rest) ↔ k ∈ objectKeys rest := by
        constructor
        · intro h
          rcases List.mem_cons.mp h with h | h
          · exact absurd h.symm hx
          · exact h
        · exact fun h => List.mem_cons_of_mem _ h
      by_cases hm : k ∈ objectKeys rest
      · rw [if_pos hm, if_pos (hiff.mpr hm)]
      · rw [if_neg hm, if_neg (fun h => hm (hiff.mp h))]

theorem getProp_map_replace (l : JsObject) (k : JsString) (v : JsVal) (k' : JsString) :
    getProp (l.map fun e => if e.1 = k then (k, v) else e) k'
      = if k = k' ∧ k ∈ objectKeys l then v else getProp l k' := by
  induction l with
  | nil =>
    have : ¬ (k = k' ∧ k ∈ objectKeys ([] : JsObject)) := fun h => by cases h.2
    rw [if_neg this]
    rfl
  | cons e rest ih =>
    obtain ⟨x, y⟩ := e
    rw [List.map_cons]
    by_cases hx : x = k
    · have he : (if (x, y).1 = k then (k, v) else (x, y)) = (k, v) := if_pos hx
      rw [he, getProp_cons, getProp_cons]
      by_cases hk : k = k'
      · have hmem : k ∈ objectKeys ((x, y) :: rest) := by
          rw [← hx]; exact List.mem_cons_self _ _
        rw [if_pos hk, if_pos ⟨hk, hmem⟩]
      · have hxk : ¬ x = k' := fun h => hk (hx.symm.trans h)
        rw [if_neg hk, if_neg hxk, ih, if_neg (fun h => hk h.1), if_neg (fun h => hk h.1)]
    · have he : (if (x, y).1 = k then (k, v) else (x, y)) = (x, y) := if_neg hx
      rw [he, getProp_cons, getProp_cons, ih]
      have hiff : k ∈ objectKeys ((x, y) :: rest) ↔ k ∈ objectKeys rest := by
        constructor
        · intro h
          rcases List.mem_cons.mp h with h | h
          · exact absurd h.symm hx
          · exact h
        · exact fun h => List.mem_cons_of_mem _ h
      by_cases hxk : x = k'
      · have hk : ¬ k = k' := fun h => hx (hxk.trans h.symm)
        rw [if_pos hxk, if_neg (fun h => hk h.1), if_pos hxk]
      · rw [if_neg hxk]
        by_cases hc : k = k' ∧ k ∈ objectKeys rest
        · rw [if_pos hc, if_pos ⟨hc.1, hiff.mpr hc.2⟩]
        · rw [if_neg hc, if_neg (fun h => hc ⟨h.1, hiff.mp h.2⟩), if_neg hxk]

theorem any_key_mem (o : JsObject) (k : JsString) :
    o.any (fun e => decide (e.1 = k)) = true ↔ k ∈ objectKeys o := by
  constructor
  · intro h
    obtain ⟨e, he, hek⟩ := List.any_eq_true.mp h
    exact List.mem_map.mpr ⟨e, he, of_decide_eq_true hek⟩
  · intro h
    obtain ⟨e, he, hek⟩ := List.mem_map.mp h
    exact List.any_eq_true.mpr ⟨e, he, decide_eq_true hek⟩

theorem getProp_setProp (o : JsObject) (k : JsString) (v : JsVal) (k' : JsString) :
    getProp (setProp o k v) k' = if k = k' then v else getProp o k' := by
  unfold setProp
  by_cases hany : o.any (fun e => decide (e.1 = k)) = true
  · rw [if_pos hany, getProp_map_replace]
    have hmem := (any_key_mem o k).mp hany
    by_cases hk : k = k'
    · rw [if_pos ⟨hk, hmem⟩, if_pos hk]
    · rw [if_neg (fun h => hk h.1), if_neg hk]
  · rw [if_neg hany]
    have habsent : k ∉ objectKeys o := fun h => hany ((any_key_mem o k).mpr h)
    have hnew : ∀ (a b : JsObject), a ++ b = o →
        getProp (a ++ (k, v) :: b) k' = if k = k' then v else getProp o k' := by
      intro a b hab
      rw [getProp_append, getProp_cons]
      by_cases hk : k = k'
      · have h1 : k' ∉ objectKeys a := by
          intro hmem
          apply habsent
          rw [hk, ← hab]
          simp only [objectKeys, List.map_append, List.mem_append]
          exact Or.inl hmem
        rw [if_neg h1, if_pos hk, if_pos hk]
      · rw [if_neg hk, if_neg hk, ← hab, getProp_append]
    cases hidx : arrayIndex k with
    | some n =>
      exact hnew _ _ (List.takeWhile_append_dropWhile _ o)
    | none => exact hnew o [] (List.append_nil o)

theorem getProp_foldl_setProp (r : JsObject) (hs : List JsString) (row : JsObject)
    (k : JsString) :
    getProp ((hs.map fun h => (h, getProp r h)).foldl (fun o e => setProp o e.1 e.2) row) k
      = if k ∈ hs then getProp r k else getProp row k := by
  induction hs generalizing row with
  | nil => simp
  | cons h tl ih =>
    simp only [List.map_cons, List.foldl_cons, ih, getProp_setProp]
    by_cases hk : k ∈ tl
    · simp [hk]
    · by_cases hh : h = k
      · subst hh
        simp [hk]
      · have hh' : ¬ k = h := fun e => hh e.symm
        simp [hk, hh, hh']

theorem getProp_recordWithKeys (headers : List JsString) (r : JsObject)
    (hsame : ∀ k ∈ objectKeys r, k ∈ headers) (k : JsString) :
    getProp (recordWithKeys headers r) k = getProp r k := by
  unfold recordWithKeys objectOf
  rw [getProp_foldl_setProp]
  by_cases hk : k ∈ headers
  · simp [hk]
  · simp only [hk, if_false]
    rw [getProp_absent r k (fun h => hk (hsame k h))]
    rfl

theorem map_getProp_self (r : JsObject) (hnodup : (objectKeys r).Nodup) :
    ((objectKeys r).map fun h => (h, getProp r h)) = r := by
  induction r with
  | nil => rfl
  | cons e rest ih =>
    obtain ⟨k, v⟩ := e
    simp only [objectKeys, List.map_cons, List.nodup_cons] at hnodup
    have ih' := ih hnodup.2
    simp only [objectKeys, List.map_cons, List.map_map, getProp, if_true, List.cons.injEq,
      true_and]
    simp only [objectKeys, List.map_map] at ih'
    conv_rhs => rw [← ih']
    apply List.map_congr_left
    intro e he
    have hne : ¬ k = e.1 := fun h => hnodup.1 (List.mem_map.mpr ⟨e, he, h.symm⟩)
    simp [Function.comp, getProp, hne]

theorem recordWithKeys_self (r : JsObject) (hnodup : (objectKeys r).Nodup)
    (horder : objectOf r = r) : recordWithKeys (objectKeys r) r = r := by
  unfold recordWithKeys
  rw [map_getProp_self r hnodup, horder]

theorem objectOf_eq_self (r : JsObject) (hnodup : (objectKeys r).Nodup)
    (hkeys : ∀ k ∈ objectKeys r, arrayIndex k = none) : objectOf r = r := by
  have key : ∀ (es acc : JsObject), (objectKeys (acc ++ es)).Nodup →
      (∀ k ∈ objectKeys es, arrayIndex k = none) →
      es.foldl (fun o e => setProp o e.1 e.2) acc = acc ++ es := by
    intro es
    induction es with
    | nil =>
      intro acc _ _
      exact (List.append_nil acc).symm
    | cons e tl ih =>
      intro acc hn hk
      obtain ⟨k, v⟩ := e
      have hn' : (objectKeys acc ++ k :: objectKeys tl).Nodup := by
        have : objectKeys (acc ++ (k, v) :: tl) = objectKeys acc ++ k :: objectKeys tl :=
          List.map_append _ _ _
        rw [← this]
        exact hn
      have hnot : ¬ acc.any (fun e => decide (e.1 = k)) = true := by
        intro hany
        have hmem := (any_key_mem acc k).mp hany
        exact (List.nodup_append.mp hn').2.2 hmem (List.mem_cons_self _ _)
      have hidx : arrayIndex k = none := hk k (List.mem_cons_self _ _)
      have hset : setProp acc k v = acc ++ [(k, v)] := by
        unfold setProp
        rw [if_neg hnot, hidx]
      have hassoc : (acc ++ [(k, v)]) ++ tl = acc ++ (k, v) :: tl := by
        rw [List.append_assoc]
        rfl
      rw [List.foldl_cons, hset,
        ih (acc ++ [(k, v)]) (by rw [hassoc]; exact hn)
          (fun x hx => hk x (List.mem_cons_of_mem _ hx)), hassoc]
  exact key r [] hnodup hkeys


theorem comma_mem_intercalate (xs : List JsString) (h : 2 ≤ xs.length) :
    ',' ∈ [','].intercalate xs := by
  match xs, h with
  | a :: b :: rest, _ =>
    simp only [List.intercalate, List.intersperse_cons_cons, List.flatten_cons, List.mem_append]
    exact Or.inr (Or.inl (List.mem_singleton.mpr rfl))

/-- The line exported for a record of plain texts is read back by the importer
as the record holding the same fields under the headers. -/
theorem parse_line_plain (headers : List JsString) (r : JsObject)
    (hkeys : ∀ h ∈ headers, PlainKey h ∧ h ≠ "__proto__".toList)
    (hr : ∀ h ∈ headers, getProp r h = JsVal.str (textOf (getProp r h)) ∧
      Plain (textOf (getProp r h)))
    (hfields : 2 ≤ headers.length ∨
      (headers.length = 1 ∧ ∀ h ∈ headers, getProp r h ≠ JsVal.str [])) :
    (if trim (rowLine LocalDataCentre.csvValue headers r) = [] then none
      else some (LocalDataCentre.fillRow
        (splitChar (rowLine LocalDataCentre.csvValue headers r) ',') headers 0 []))
      = some (recordWithKeys headers r) := by
  have hne : headers ≠ [] := by
    intro h
    rw [h] at hfields
    rcases hfields with h2 | ⟨h1, _⟩
    · exact absurd h2 (by decide)
    · exact absurd h1 (by decide)
  rw [rowLine_plain headers r hr]
  have hsplit : splitChar ([','].intercalate (headers.map fun h => textOf (getProp r h))) ','
      = headers.map fun h => textOf (getProp r h) := by
    rw [splitChar]
    apply List.splitOn_intercalate
    · intro l hl
      obtain ⟨h, hh, rfl⟩ := List.mem_map.mp hl
      exact (hr h hh).2.1
    · intro hnil
      exact hne (List.map_eq_nil_iff.mp hnil)
  have hblank : trim ([','].intercalate (headers.map fun h => textOf (getProp r h))) ≠ [] := by
    rcases hfields with h2 | ⟨h1, hv⟩
    · exact trim_ne_nil _ ',' (comma_mem_intercalate _ (by rw [List.length_map]; exact h2))
        (by decide)
    · match headers, h1, hr, hv with
      | [h], _, hr, hv =>
        have hline : [','].intercalate ([h].map fun h => textOf (getProp r h))
            = textOf (getProp r h) := by
          simp [List.intercalate]
        rw [hline]
        have hp := hr h (List.mem_singleton.mpr rfl)
        have hnil : textOf (getProp r h) ≠ [] := by
          intro hnil
          apply hv h (List.mem_singleton.mpr rfl)
          rw [hp.1, hnil]
        obtain ⟨c, hc, hs⟩ := exists_not_space _ hnil hp.2.2.2.2
        exact trim_ne_nil _ c hc hs
  rw [if_neg hblank, hsplit]
  have hfill := fillRow_map (fun h => textOf (getProp r h)) headers
    (fun h hh => ⟨(hkeys h hh).1.2.2, (hkeys h hh).2, (hr h hh).2.2.2.2⟩) [] []
  have hmap : (headers.map fun h => (h, JsVal.str (textOf (getProp r h))))
      = headers.map fun h => (h, getProp r h) := by
    apply List.map_congr_left
    intro h hh
    rw [← (hr h hh).1]
  rw [hmap] at hfill
  exact congrArg some hfill

/-- The text exported for records of plain texts is parsed back into the
records holding the same fields under the keys of the first one. -/
theorem parseCSV_export_plain (first : JsObject) (rest : List JsObject)
    (hkeys : ∀ k ∈ objectKeys first, PlainKey k ∧ k ≠ "__proto__".toList)
    (hsame : ∀ r ∈ first :: rest, ∀ k ∈ objectKeys first, k ∈ objectKeys r)
    (hvalues : ∀ r ∈ first :: rest, PlainRecord r)
    (hfields : ∀ r ∈ first :: rest, 2 ≤ (objectKeys first).length ∨
      ((objectKeys first).length = 1 ∧ ∀ h ∈ objectKeys first, getProp r h ≠ JsVal.str [])) :
    LocalDataCentre.parseCSV (LocalDataCentre.exportToCSV (first :: rest))
      = (first :: rest).map (recordWithKeys (objectKeys first)) := by
  have hr : ∀ r ∈ first :: rest, ∀ h ∈ objectKeys first,
      getProp r h = JsVal.str (textOf (getProp r h)) ∧ Plain (textOf (getProp r h)) :=
    fun r hrm h hh => getProp_plain r (hvalues r hrm) h (hsame r hrm h hh)
  have hne : objectKeys first ≠ [] := by
    intro h
    have := hfields first (List.mem_cons_self _ _)
    rw [h] at this
    rcases this with h2 | ⟨h1, _⟩
    · exact absurd h2 (by decide)
    · exact absurd h1 (by decide)
  rw [LocalDataCentre.exportToCSV_cons, flatMap_rowLine, LocalDataCentre.parseCSV, split_lines]
  · simp only [List.headD_cons, List.cons_append, List.drop_succ_cons, List.drop_zero]
    have hsplit : splitChar (headerLine (objectKeys first)) ',' = objectKeys first := by
      rw [splitChar, headerLine, joinStrings]
      exact List.splitOn_intercalate _ _ (fun l hl => (hkeys l hl).1.1) hne
    rw [hsplit, List.filterMap_append]
    have hlast : List.filterMap
        (fun line => if trim line = [] then none
          else some (LocalDataCentre.fillRow (splitChar line ',') (objectKeys first) 0 []))
        [([] : JsString)] = [] := by
      rw [List.filterMap_cons]
      have : trim ([] : JsString) = [] := rfl
      simp only [this, if_true, List.filterMap_nil]
    rw [hlast, List.append_nil, List.filterMap_map]
    have : ∀ l : List JsObject, (∀ r ∈ l, r ∈ first :: rest) →
        List.filterMap
          ((fun line => if trim line = [] then none
            else some (LocalDataCentre.fillRow (splitChar line ',') (objectKeys first) 0 [])) ∘
            rowLine LocalDataCentre.csvValue (objectKeys first)) l
          = l.map (recordWithKeys (objectKeys first)) := by
      intro l hl
      induction l with
      | nil => rfl
      | cons a t ih =>
        rw [List.filterMap_cons, List.map_cons]
        have ha := parse_line_plain (objectKeys first) a hkeys
          (hr a (hl a (List.mem_cons_self _ _))) (hfields a (hl a (List.mem_cons_self _ _)))
        simp only [Function.comp] at ha ⊢
        rw [ha, ih (fun s hs => hl s (List.mem_cons_of_mem _ hs))]
    exact this _ (fun r h => h)
  · exact not_mem_joinStrings '\n' [','] _ (by decide) (fun l hl => (hkeys l hl).1.2.1)
  · intro l hl
    obtain ⟨r, hrm, rfl⟩ := List.mem_map.mp hl
    rw [rowLine_plain _ r (hr r hrm)]
    apply not_mem_joinStrings '\n' [','] _ (by decide)
    intro x hx
    obtain ⟨h, hh, rfl⟩ := List.mem_map.mp hx
    exact (hr r hrm h hh).2.2.2.1

/-- The statement built by the PostgreSQL builder, in closed form. -/
theorem Pg.pgQuery_closed (f : JsObject) :
    Pg.buildQuery f =
      { query := Pg.textFor fun k => truthy (getProp f k)
        values := (Pg.activeFilters f).map (Pg.boundValue f)
        inputs := []
        paramCount := (Pg.activeFilters f).length + 1 } := by
  cases c1 : truthy (getProp f "name".toList) <;>
  cases c2 : truthy (getProp f "email".toList) <;>
  cases c3 : truthy (getProp f "platform".toList) <;>
  cases c4 : truthy (getProp f "startDate".toList) <;>
  cases c5 : truthy (getProp f "endDate".toList) <;>
  simp only [Pg.buildQuery, Pg.addFilter, Pg.textFor, Pg.activeFilters, Pg.filterSpecs,
    List.filter, Pg.boundValue, List.map, c1, c2, c3, c4, c5,
    Bool.false_eq_true, if_true, if_false] <;>
  rfl

/-- The statement built by the SQL Server builder, in closed form. -/
theorem Mssql.mssqlQuery_closed (f : JsObject) :
    Mssql.buildQuery f =
      { query := Mssql.textFor fun k => truthy (getProp f k)
        values := []
        inputs := Mssql.boundInputs f
        paramCount := 0 } := by
  cases c1 : truthy (getProp f "name".toList) <;>
  cases c2 : truthy (getProp f "email".toList) <;>
  cases c3 : truthy (getProp f "platform".toList) <;>
  cases c4 : truthy (getProp f "startDate".toList) <;>
  cases c5 : truthy (getProp f "endDate".toList) <;>
  simp only [Mssql.buildQuery, Mssql.addFilter, Mssql.textFor, Mssql.boundInputs,
    Mssql.filterSpecs, List.filter, Mssql.boundInput, List.map, c1, c2, c3, c4, c5,
    Bool.false_eq_true, if_true, if_false] <;>
  rfl


theorem Pg.pgQuery_issued {σ : Type} (pool : Pool σ) (f : JsObject) (db : σ) :
    (Pg.queryContacts pool f db).issued
      = [{ text := (Pg.buildQuery f).query, values := (Pg.buildQuery f).values, inputs := [] }] := by
  simp only [Pg.queryContacts]
  rcases pool.run _ db with ⟨_ | _, _⟩ <;> rfl

theorem Mssql.mssqlQuery_issued {σ : Type} (pool : Pool σ) (f : JsObject) (db : σ) :
    (Mssql.queryContacts (some pool) f db).issued
      = [{ text := (Mssql.buildQuery f).query, values := []
           inputs := (Mssql.buildQuery f).inputs }] := by
  simp only [Mssql.queryContacts]
  rcases pool.run _ db with ⟨_ | _, _⟩ <;> rfl

theorem statsOutcome_runs {σ : Type} (pool : Pool σ) (s1 s2 s3 : Statement)
    (convert : JsVal → JsVal) (db : σ) :
    (statsOutcome pool s1 s2 s3 convert db).issued = ranUntilFailure pool [s1, s2, s3] db ∧
    (∀ m, firstFailure pool [s1, s2, s3] db = some m →
      (statsOutcome pool s1 s2 s3 convert db).response = ⟨500, Body.failure m⟩) := by
  unfold statsOutcome
  rcases h1 : pool.run s1 db with ⟨r1 | r1, db1⟩
  · simp only [firstFailure, ranUntilFailure, h1]; simp
  · rcases h2 : pool.run s2 db1 with ⟨r2 | r2, db2⟩
    · simp only [firstFailure, ranUntilFailure, h1, h2]; simp
    · rcases h3 : pool.run s3 db2 with ⟨r3 | r3, db3⟩
      · simp only [firstFailure, ranUntilFailure, h1, h2, h3]; simp
      · simp only [firstFailure, ranUntilFailure, h1, h2, h3]; simp

theorem create_runs {σ : Type} (pool : Pool σ) (body : JsObject) (db : σ) (out : Outcome σ)
    (statement : Statement)
    (hvalid : truthy (getProp body "name".toList) = true ∧
        truthy (getProp body "email".toList) = true ∧
        truthy (getProp body "message".toList) = true →
      out.issued = [statement] ∧ out.response = createdResponse (pool.run statement db).1)
    (hinvalid : truthy (getProp body "name".toList) = false ∨
        truthy (getProp body "email".toList) = false ∨
        truthy (getProp body "message".toList) = false →
      out = { response := requiredFieldsResponse, issued := [], state := db }) :
    out.issued = ranUntilFailure pool
        (if truthy (getProp body "name".toList) = true ∧
            truthy (getProp body "email".toList) = true ∧
            truthy (getProp body "message".toList) = true then [statement] else []) db ∧
    (∀ m, firstFailure pool
        (if truthy (getProp body "name".toList) = true ∧
            truthy (getProp body "email".toList) = true ∧
            truthy (getProp body "message".toList) = true then [statement] else []) db = some m →
      out.response = ⟨500, Body.failure m⟩) := by
  by_cases hv : truthy (getProp body "name".toList) = true ∧
      truthy (getProp body "email".toList) = true ∧
      truthy (getProp body "message".toList) = true
  · obtain ⟨hi, hr⟩ := hvalid hv
    rw [if_pos hv, hi, hr]
    rcases h : pool.run statement db with ⟨r | r, db1⟩
    · simp only [firstFailure, ranUntilFailure, h, createdResponse]
      exact ⟨trivial, fun m hm => by cases hm; rfl⟩
    · simp only [firstFailure, ranUntilFailure, h]
      exact ⟨trivial, fun m hm => by cases hm⟩
  · have hinv : truthy (getProp body "name".toList) = false ∨
        truthy (getProp body "email".toList) = false ∨
        truthy (getProp body "message".toList) = false := by
      cases c1 : truthy (getProp body "name".toList)
      · exact Or.inl rfl
      · cases c2 : truthy (getProp body "email".toList)
        · exact Or.inr (Or.inl rfl)
        · cases c3 : truthy (getProp body "message".toList)
          · exact Or.inr (Or.inr rfl)
          · exact absurd ⟨c1, c2, c3⟩ hv
    rw [if_neg hv, hinvalid hinv]
    exact ⟨rfl, fun m hm => by cases hm⟩

theorem Pg.pgHandle_runs {σ : Type} (pool : Pool σ) (request : ApiRequest) (db : σ) :
    (Pg.handle pool request db).issued = ranUntilFailure pool (Pg.statementsOf request) db ∧
    (∀ m, firstFailure pool (Pg.statementsOf request) db = some m →
      (Pg.handle pool request db).response = ⟨500, Body.failure m⟩) := by
  cases request with
  | listContacts =>
    simp only [Pg.handle, Pg.listContacts, Pg.statementsOf, Pg.listAllText]
    rcases h : pool.run _ db with ⟨r | r, db1⟩ <;>
      simp only [firstFailure, ranUntilFailure, h] <;> simp
  | getContact id =>
    simp only [Pg.handle, Pg.getContact, Pg.statementsOf]
    rcases h : pool.run _ db with ⟨r | r, db1⟩
    · simp only [firstFailure, ranUntilFailure, h]; simp
    · cases hr : r.rows <;> simp only [hr, firstFailure, ranUntilFailure, h] <;> simp
  | createContact body =>
    simp only [Pg.handle, Pg.statementsOf]
    exact create_runs pool body db _ _
      (fun hv => ⟨(Pg.pgCreate_valid pool body db hv.1 hv.2.1 hv.2.2).1,
        (Pg.pgCreate_valid pool body db hv.1 hv.2.1 hv.2.2).2.1⟩)
      (Pg.pgCreate_invalid pool body db)
  | queryContacts filters =>
    simp only [Pg.handle, Pg.queryContacts, Pg.statementsOf]
    rcases h : pool.run _ db with ⟨r | r, db1⟩ <;>
      simp only [firstFailure, ranUntilFailure, h] <;> simp
  | getStats =>
    simp only [Pg.handle, Pg.getStats, Pg.statementsOf]
    exact statsOutcome_runs pool _ _ _ _ db
  | exportCsv =>
    simp only [Pg.handle, Pg.exportCsvHandler, Pg.statementsOf]
    rcases h : pool.run _ db with ⟨r | r, db1⟩
    · simp only [firstFailure, ranUntilFailure, h]; simp
    · cases hr : Pg.exportCsv r.rows <;>
        simp only [hr, firstFailure, ranUntilFailure, h] <;> simp
  | deleteContact id =>
    simp only [Pg.handle, Pg.deleteContact, Pg.statementsOf, Pg.deleteText]
    rcases h : pool.run _ db with ⟨r | r, db1⟩ <;>
      simp only [firstFailure, ranUntilFailure, h] <;> simp
  | clearContacts =>
    simp only [Pg.handle, Pg.clearContacts, Pg.statementsOf]
    rcases h : pool.run _ db with ⟨r | r, db1⟩ <;>
      simp only [firstFailure, ranUntilFailure, h] <;> simp

theorem Mssql.mssqlHandle_runs {σ : Type} (pool : Pool σ) (request : ApiRequest) (db : σ) :
    (Mssql.handle (some pool) request db).issued = ranUntilFailure pool (Mssql.statementsOf request) db ∧
    (∀ m, firstFailure pool (Mssql.statementsOf request) db = some m →
      (Mssql.handle (some pool) request db).response = ⟨500, Body.failure m⟩) := by
  cases request with
  | listContacts =>
    simp only [Mssql.handle, Mssql.listContacts, Mssql.statementsOf, Mssql.listAllText]
    rcases h : pool.run _ db with ⟨r | r, db1⟩ <;>
      simp only [firstFailure, ranUntilFailure, h] <;> simp
  | getContact id =>
    simp only [Mssql.handle, Mssql.getContact, Mssql.statementsOf]
    rcases h : pool.run _ db with ⟨r | r, db1⟩
    · simp only [firstFailure, ranUntilFailure, h]; simp
    · cases hr : r.rows <;> simp only [hr, firstFailure, ranUntilFailure, h] <;> simp
  | createContact body =>
    simp only [Mssql.handle, Mssql.statementsOf]
    exact create_runs pool body db _ _
      (fun hv => ⟨(Mssql.mssqlCreate_valid pool body db hv.1 hv.2.1 hv.2.2).1,
        (Mssql.mssqlCreate_valid pool body db hv.1 hv.2.1 hv.2.2).2.1⟩)
      (Mssql.mssqlCreate_invalid (some pool) body db)
  | queryContacts filters =>
    simp only [Mssql.handle, Mssql.queryContacts, Mssql.statementsOf]
    rcases h : pool.run _ db with ⟨r | r, db1⟩ <;>
      simp only [firstFailure, ranUntilFailure, h] <;> simp
  | getStats =>
    simp only [Mssql.handle, Mssql.getStats, Mssql.statementsOf]
    exact statsOutcome_runs pool _ _ _ _ db
  | exportCsv =>
    simp only [Mssql.handle, Mssql.exportCsvHandler, Mssql.statementsOf]
    rcases h : pool.run _ db with ⟨r | r, db1⟩
    · simp only [firstFailure, ranUntilFailure, h]; simp
    · cases hr : Mssql.exportCsv r.rows <;>
        simp only [hr, firstFailure, ranUntilFailure, h] <;> simp
  | deleteContact id =>
    simp only [Mssql.handle, Mssql.deleteContact, Mssql.statementsOf, Mssql.deleteText]
    rcases h : pool.run _ db with ⟨r | r, db1⟩ <;>
      simp only [firstFailure, ranUntilFailure, h] <;> simp
  | clearContacts =>
    simp only [Mssql.handle, Mssql.clearContacts, Mssql.statementsOf]
    rcases h : pool.run _ db with ⟨r | r, db1⟩ <;>
      simp only [firstFailure, ranUntilFailure, h] <;> simp

/-- Two answers SQL allows for `ORDER BY timestamp DESC` over a table whose
timestamps are pairwise distinct are the same list. -/
theorem sorted_answer_unique (selected out out' : List Row)
    (hd : selected.Pairwise fun a b => a.timestamp ≠ b.timestamp)
    (hp : out.Perm selected) (hp' : out'.Perm selected)
    (hs : out.Pairwise fun a b => mayPrecede byTimestampDesc a b = true)
    (hs' : out'.Pairwise fun a b => mayPrecede byTimestampDesc a b = true) :
    out = out' := by
  have hsymm : ∀ {a b : Row}, a.timestamp ≠ b.timestamp → b.timestamp ≠ a.timestamp :=
    fun h => Ne.symm h
  have hdo : out.Pairwise fun a b => a.timestamp ≠ b.timestamp :=
    (List.Perm.pairwise_iff (fun {a b} h => hsymm h) hp).mpr hd
  have hdo' : out'.Pairwise fun a b => a.timestamp ≠ b.timestamp :=
    (List.Perm.pairwise_iff (fun {a b} h => hsymm h) hp').mpr hd
  have strict : ∀ l : List Row, (l.Pairwise fun a b => mayPrecede byTimestampDesc a b = true) →
      (l.Pairwise fun a b => a.timestamp ≠ b.timestamp) →
      l.Pairwise fun a b => b.timestamp < a.timestamp := by
    intro l h1 h2
    refine (h1.and h2).imp ?_
    intro a b hab
    have := (mayPrecede_timestamp a b).mp hab.1
    exact lt_of_le_of_ne this (fun h => hab.2 h.symm)
  have hanti : IsAntisymm Row (fun a b => b.timestamp < a.timestamp) :=
    ⟨fun a b h1 h2 => absurd h1 (not_lt.mpr (le_of_lt h2))⟩
  exact List.eq_of_perm_of_sorted (hp.trans hp'.symm) (strict out hs hdo) (strict out' hs' hdo')

/-! ## Theorems -/

/-- C1: in the three CSV serializers a string value that contains a comma or a
double quote is emitted between double quotes with every inner double quote
doubled, and any other string value is emitted unchanged; this is the field
the serializer writes, as shown on a one-field record. -/
theorem csv_string_field_escaping (s : JsString) :
    let emitted : JsString :=
      if ',' ∈ s ∨ '"' ∈ s then
        '"' :: (s.flatMap fun c => if c = '"' then ['"', '"'] else [c]) ++ ['"']
      else s
    joinItem (Pg.csvValue (JsVal.str s)) = emitted ∧
    joinItem (Mssql.csvValue (JsVal.str s)) = emitted ∧
    joinItem (LocalDataCentre.csvValue (JsVal.str s)) = emitted ∧
    ∀ key : JsString,
      Pg.exportCsv [[(key, JsVal.str s)]] = some (key ++ '\n' :: emitted ++ ['\n']) ∧
      Mssql.exportCsv [[(key, JsVal.str s)]] = some (key ++ '\n' :: emitted ++ ['\n']) ∧
      LocalDataCentre.exportToCSV [[(key, JsVal.str s)]] = key ++ '\n' :: emitted ++ ['\n'] := by
  have hrep : replaceAllChar '"' ['"', '"'] s
      = s.flatMap fun c => if c = '"' then ['"', '"'] else [c] := by
    induction s with
    | nil => rfl
    | cons c cs ih => simp [replaceAllChar, ih]
  have hq : needsQuoting s = true ↔ (',' ∈ s ∨ '"' ∈ s) := by
    simp [needsQuoting, includesChar]
  intro emitted
  have h1 : joinItem (Pg.csvValue (JsVal.str s)) = emitted := by
    by_cases h : ',' ∈ s ∨ '"' ∈ s
    · have h' := hq.mpr h
      simp [Pg.csvValue, h', joinItem, toStr, quoted, emitted, h, hrep]
    · have h' : needsQuoting s = false := by
        cases hn : needsQuoting s
        · rfl
        · exact absurd (hq.mp hn) h
      simp [Pg.csvValue, h', joinItem, toStr, emitted, h]
  have h2 : joinItem (Mssql.csvValue (JsVal.str s)) = emitted := h1
  have h3 : joinItem (LocalDataCentre.csvValue (JsVal.str s)) = emitted := h1
  have hread : ∀ key : JsString, readProp [(key, JsVal.str s)] key = JsVal.str s := by
    intro key
    rw [readProp_of_mem _ _ (List.mem_cons_self _ _)]
    exact if_pos rfl
  refine ⟨h1, h2, h3, fun key => ?_⟩
  refine ⟨?_, ?_, ?_⟩
  · rw [Pg.pgExport_cons]
    simp [headerLine, rowLine, objectKeys, joinStrings, List.intercalate, hread, h1]
  · rw [Mssql.mssqlExport_cons]
    simp [headerLine, rowLine, objectKeys, joinStrings, List.intercalate, hread, h2]
  · rw [LocalDataCentre.exportToCSV_cons]
    simp [headerLine, rowLine, objectKeys, joinStrings, List.intercalate, hread, h3]

/-- Counterexample to C2: a name with a leading space comes back trimmed, a
name with a comma comes back cut at the comma with the opening quote, a name
with a double quote comes back quoted, and a message with a newline makes two
records out of one. -/
theorem csv_round_trip_loses_text :
    getProp ((LocalDataCentre.parseCSV (LocalDataCentre.exportToCSV
        [(sampleSubmission 1 " Ann".toList "hi".toList).toObject])).headD []) "name".toList
      = JsVal.str "Ann".toList ∧
    getProp ((LocalDataCentre.parseCSV (LocalDataCentre.exportToCSV
        [(sampleSubmission 1 "Doe, John".toList "hi".toList).toObject])).headD []) "name".toList
      = JsVal.str "\"Doe".toList ∧
    getProp ((LocalDataCentre.parseCSV (LocalDataCentre.exportToCSV
        [(sampleSubmission 1 "a\"b".toList "hi".toList).toObject])).headD []) "name".toList
      = JsVal.str "\"a\"\"b\"".toList ∧
    (LocalDataCentre.importFromCSV [] (LocalDataCentre.exportToCSV
        [(sampleSubmission 1 "Ann".toList "a\nb".toList).toObject])).2 = 2 := by
  decide

/-- C2 (amended): for every list of N stored submissions whose name, email,
message, timestamp and platform hold no comma, no double quote, no newline and
no white space at either end, `importFromCSV` applied to the text of
`exportToCSV` returns N and appends N records after the stored ones; the
`name`, `email`, `message` and `platform` of the i-th appended record are those
of the i-th submission. -/
theorem csv_round_trip_plain_submissions (store : List JsObject) (subs : List Submission)
    (h : ∀ s ∈ subs, s.Plain) :
    ∃ records : List JsObject,
      LocalDataCentre.importFromCSV store
          (LocalDataCentre.exportToCSV (subs.map Submission.toObject))
        = (store ++ records, subs.length) ∧
      records.length = subs.length ∧
      List.Forall₂
        (fun (s : Submission) (r : JsObject) =>
          getProp r "name".toList = JsVal.str s.name ∧
          getProp r "email".toList = JsVal.str s.email ∧
          getProp r "message".toList = JsVal.str s.message ∧
          getProp r "platform".toList = JsVal.str s.platform)
        subs records := by
  refine ⟨subs.map Submission.imported, ?_, by simp, ?_⟩
  · simp only [LocalDataCentre.importFromCSV, parseCSV_export_submissions subs h, foldl_save,
      List.length_map]
  · rw [List.forall₂_map_right_iff, List.forall₂_same]
    intro s _
    exact ⟨rfl, rfl, rfl, rfl⟩

/-- Witness of C2 (amended): two plain submissions survive the round trip. -/
theorem csv_round_trip_plain_submissions_witness :
    ∃ records : List JsObject,
      LocalDataCentre.importFromCSV []
          (LocalDataCentre.exportToCSV
            ([sampleSubmission 1 "Ann".toList "hi".toList,
              sampleSubmission 2 "Juan Doe".toList "see you".toList].map Submission.toObject))
        = ([] ++ records,
            [sampleSubmission 1 "Ann".toList "hi".toList,
              sampleSubmission 2 "Juan Doe".toList "see you".toList].length) ∧
      records.length
        = [sampleSubmission 1 "Ann".toList "hi".toList,
            sampleSubmission 2 "Juan Doe".toList "see you".toList].length ∧
      List.Forall₂
        (fun (s : Submission) (r : JsObject) =>
          getProp r "name".toList = JsVal.str s.name ∧
          getProp r "email".toList = JsVal.str s.email ∧
          getProp r "message".toList = JsVal.str s.message ∧
          getProp r "platform".toList = JsVal.str s.platform)
        [sampleSubmission 1 "Ann".toList "hi".toList,
          sampleSubmission 2 "Juan Doe".toList "see you".toList] records :=
  csv_round_trip_plain_submissions []
    [sampleSubmission 1 "Ann".toList "hi".toList,
      sampleSubmission 2 "Juan Doe".toList "see you".toList]
    (by decide)

/-- C3: in both server variants the SQL text built by the query handler depends
only on which of the keys `name`, `email`, `platform`, `startDate`, `endDate`
are truthy: two filter objects with the same truthy recognized keys give the
same text, and the text is a function of the truthiness of the five keys
alone.  The values go to the bound parameters only: the statement the handler
issues carries that text together with, in `server.js`, the values of the
truthy keys in order (name and email wrapped between two `%`) and, in
`server-mssql.js`, one input per truthy key, named after the key, with its
type and the same value. -/
theorem query_text_independent_of_values {σ : Type} (pool : Pool σ) (db : σ) (f g : JsObject)
    (h : ∀ k ∈ recognizedKeys, truthy (getProp f k) = truthy (getProp g k)) :
    (Pg.buildQuery f).query = (Pg.buildQuery g).query ∧
    (Mssql.buildQuery f).query = (Mssql.buildQuery g).query ∧
    (Pg.buildQuery f).query = Pg.textFor (fun k => truthy (getProp f k)) ∧
    (Mssql.buildQuery f).query = Mssql.textFor (fun k => truthy (getProp f k)) ∧
    (Pg.queryContacts pool f db).issued
      = [{ text := Pg.textFor fun k => truthy (getProp f k)
           values := (Pg.activeFilters f).map (Pg.boundValue f)
           inputs := [] }] ∧
    (Mssql.queryContacts (some pool) f db).issued
      = [{ text := Mssql.textFor fun k => truthy (getProp f k)
           values := []
           inputs := Mssql.boundInputs f }] := by
  refine ⟨?_, ?_, ?_, ?_, ?_, ?_⟩
  · rw [Pg.pgQuery_text, Pg.pgQuery_text]
    simp only [Pg.querySelect, filterConds_congr _ _ f g h]
  · rw [Mssql.mssqlQuery_text, Mssql.mssqlQuery_text]
    simp only [Mssql.querySelect, filterConds_congr _ _ f g h]
  · rw [Pg.pgQuery_closed]
  · rw [Mssql.mssqlQuery_closed]
  · rw [Pg.pgQuery_issued, Pg.pgQuery_closed]
  · rw [Mssql.mssqlQuery_issued, Mssql.mssqlQuery_closed]

/-- Witness of C3: a harmless name filter and one carrying SQL text give the
same query text; the SQL text of the second one is found in the registered
input, wrapped between two `%`, and not in the statement text. -/
theorem query_text_independent_of_values_witness :
    (Pg.buildQuery [("name".toList, JsVal.str "an".toList)]).query =
      (Pg.buildQuery [("name".toList, JsVal.str "' OR 1=1; --".toList),
        ("limit".toList, JsVal.num 3)]).query ∧
    (Mssql.queryContacts (some (fixedPool []))
        [("name".toList, JsVal.str "' OR 1=1; --".toList), ("limit".toList, JsVal.num 3)]
        ()).issued
      = [{ text := "SELECT * FROM ContactSubmissions WHERE 1=1 AND name LIKE @name ORDER BY timestamp DESC".toList
           values := []
           inputs := [⟨"name".toList, SqlType.NVarChar, JsVal.str "%' OR 1=1; --%".toList⟩] }] :=
  ⟨(query_text_independent_of_values (fixedPool []) ()
      [("name".toList, JsVal.str "an".toList)]
      [("name".toList, JsVal.str "' OR 1=1; --".toList), ("limit".toList, JsVal.num 3)]
      (by decide)).1,
   (query_text_independent_of_values (fixedPool []) ()
      [("name".toList, JsVal.str "' OR 1=1; --".toList), ("limit".toList, JsVal.num 3)]
      [("name".toList, JsVal.str "an".toList)]
      (by decide)).2.2.2.2.2.trans (by decide)⟩

/-- Counterexample to C4: a request whose name is the number `0` is answered
400 although no field is missing or empty; a request with three non-empty texts
is answered 500, not 201, when the insert fails; and the SQL Server variant
issues no insert for it while it has no pool. -/
theorem create_contact_not_only_missing_or_empty :
    (Pg.createContact memoryPool
        [("name".toList, JsVal.num 0), ("email".toList, JsVal.str "a@x.com".toList),
         ("message".toList, JsVal.str "hi".toList)] []).response
      = { status := 400, body := Body.failure "Name, email, and message are required".toList } ∧
    (Pg.createContact (failingPool "connection refused".toList)
        [("name".toList, JsVal.str "Ann".toList), ("email".toList, JsVal.str "a@x.com".toList),
         ("message".toList, JsVal.str "hi".toList)] ()).response
      = { status := 500, body := Body.failure "connection refused".toList } ∧
    (Mssql.createContact (none : Option (Pool Unit))
        [("name".toList, JsVal.str "Ann".toList), ("email".toList, JsVal.str "a@x.com".toList),
         ("message".toList, JsVal.str "hi".toList)] ()).issued = [] := by
  decide

/-- C4 (amended): the create handler answers 400 with the error `Name, email,
and message are required`, issuing no statement, if and only if one of `name`,
`email`, `message` is falsy (absent, `null`, empty, `0` or `false`).  When the
three are truthy, in particular non-empty text, it issues exactly one insert
bound to them and to `platform || 'Unknown'`, and answers 201 with the first
returned row if the insert succeeds and 500 with the error message if it fails;
the SQL Server variant issues nothing and answers 500 while it has no pool. -/
theorem create_contact_validation {σ : Type} (pool : Pool σ) (body : JsObject) (db : σ) :
    (((Pg.createContact pool body db).response = requiredFieldsResponse ∧
        (Pg.createContact pool body db).issued = []) ↔
      (truthy (getProp body "name".toList) = false ∨
        truthy (getProp body "email".toList) = false ∨
        truthy (getProp body "message".toList) = false)) ∧
    (((Mssql.createContact (some pool) body db).response = requiredFieldsResponse ∧
        (Mssql.createContact (some pool) body db).issued = []) ↔
      (truthy (getProp body "name".toList) = false ∨
        truthy (getProp body "email".toList) = false ∨
        truthy (getProp body "message".toList) = false)) ∧
    (truthy (getProp body "name".toList) = true →
      truthy (getProp body "email".toList) = true →
      truthy (getProp body "message".toList) = true →
      (Pg.createContact pool body db).issued = [Pg.insertStatement body] ∧
      (Pg.createContact pool body db).response
        = createdResponse (pool.run (Pg.insertStatement body) db).1 ∧
      (Mssql.createContact (some pool) body db).issued = [Mssql.insertStatement body] ∧
      (Mssql.createContact (some pool) body db).response
        = createdResponse (pool.run (Mssql.insertStatement body) db).1 ∧
      (Mssql.createContact (none : Option (Pool σ)) body db).issued = [] ∧
      (Mssql.createContact (none : Option (Pool σ)) body db).response
        = { status := 500, body := Body.failure Mssql.undefinedPoolMessage }) ∧
    (∀ s : JsString, s ≠ [] → truthy (JsVal.str s) = true) := by
  have hcases : (truthy (getProp body "name".toList) = false ∨
        truthy (getProp body "email".toList) = false ∨
        truthy (getProp body "message".toList) = false) ∨
      (truthy (getProp body "name".toList) = true ∧
        truthy (getProp body "email".toList) = true ∧
        truthy (getProp body "message".toList) = true) := by
    cases truthy (getProp body "name".toList) <;>
    cases truthy (getProp body "email".toList) <;>
    cases truthy (getProp body "message".toList) <;> simp
  refine ⟨?_, ?_, ?_, ?_⟩
  · constructor
    · intro h
      rcases hcases with hc | ⟨h1, h2, h3⟩
      · exact hc
      · rw [(Pg.pgCreate_valid pool body db h1 h2 h3).1] at h
        exact absurd h.2 (by simp)
    · intro h
      rw [Pg.pgCreate_invalid pool body db h]
      exact ⟨rfl, rfl⟩
  · constructor
    · intro h
      rcases hcases with hc | ⟨h1, h2, h3⟩
      · exact hc
      · rw [(Mssql.mssqlCreate_valid pool body db h1 h2 h3).1] at h
        exact absurd h.2 (by simp)
    · intro h
      rw [Mssql.mssqlCreate_invalid (some pool) body db h]
      exact ⟨rfl, rfl⟩
  · intro h1 h2 h3
    refine ⟨(Pg.pgCreate_valid pool body db h1 h2 h3).1,
      (Pg.pgCreate_valid pool body db h1 h2 h3).2.1,
      (Mssql.mssqlCreate_valid pool body db h1 h2 h3).1,
      (Mssql.mssqlCreate_valid pool body db h1 h2 h3).2.1, ?_, ?_⟩ <;>
      simp only [Mssql.createContact, h1, h2, h3, Bool.not_true, Bool.or_self, Bool.false_eq_true,
        if_false]
  · intro s hs
    cases s with
    | nil => exact absurd rfl hs
    | cons c cs => rfl

/-- Witness of C4 (amended): the request `{name:'Ann', email:'a@x.com',
message:'hi', platform:'Mobile'}` on an empty table is answered 201 with the
inserted row. -/
theorem create_contact_validation_witness :
    (Pg.createContact memoryPool
        [("name".toList, JsVal.str "Ann".toList), ("email".toList, JsVal.str "a@x.com".toList),
         ("message".toList, JsVal.str "hi".toList), ("platform".toList, JsVal.str "Mobile".toList)]
        []).response
      = { status := 201
          body := Body.saved (some
            [("id".toList, JsVal.num 1), ("name".toList, JsVal.str "Ann".toList),
             ("email".toList, JsVal.str "a@x.com".toList),
             ("message".toList, JsVal.str "hi".toList),
             ("platform".toList, JsVal.str "Mobile".toList)]) } :=
  ((create_contact_validation memoryPool
      [("name".toList, JsVal.str "Ann".toList), ("email".toList, JsVal.str "a@x.com".toList),
       ("message".toList, JsVal.str "hi".toList), ("platform".toList, JsVal.str "Mobile".toList)]
      []).2.2.1 (by decide) (by decide) (by decide)).2.1

/-- Counterexample to C5: the name filter `_` builds the pattern `%_%`, whose
`_` stands for any character; the row named `Anna` satisfies the generated
condition although its name does not contain `_`. -/
theorem ilike_wildcard_is_not_substring :
    Cond.ilike Column.name (Placeholder.positional 1)
      ∈ (Pg.querySelect [("name".toList, JsVal.str "_".toList)]).conds ∧
    Cond.holds asciiEngine (Pg.buildQuery [("name".toList, JsVal.str "_".toList)]).bind
      (sampleRow 1 "Anna".toList 5) (Cond.ilike Column.name (Placeholder.positional 1)) = true ∧
    ¬ containsFolded asciiEngine.fold "_".toList (sampleRow 1 "Anna".toList 5).name := by
  refine ⟨by decide, by decide, ?_⟩
  rintro ⟨before, middle, after, hs, hm⟩
  have hmem : ∀ c ∈ middle, c ∈ "Anna".toList := by
    intro c hc
    have : c ∈ before ++ middle ++ after := by simp [hc]
    rw [← hs] at this
    exact this
  cases middle with
  | nil => simp at hm
  | cons c rest =>
    have hc := hmem c (by simp)
    simp only [List.map_cons, String.toList, List.map_nil, List.cons.injEq] at hm
    have hfold : asciiEngine.fold c = '_' := hm.1
    have hall : ∀ d ∈ "Anna".toList, asciiEngine.fold d ≠ '_' := by decide
    exact hall c hc hfold

/-- C5 (amended): in the PostgreSQL query endpoint, for a non-empty name
(respectively email) filter `n` that holds none of the pattern characters `%`,
`_` and backslash, a row satisfies the generated `ILIKE` condition, bound to
`'%' + n + '%'`, if and only if its name (respectively email) contains `n` up
to the case folding of the database. -/
theorem ilike_filter_selects_substring (e : Engine) (f : JsObject) (n : JsString) (r : Row)
    (hn : n ≠ []) (hplain : ∀ c ∈ n, c ≠ '%' ∧ c ≠ '_' ∧ c ≠ '\\') :
    (getProp f "name".toList = JsVal.str n →
      Cond.ilike Column.name (Placeholder.positional 1) ∈ (Pg.querySelect f).conds ∧
      (Cond.holds e (Pg.buildQuery f).bind r
          (Cond.ilike Column.name (Placeholder.positional 1)) = true ↔
        containsFolded e.fold n r.name)) ∧
    (getProp f "email".toList = JsVal.str n →
      ∃ k, Cond.ilike Column.email (Placeholder.positional k) ∈ (Pg.querySelect f).conds ∧
        (Cond.holds e (Pg.buildQuery f).bind r
            (Cond.ilike Column.email (Placeholder.positional k)) = true ↔
          containsFolded e.fold n r.email)) := by
  have hwrap : wrapPercent (JsVal.str n) = JsVal.str ('%' :: n ++ ['%']) := by
    simp [wrapPercent, toStr]
  constructor
  · intro hf
    have ht : truthy (getProp f "name".toList) = true := by rw [hf]; exact truthy_str n hn
    refine ⟨Pg.conds_name f ht, ?_⟩
    rw [← ilikeMatch_wrapped e.fold n hplain r.name]
    simp only [Cond.holds, Pg.bind_name f ht, hf, hwrap, Row.textOf]
    exact Iff.rfl
  · intro hf
    have ht : truthy (getProp f "email".toList) = true := by rw [hf]; exact truthy_str n hn
    refine ⟨_, Pg.conds_email f ht, ?_⟩
    rw [← ilikeMatch_wrapped e.fold n hplain r.email]
    simp only [Cond.holds, Pg.bind_email f ht, hf, hwrap, Row.textOf]
    exact Iff.rfl

/-- Witness of C5 (amended): the name filter `an` selects `Anna` and `Juan`. -/
theorem ilike_filter_selects_substring_witness :
    containsFolded asciiEngine.fold "an".toList (sampleRow 1 "Anna".toList 5).name ∧
    containsFolded asciiEngine.fold "an".toList (sampleRow 2 "Juan".toList 5).name :=
  ⟨((ilike_filter_selects_substring asciiEngine [("name".toList, JsVal.str "an".toList)]
        "an".toList (sampleRow 1 "Anna".toList 5) (by decide) (by decide)).1 rfl).2.mp
      (by decide),
   ((ilike_filter_selects_substring asciiEngine [("name".toList, JsVal.str "an".toList)]
        "an".toList (sampleRow 2 "Juan".toList 5) (by decide) (by decide)).1 rfl).2.mp
      (by decide)⟩

/-- Counterexample to C6: the local query for the platform `Desktop` also
returns the records whose platform is `Desktop PC` or `DESKTOP`. -/
theorem local_platform_query_is_not_exact :
    LocalDataCentre.query asciiLower
        [platformRecord "Desktop PC".toList, platformRecord "Mobile".toList,
         platformRecord "DESKTOP".toList]
        [("platform".toList, JsVal.str "Desktop".toList)]
      = some [platformRecord "Desktop PC".toList, platformRecord "DESKTOP".toList] ∧
    getProp (platformRecord "DESKTOP".toList) "platform".toList
      ≠ JsVal.str "Desktop".toList := by
  decide

/-- C6 (amended): for every content of the browser-local store,
`LocalDataCentre.query({platform: "Desktop"})` returns, in stored order,
exactly the records whose platform is a string that contains `Desktop` once
both are lower-cased: a case-insensitive substring match, not the exact match
of the server condition `platform = <param>`. -/
theorem local_platform_query_is_substring (toLowerCase : JsString → JsString)
    (data : List JsObject) :
    LocalDataCentre.query toLowerCase data [("platform".toList, JsVal.str "Desktop".toList)]
      = some (data.filter fun item =>
          match getProp item "platform".toList with
          | JsVal.str s => includesStr (toLowerCase s) (toLowerCase "Desktop".toList)
          | _ => false) ∧
    ∀ s needle : JsString,
      includesStr s needle = true ↔ ∃ before after, s = before ++ needle ++ after := by
  refine ⟨?_, includesStr_iff⟩
  have ht : truthy (JsVal.str "Desktop".toList) = true := by decide
  have hg : getProp [("platform".toList, JsVal.str "Desktop".toList)] "platform".toList
      = JsVal.str "Desktop".toList := by decide
  simp only [LocalDataCentre.query, objectKeys, List.map_cons, List.map_nil, List.foldl_cons,
    List.foldl_nil, ht, if_true, hg, LocalDataCentre.filterBy_str]

/-- Counterexample to C7: two submissions stored at the same instant may be
returned by the query endpoint (empty filter) and by list-all in either order;
one of the admitted answers is not in descending `id` order. -/
theorem ties_not_broken_by_id :
    (Pg.querySelect []).orderBy = byTimestampDesc ∧
    (Pg.querySelect []).admits asciiEngine (Pg.buildQuery []).bind
      [sampleRow 1 "Anna".toList 5, sampleRow 2 "Juan".toList 5]
      [sampleRow 1 "Anna".toList 5, sampleRow 2 "Juan".toList 5] ∧
    (Pg.querySelect []).admits asciiEngine (Pg.buildQuery []).bind
      [sampleRow 1 "Anna".toList 5, sampleRow 2 "Juan".toList 5]
      [sampleRow 2 "Juan".toList 5, sampleRow 1 "Anna".toList 5] ∧
    Pg.listAllSelect.admits asciiEngine (fun _ => none)
      [sampleRow 1 "Anna".toList 5, sampleRow 2 "Juan".toList 5]
      [sampleRow 1 "Anna".toList 5, sampleRow 2 "Juan".toList 5] ∧
    ¬ [sampleRow 1 "Anna".toList 5, sampleRow 2 "Juan".toList 5].Pairwise
        (fun a b => mayPrecede byTimestampThenIdDesc a b = true) := by
  unfold Select.admits
  decide

/-- C7 (amended): for every filter object, the text built by the query endpoint
of either variant, and the list-all text, is a `SELECT` whose only sort key is
`timestamp DESC`; every answer SQL allows for it lists the rows by descending
timestamp, and nothing orders rows of equal timestamp. -/
theorem results_sorted_by_timestamp_desc (e : Engine) (f : JsObject)
    (bind : Placeholder → Option JsVal) (table out : List Row) :
    (Pg.buildQuery f).query = (Pg.querySelect f).text ∧
    (Mssql.buildQuery f).query = (Mssql.querySelect f).text ∧
    Pg.listAllText = Pg.listAllSelect.text ∧
    Mssql.listAllText = Mssql.listAllSelect.text ∧
    ∀ q ∈ [Pg.querySelect f, Mssql.querySelect f, Pg.listAllSelect, Mssql.listAllSelect],
      q.orderBy = [{ column := Column.timestamp, desc := true }] ∧
      (q.admits e bind table out → out.Pairwise fun a b => b.timestamp ≤ a.timestamp) := by
  refine ⟨Pg.pgQuery_text f, Mssql.mssqlQuery_text f, by rfl, by rfl, ?_⟩
  intro q hq
  have hq' : q.orderBy = byTimestampDesc := by
    simp only [List.mem_cons, List.mem_singleton, List.not_mem_nil, or_false] at hq
    rcases hq with rfl | rfl | rfl | rfl <;> rfl
  exact ⟨hq', admits_sorted e q bind table out hq'⟩

/-- Witness of C7 (amended): an admitted answer of the name filter `an` over
three stored rows, newest first. -/
theorem results_sorted_by_timestamp_desc_witness :
    [sampleRow 3 "Juan".toList 9, sampleRow 1 "Anna".toList 5].Pairwise
      fun a b => b.timestamp ≤ a.timestamp :=
  ((results_sorted_by_timestamp_desc asciiEngine [("name".toList, JsVal.str "an".toList)]
      (Pg.buildQuery [("name".toList, JsVal.str "an".toList)]).bind
      [sampleRow 1 "Anna".toList 5, sampleRow 2 "Bob".toList 7, sampleRow 3 "Juan".toList 9]
      [sampleRow 3 "Juan".toList 9, sampleRow 1 "Anna".toList 5]).2.2.2.2
    (Pg.querySelect [("name".toList, JsVal.str "an".toList)]) (by simp)).2
    (by unfold Select.admits; decide)

/-- Counterexample to C8: over a store of two submissions saved at the same
instant, the list-all endpoint answers with the rows in one order and the
query endpoint called with an empty filter answers with them in the other
order; both orders are answers SQL allows for the statement each endpoint
sends, since neither statement orders rows of equal timestamp. -/
theorem empty_filter_order_may_differ_from_list_all :
    (Pg.listContacts tiePool ()).response
      = ⟨200, Body.listed 2 [sampleResultRow 1 "Anna".toList, sampleResultRow 2 "Juan".toList]⟩ ∧
    (Pg.queryContacts tiePool [] ()).response
      = ⟨200, Body.queried 2 []
          [sampleResultRow 2 "Juan".toList, sampleResultRow 1 "Anna".toList]⟩ ∧
    [sampleResultRow 1 "Anna".toList, sampleResultRow 2 "Juan".toList]
      ≠ [sampleResultRow 2 "Juan".toList, sampleResultRow 1 "Anna".toList] ∧
    Pg.listAllSelect.admits asciiEngine (fun _ => none)
      [sampleRow 1 "Anna".toList 5, sampleRow 2 "Juan".toList 5]
      [sampleRow 1 "Anna".toList 5, sampleRow 2 "Juan".toList 5] ∧
    (Pg.querySelect []).admits asciiEngine (Pg.buildQuery []).bind
      [sampleRow 1 "Anna".toList 5, sampleRow 2 "Juan".toList 5]
      [sampleRow 2 "Juan".toList 5, sampleRow 1 "Anna".toList 5] := by
  unfold Select.admits
  decide

/-- C8 (amended): the query endpoint called with an empty filter object sends
the text `... WHERE 1=1 ORDER BY timestamp DESC` with no bound parameter, the
list-all endpoint sends `... ORDER BY timestamp DESC`, and each answers 200
with the rows the database returns for its statement, in the order it returns
them.  The two statements select the same rows under the same sort key: they
admit exactly the same answers, and when the timestamps of the table are
pairwise distinct every answer to the one is equal, row for row and in order,
to every answer to the other.  This holds in both variants. -/
theorem empty_filter_equals_list_all {σ : Type} (pool : Pool σ) (db : σ) (e : Engine) (table out out' : List Row) :
    (Pg.queryContacts pool [] db).issued
      = [{ text := "SELECT * FROM contact_submissions WHERE 1=1 ORDER BY timestamp DESC".toList
           values := [], inputs := [] }] ∧
    (Pg.listContacts pool db).issued
      = [{ text := "SELECT * FROM contact_submissions ORDER BY timestamp DESC".toList
           values := [], inputs := [] }] ∧
    (∀ result db', pool.run
        { text := "SELECT * FROM contact_submissions WHERE 1=1 ORDER BY timestamp DESC".toList
          values := [], inputs := [] } db = (Except.ok result, db') →
      (Pg.queryContacts pool [] db).response
        = ⟨200, Body.queried result.rowCount [] result.rows⟩) ∧
    (∀ result db', pool.run
        { text := "SELECT * FROM contact_submissions ORDER BY timestamp DESC".toList
          values := [], inputs := [] } db = (Except.ok result, db') →
      (Pg.listContacts pool db).response = ⟨200, Body.listed result.rowCount result.rows⟩) ∧
    (Mssql.queryContacts (some pool) [] db).issued
      = [{ text := "SELECT * FROM ContactSubmissions WHERE 1=1 ORDER BY timestamp DESC".toList
           values := [], inputs := [] }] ∧
    (Mssql.listContacts (some pool) db).issued
      = [{ text := "SELECT * FROM ContactSubmissions ORDER BY timestamp DESC".toList
           values := [], inputs := [] }] ∧
    (∀ result db', pool.run
        { text := "SELECT * FROM ContactSubmissions WHERE 1=1 ORDER BY timestamp DESC".toList
          values := [], inputs := [] } db = (Except.ok result, db') →
      (Mssql.queryContacts (some pool) [] db).response
        = ⟨200, Body.queried result.rows.length [] result.rows⟩) ∧
    (∀ result db', pool.run
        { text := "SELECT * FROM ContactSubmissions ORDER BY timestamp DESC".toList
          values := [], inputs := [] } db = (Except.ok result, db') →
      (Mssql.listContacts (some pool) db).response
        = ⟨200, Body.listed result.rows.length result.rows⟩) ∧
    (Pg.buildQuery []).query = (Pg.querySelect []).text ∧
    Pg.listAllText = Pg.listAllSelect.text ∧
    (Mssql.buildQuery []).query = (Mssql.querySelect []).text ∧
    Mssql.listAllText = Mssql.listAllSelect.text ∧
    ((Pg.querySelect []).admits e (Pg.buildQuery []).bind table out ↔
      Pg.listAllSelect.admits e (fun _ => none) table out) ∧
    ((Mssql.querySelect []).admits e (Mssql.buildQuery []).bind table out ↔
      Mssql.listAllSelect.admits e (fun _ => none) table out) ∧
    ((table.Pairwise fun a b => a.timestamp ≠ b.timestamp) →
      ((Pg.querySelect []).admits e (Pg.buildQuery []).bind table out →
        Pg.listAllSelect.admits e (fun _ => none) table out' → out = out') ∧
      ((Mssql.querySelect []).admits e (Mssql.buildQuery []).bind table out →
        Mssql.listAllSelect.admits e (fun _ => none) table out' → out = out')) := by
  have hpg : ∀ o : List Row, (Pg.querySelect []).admits e (Pg.buildQuery []).bind table o ↔
      Pg.listAllSelect.admits e (fun _ => none) table o := by
    intro o
    have h1 : (Pg.querySelect []).conds = [Cond.always] := by rfl
    have h2 : (Pg.querySelect []).orderBy = Pg.listAllSelect.orderBy := by rfl
    have h3 : Pg.listAllSelect.conds = [] := by rfl
    simp only [Select.admits, h1, h2, h3, List.all_cons, List.all_nil, Cond.holds, Bool.and_self]
  have hms : ∀ o : List Row, (Mssql.querySelect []).admits e (Mssql.buildQuery []).bind table o ↔
      Mssql.listAllSelect.admits e (fun _ => none) table o := by
    intro o
    have h1 : (Mssql.querySelect []).conds = [Cond.always] := by rfl
    have h2 : (Mssql.querySelect []).orderBy = Mssql.listAllSelect.orderBy := by rfl
    have h3 : Mssql.listAllSelect.conds = [] := by rfl
    simp only [Select.admits, h1, h2, h3, List.all_cons, List.all_nil, Cond.holds, Bool.and_self]
  have hall : (table.filter fun r => ([] : List Cond).all (Cond.holds e (fun _ => none) r)) = table := by
    simp
  refine ⟨?_, ?_, ?_, ?_, ?_, ?_, ?_, ?_, by rfl, by rfl, by rfl, by rfl, hpg out, hms out, ?_⟩
  · have hb : Pg.buildQuery [] = ⟨"SELECT * FROM contact_submissions WHERE 1=1 ORDER BY timestamp DESC".toList, [], [], 1⟩ := by rfl
    simp only [Pg.queryContacts, hb]
    rcases pool.run _ db with ⟨_ | _, _⟩ <;> rfl
  · simp only [Pg.listContacts, Pg.listAllText]
    rcases pool.run _ db with ⟨_ | _, _⟩ <;> rfl
  · intro result db' h
    have hb : Pg.buildQuery [] = ⟨"SELECT * FROM contact_submissions WHERE 1=1 ORDER BY timestamp DESC".toList, [], [], 1⟩ := by rfl
    simp only [Pg.queryContacts, hb, h]
  · intro result db' h
    simp only [Pg.listContacts, Pg.listAllText, h]
  · have hb : Mssql.buildQuery [] = ⟨"SELECT * FROM ContactSubmissions WHERE 1=1 ORDER BY timestamp DESC".toList, [], [], 0⟩ := by rfl
    simp only [Mssql.queryContacts, hb]
    rcases pool.run _ db with ⟨_ | _, _⟩ <;> rfl
  · simp only [Mssql.listContacts, Mssql.listAllText]
    rcases pool.run _ db with ⟨_ | _, _⟩ <;> rfl
  · intro result db' h
    have hb : Mssql.buildQuery [] = ⟨"SELECT * FROM ContactSubmissions WHERE 1=1 ORDER BY timestamp DESC".toList, [], [], 0⟩ := by rfl
    simp only [Mssql.queryContacts, hb, h]
  · intro result db' h
    simp only [Mssql.listContacts, Mssql.listAllText, h]
  · intro hd
    constructor
    · intro ha hb
      have ha' := (hpg out).mp ha
      have hc : Pg.listAllSelect.conds = [] := by rfl
      have ho : Pg.listAllSelect.orderBy = byTimestampDesc := by rfl
      unfold Select.admits at ha' hb
      rw [hc, ho, hall] at ha' hb
      exact sorted_answer_unique table out out' hd ha'.1 hb.1 ha'.2 hb.2
    · intro ha hb
      have ha' := (hms out).mp ha
      have hc : Mssql.listAllSelect.conds = [] := by rfl
      have ho : Mssql.listAllSelect.orderBy = byTimestampDesc := by rfl
      unfold Select.admits at ha' hb
      rw [hc, ho, hall] at ha' hb
      exact sorted_answer_unique table out out' hd ha'.1 hb.1 ha'.2 hb.2

/-- Witness of C8 (amended): over a database that returns two rows, both
endpoints answer with these rows in that order; and over a table of two
submissions with different timestamps the only answer to either statement is
the later submission followed by the earlier one. -/
theorem empty_filter_equals_list_all_witness :
    (Pg.queryContacts (fixedPool [sampleResultRow 2 "Juan".toList,
        sampleResultRow 1 "Anna".toList]) [] ()).response
      = ⟨200, Body.queried 2 []
          [sampleResultRow 2 "Juan".toList, sampleResultRow 1 "Anna".toList]⟩ ∧
    [sampleRow 2 "Juan".toList 9, sampleRow 1 "Anna".toList 5]
      = [sampleRow 2 "Juan".toList 9, sampleRow 1 "Anna".toList 5] :=
  ⟨(empty_filter_equals_list_all
      (fixedPool [sampleResultRow 2 "Juan".toList, sampleResultRow 1 "Anna".toList]) ()
      asciiEngine [] [] []).2.2.1 _ _ rfl,
   ((empty_filter_equals_list_all (fixedPool []) () asciiEngine
      [sampleRow 1 "Anna".toList 5, sampleRow 2 "Juan".toList 9]
      [sampleRow 2 "Juan".toList 9, sampleRow 1 "Anna".toList 5]
      [sampleRow 2 "Juan".toList 9, sampleRow 1 "Anna".toList 5]).2.2.2.2.2.2.2.2.2.2.2.2.2.2
      (by decide)).1 (by unfold Select.admits; decide) (by unfold Select.admits; decide)⟩

/-- C9: the built query text and bound parameters are the same for two filter
objects that agree on every recognized key that is truthy in one of them; so
keys other than the five recognized ones are ignored, and a recognized key that
is absent or falsy (`undefined`, `null`, the empty string, `0`, `false`) adds no
condition and no parameter. -/
theorem unrecognized_and_falsy_keys_ignored (f g : JsObject)
    (h : ∀ k ∈ recognizedKeys,
      truthy (getProp f k) = true ∨ truthy (getProp g k) = true → getProp f k = getProp g k) :
    Pg.buildQuery f = Pg.buildQuery g ∧ Mssql.buildQuery f = Mssql.buildQuery g ∧
    ∀ v ∈ [JsVal.undefined, JsVal.null, JsVal.str [], JsVal.num 0, JsVal.bool false],
      truthy v = false := by
  refine ⟨?_, ?_, by decide⟩
  all_goals
    have ht : ∀ k ∈ recognizedKeys, truthy (getProp f k) = truthy (getProp g k) := by
      intro k hk
      cases hf : truthy (getProp f k) <;> cases hg : truthy (getProp g k)
      · rfl
      · have := h k hk (Or.inr hg); rw [this] at hf; rw [hf] at hg; exact hg
      · have := h k hk (Or.inl hf); rw [this] at hf; rw [hf] at hg; exact hg
      · rfl
    have hv : ∀ k ∈ recognizedKeys, truthy (getProp g k) = true → getProp f k = getProp g k :=
      fun k hk hg => h k hk (Or.inr hg)
  · exact (buildQuery_congr f g ht hv).1
  · exact (buildQuery_congr f g ht hv).2

/-- Witness of C9: falsy recognized keys and unrecognized keys leave the query
of the filter `{name: 'an'}` unchanged. -/
theorem unrecognized_and_falsy_keys_ignored_witness :
    Pg.buildQuery
        [("name".toList, JsVal.str "an".toList), ("email".toList, JsVal.str []),
         ("platform".toList, JsVal.num 0), ("startDate".toList, JsVal.null),
         ("endDate".toList, JsVal.bool false), ("limit".toList, JsVal.num 3)]
      = Pg.buildQuery [("name".toList, JsVal.str "an".toList)] ∧
    Mssql.buildQuery
        [("name".toList, JsVal.str "an".toList), ("email".toList, JsVal.str []),
         ("platform".toList, JsVal.num 0), ("startDate".toList, JsVal.null),
         ("endDate".toList, JsVal.bool false), ("limit".toList, JsVal.num 3)]
      = Mssql.buildQuery [("name".toList, JsVal.str "an".toList)] :=
  ⟨(unrecognized_and_falsy_keys_ignored _ _ (by decide)).1,
   (unrecognized_and_falsy_keys_ignored _ _ (by decide)).2.1⟩

/-- Counterexample to C10: for one record whose first value holds a newline
and whose second key holds a newline, the first line of the text is not the
field names joined by commas, and no line of the text lists the values of the
record in header order, in any of the three serializers. -/
theorem csv_lines_are_not_header_and_records :
    splitChar (LocalDataCentre.exportToCSV newlineRecords) '\n'
      = ["a,b".toList, "c".toList, "x".toList, "y,z".toList, []] ∧
    (Pg.exportCsv newlineRecords).map (fun csv => splitChar csv '\n')
      = some ["a,b".toList, "c".toList, "x".toList, "y,z".toList, []] ∧
    (Mssql.exportCsv newlineRecords).map (fun csv => splitChar csv '\n')
      = some ["a,b".toList, "c".toList, "x".toList, "y,z".toList, []] ∧
    headerLine (objectKeys (newlineRecords.headD [])) = "a,b\nc".toList ∧
    (newlineRecords.map (rowLine LocalDataCentre.csvValue (objectKeys (newlineRecords.headD []))))
      = ["x\ny,z".toList] := by
  decide

/-- C10 (amended): for a non-empty list of records, each serializer writes the
header text (the keys of the first record, in its key order, joined by commas)
and then, for each record in order, the values `row[header]` read in that
header order and joined by commas, each of these texts ended by a newline;
when no key and no emitted field holds a newline, these texts are exactly the
lines of the CSV. -/
theorem csv_header_then_rows (first : JsObject) (rest : List JsObject) :
    (Pg.exportCsv (first :: rest) =
        some (headerLine (objectKeys first) ++ '\n' ::
          (first :: rest).flatMap fun row =>
            rowLine Pg.csvValue (objectKeys first) row ++ ['\n'])) ∧
    (Mssql.exportCsv (first :: rest) =
        some (headerLine (objectKeys first) ++ '\n' ::
          (first :: rest).flatMap fun row =>
            rowLine Mssql.csvValue (objectKeys first) row ++ ['\n'])) ∧
    (LocalDataCentre.exportToCSV (first :: rest) =
        headerLine (objectKeys first) ++ '\n' ::
          (first :: rest).flatMap fun row =>
            rowLine LocalDataCentre.csvValue (objectKeys first) row ++ ['\n']) ∧
    ((∀ h ∈ objectKeys first, '\n' ∉ h) →
      ((∀ row ∈ first :: rest, ∀ h ∈ objectKeys first,
          '\n' ∉ joinItem (Pg.csvValue (readProp row h))) →
        (Pg.exportCsv (first :: rest)).map (fun csv => splitChar csv '\n') =
          some (headerLine (objectKeys first) ::
            (first :: rest).map (rowLine Pg.csvValue (objectKeys first)) ++ [[]])) ∧
      ((∀ row ∈ first :: rest, ∀ h ∈ objectKeys first,
          '\n' ∉ joinItem (Mssql.csvValue (readProp row h))) →
        (Mssql.exportCsv (first :: rest)).map (fun csv => splitChar csv '\n') =
          some (headerLine (objectKeys first) ::
            (first :: rest).map (rowLine Mssql.csvValue (objectKeys first)) ++ [[]])) ∧
      ((∀ row ∈ first :: rest, ∀ h ∈ objectKeys first,
          '\n' ∉ joinItem (LocalDataCentre.csvValue (readProp row h))) →
        splitChar (LocalDataCentre.exportToCSV (first :: rest)) '\n' =
          headerLine (objectKeys first) ::
            (first :: rest).map (rowLine LocalDataCentre.csvValue (objectKeys first)) ++ [[]])) := by
  refine ⟨Pg.pgExport_cons first rest, Mssql.mssqlExport_cons first rest,
    LocalDataCentre.exportToCSV_cons first rest, fun hkeys => ?_⟩
  have hheader : '\n' ∉ headerLine (objectKeys first) :=
    not_mem_joinStrings '\n' _ _ (by decide) hkeys
  have hrows : ∀ (csvValue : JsVal → JsVal),
      (∀ row ∈ first :: rest, ∀ h ∈ objectKeys first,
          '\n' ∉ joinItem (csvValue (readProp row h))) →
      splitChar (headerLine (objectKeys first) ++ '\n' ::
          (first :: rest).flatMap fun row =>
            rowLine csvValue (objectKeys first) row ++ ['\n']) '\n'
        = headerLine (objectKeys first) ::
            (first :: rest).map (rowLine csvValue (objectKeys first)) ++ [[]] := by
    intro csvValue hcells
    rw [flatMap_rowLine, split_lines _ _ hheader]
    intro l hl
    obtain ⟨row, hrow, rfl⟩ := List.mem_map.mp hl
    apply not_mem_joinStrings '\n' _ _ (by decide)
    intro x hx
    obtain ⟨h, hh, rfl⟩ := List.mem_map.mp hx
    exact hcells row hrow h hh
  refine ⟨fun h => ?_, fun h => ?_, fun h => ?_⟩
  · rw [Pg.pgExport_cons, Option.map_some', hrows _ h]
  · rw [Mssql.mssqlExport_cons, Option.map_some', hrows _ h]
  · rw [LocalDataCentre.exportToCSV_cons, hrows _ h]

/-- Witness of C10: a store of two records, one holding a number and one a
`null`, is exported as the header line and two row lines. -/
theorem csv_header_then_rows_witness :
    splitChar (LocalDataCentre.exportToCSV
        [[("a".toList, JsVal.str "x".toList), ("b".toList, JsVal.num 1)],
         [("a".toList, JsVal.str "y,z".toList), ("b".toList, JsVal.null)]]) '\n'
      = ["a,b".toList, "x,1".toList, "\"y,z\",".toList, []] :=
  ((csv_header_then_rows
      [("a".toList, JsVal.str "x".toList), ("b".toList, JsVal.num 1)]
      [[("a".toList, JsVal.str "y,z".toList), ("b".toList, JsVal.null)]]).2.2.2
    (by decide)).2.2 (by decide)

/-- Counterexample to C11: a second record that lacks the key `b` of the first
and carries an extra key `c` is serialized without any error, with an empty
field for `b` and without `c`, by the three serializers. -/
theorem csv_mismatched_records_are_serialized :
    Pg.exportCsv
        [[("a".toList, JsVal.num 1), ("b".toList, JsVal.num 2)],
         [("a".toList, JsVal.num 3), ("c".toList, JsVal.num 4)]]
      = some "a,b\n1,2\n3,\n".toList ∧
    Mssql.exportCsv
        [[("a".toList, JsVal.num 1), ("b".toList, JsVal.num 2)],
         [("a".toList, JsVal.num 3), ("c".toList, JsVal.num 4)]]
      = some "a,b\n1,2\n3,\n".toList ∧
    LocalDataCentre.exportToCSV
        [[("a".toList, JsVal.num 1), ("b".toList, JsVal.num 2)],
         [("a".toList, JsVal.num 3), ("c".toList, JsVal.num 4)]]
      = "a,b\n1,2\n3,\n".toList := by
  decide

/-- C11 (amended): the serializers never signal an error on records of
different shapes: every non-empty list is serialized; a record that lacks a
key of the first record gets an empty field at that position, provided the
key names no member of `Object.prototype`; and the text depends on the later
records only through what `row[header]` reads at the keys of the first record,
so that extra keys are dropped. -/
theorem csv_shape_is_not_checked (first : JsObject) (rest rest' : List JsObject) :
    (∃ csv, Pg.exportCsv (first :: rest) = some csv) ∧
    (∃ csv, Mssql.exportCsv (first :: rest) = some csv) ∧
    (∀ (row : JsObject) (h : JsString), h ∉ objectKeys row → objectPrototype h = none →
      joinItem (Pg.csvValue (readProp row h)) = [] ∧
      joinItem (Mssql.csvValue (readProp row h)) = [] ∧
      joinItem (LocalDataCentre.csvValue (readProp row h)) = []) ∧
    (List.Forall₂ (fun r r' => ∀ k ∈ objectKeys first, readProp r k = readProp r' k) rest rest' →
      Pg.exportCsv (first :: rest) = Pg.exportCsv (first :: rest') ∧
      Mssql.exportCsv (first :: rest) = Mssql.exportCsv (first :: rest') ∧
      LocalDataCentre.exportToCSV (first :: rest)
        = LocalDataCentre.exportToCSV (first :: rest')) := by
  refine ⟨⟨_, Pg.pgExport_cons first rest⟩, ⟨_, Mssql.mssqlExport_cons first rest⟩, ?_, ?_⟩
  · intro row h hh hp
    rw [readProp_of_plain_key row h hp, getProp_absent row h hh]
    exact ⟨rfl, rfl, rfl⟩
  · intro hrest
    simp only [Pg.pgExport_cons, Mssql.mssqlExport_cons, LocalDataCentre.exportToCSV_cons,
      List.flatMap_cons, flatMap_rowLine_congr _ _ rest rest' hrest, and_self]

/-- Witness of C11 (amended): the extra key `c` of the second record does not
change the exported text. -/
theorem csv_shape_is_not_checked_witness :
    LocalDataCentre.exportToCSV
        [[("a".toList, JsVal.num 1), ("b".toList, JsVal.num 2)],
         [("a".toList, JsVal.num 3), ("c".toList, JsVal.num 4)]]
      = LocalDataCentre.exportToCSV
        [[("a".toList, JsVal.num 1), ("b".toList, JsVal.num 2)],
         [("a".toList, JsVal.num 3)]] :=
  ((csv_shape_is_not_checked [("a".toList, JsVal.num 1), ("b".toList, JsVal.num 2)]
      [[("a".toList, JsVal.num 3), ("c".toList, JsVal.num 4)]]
      [[("a".toList, JsVal.num 3)]]).2.2.2
    (List.Forall₂.cons (by decide) List.Forall₂.nil)).2.2

/-- C12: in the three serializers a field whose value is `null` or `undefined`
is emitted as the empty string; in the row line the separators around it are
adjacent, or the line starts or ends with a separator. -/
theorem csv_null_field_is_empty (csvValue : JsVal → JsVal)
    (hs : csvValue = Pg.csvValue ∨ csvValue = Mssql.csvValue ∨
      csvValue = LocalDataCentre.csvValue)
    (row : JsObject) (h : JsString)
    (hv : readProp row h = JsVal.null ∨ readProp row h = JsVal.undefined)
    (before after : List JsString) :
    joinItem (csvValue (readProp row h)) = [] ∧
    (before ≠ [] → after ≠ [] →
      rowLine csvValue (before ++ h :: after) row
        = rowLine csvValue before row ++ ",,".toList ++ rowLine csvValue after row) ∧
    (after ≠ [] →
      rowLine csvValue (h :: after) row = ",".toList ++ rowLine csvValue after row) ∧
    (before ≠ [] →
      rowLine csvValue (before ++ [h]) row = rowLine csvValue before row ++ ",".toList) := by
  have hempty : joinItem (csvValue (readProp row h)) = [] := by
    rcases hs with rfl | rfl | rfl <;> rcases hv with hv | hv <;> rw [hv] <;> rfl
  have hhead : ∀ after : List JsString, after ≠ [] →
      rowLine csvValue (h :: after) row = ',' :: rowLine csvValue after row := by
    intro after ha
    have := rowLine_append csvValue [h] after row (by simp) ha
    rw [rowLine_single, hempty] at this
    simpa using this
  refine ⟨hempty, ?_, ?_, ?_⟩
  · intro hb ha
    rw [rowLine_append csvValue before (h :: after) row hb (by simp), hhead after ha]
    simp
  · intro ha
    rw [hhead after ha]
    rfl
  · intro hb
    rw [rowLine_append csvValue before [h] row hb (by simp), rowLine_single, hempty]
    rfl

/-- Witness of C12: a `null` email between a name and a message leaves two
adjacent commas in the exported row. -/
theorem csv_null_field_is_empty_witness :
    rowLine Pg.csvValue ["name".toList, "email".toList, "message".toList]
        [("name".toList, JsVal.str "Ann".toList), ("email".toList, JsVal.null),
         ("message".toList, JsVal.str "hi".toList)]
      = "Ann,,hi".toList ∧
    Pg.exportCsv
        [[("name".toList, JsVal.str "Ann".toList), ("email".toList, JsVal.null),
          ("message".toList, JsVal.str "hi".toList)]]
      = some "name,email,message\nAnn,,hi\n".toList :=
  ⟨(csv_null_field_is_empty Pg.csvValue (Or.inl rfl)
      [("name".toList, JsVal.str "Ann".toList), ("email".toList, JsVal.null),
       ("message".toList, JsVal.str "hi".toList)]
      "email".toList (Or.inl (by decide)) ["name".toList] ["message".toList]).2.1
    (by decide) (by decide), by decide⟩

/-- C13: in the PostgreSQL export endpoint a field whose value is a `Date` is
emitted as its `toISOString()` text, in every row and for every column. -/
theorem pg_date_field_is_iso (d : JsDate) :
    joinItem (Pg.csvValue (JsVal.date d)) = d.iso ∧
    (∀ (headers : List JsString) (row : JsObject),
      rowLine Pg.csvValue headers row
        = joinStrings ",".toList (headers.map fun header =>
            match readProp row header with
            | JsVal.date d => d.iso
            | v => joinItem (Pg.csvValue v))) ∧
    ∀ (first : JsObject) (rest : List JsObject),
      Pg.exportCsv (first :: rest) =
        some (headerLine (objectKeys first) ++ '\n' ::
          (first :: rest).flatMap fun row =>
            rowLine Pg.csvValue (objectKeys first) row ++ ['\n']) := by
  refine ⟨rfl, ?_, Pg.pgExport_cons⟩
  intro headers row
  unfold rowLine
  congr 1
  apply List.map_congr_left
  intro header _
  cases readProp row header <;> rfl

/-- Evaluation for C14: on one row whose timestamp is a `Date`, the PostgreSQL
variant writes the ISO-8601 text and the SQL Server variant writes
`String(date)`, so the two CSV texts differ. -/
theorem mssql_export_writes_date_text :
    Pg.exportCsv [sampleResultRow 1 "Ann".toList]
      = some ("id,name,email,message,platform,timestamp\n" ++
          "1,Ann,a@x.com,hi,Desktop,2024-05-01T10:00:00.000Z\n").toList ∧
    Mssql.exportCsv [sampleResultRow 1 "Ann".toList]
      = some ("id,name,email,message,platform,timestamp\n" ++
          "1,Ann,a@x.com,hi,Desktop," ++
          "Wed May 01 2024 10:00:00 GMT+0000 (Coordinated Universal Time)\n").toList ∧
    Mssql.exportCsv [sampleResultRow 1 "Ann".toList]
      ≠ Pg.exportCsv [sampleResultRow 1 "Ann".toList] := by
  decide

/-- Counterexample to C15: one stored submission whose message holds a newline
is exported as three newline-terminated lines, not two. -/
theorem csv_newline_in_field_adds_a_line :
    (LocalDataCentre.exportToCSV
        [(sampleSubmission 1 "Ann".toList "a\nb".toList).toObject]).count '\n' = 3 ∧
    splitChar (LocalDataCentre.exportToCSV
        [(sampleSubmission 1 "Ann".toList "a\nb".toList).toObject]) '\n'
      = ["id,name,email,message,timestamp,platform".toList, "1,Ann,a@x.com,a".toList,
         "b,2024-05-01T10:00:00.000Z,Desktop".toList, []] ∧
    (Pg.exportCsv [(sampleSubmission 1 "Ann".toList "a\nb".toList).toObject]).map
        (fun csv => csv.count '\n') = some 3 := by
  decide

/-- C15 (amended): for every non-empty list of N records in which no key of the
first record and no emitted field holds a newline, the text written by each
serializer consists of exactly N+1 newline-terminated lines, the header line
followed by one line per record in input order; so a store holding one such
submission exports a 2-line CSV. -/
theorem csv_has_one_line_per_record (first : JsObject) (rest : List JsObject) :
    (NewlineFree Pg.csvValue first (first :: rest) →
      ∃ csv, Pg.exportCsv (first :: rest) = some csv ∧
        splitChar csv '\n'
          = headerLine (objectKeys first) ::
              (first :: rest).map (rowLine Pg.csvValue (objectKeys first)) ++ [[]] ∧
        csv.count '\n' = (first :: rest).length + 1) ∧
    (NewlineFree Mssql.csvValue first (first :: rest) →
      ∃ csv, Mssql.exportCsv (first :: rest) = some csv ∧
        splitChar csv '\n'
          = headerLine (objectKeys first) ::
              (first :: rest).map (rowLine Mssql.csvValue (objectKeys first)) ++ [[]] ∧
        csv.count '\n' = (first :: rest).length + 1) ∧
    (NewlineFree LocalDataCentre.csvValue first (first :: rest) →
      splitChar (LocalDataCentre.exportToCSV (first :: rest)) '\n'
        = headerLine (objectKeys first) ::
            (first :: rest).map (rowLine LocalDataCentre.csvValue (objectKeys first)) ++ [[]] ∧
      (LocalDataCentre.exportToCSV (first :: rest)).count '\n' = (first :: rest).length + 1) := by
  refine ⟨fun h => ⟨_, Pg.pgExport_cons first rest, export_line_count _ _ _ h⟩,
    fun h => ⟨_, Mssql.mssqlExport_cons first rest, export_line_count _ _ _ h⟩, fun h => ?_⟩
  rw [LocalDataCentre.exportToCSV_cons]
  exact export_line_count _ _ _ h

/-- Witness of C15 (amended): a store holding one submission exports two
lines. -/
theorem csv_has_one_line_per_record_witness :
    splitChar (LocalDataCentre.exportToCSV
        [(sampleSubmission 1 "Ann".toList "hi".toList).toObject]) '\n'
      = ["id,name,email,message,timestamp,platform".toList,
         "1,Ann,a@x.com,hi,2024-05-01T10:00:00.000Z,Desktop".toList, []] ∧
    (LocalDataCentre.exportToCSV
        [(sampleSubmission 1 "Ann".toList "hi".toList).toObject]).count '\n' = 2 :=
  (csv_has_one_line_per_record (sampleSubmission 1 "Ann".toList "hi".toList).toObject []).2.2
    (by decide)

/-- C16: the export endpoint of either variant answers 404 with the error `No
data to export` if and only if its query succeeds and returns no row; a
failure of the query is answered 500 with the error message, so the two are
told apart by the status; and a CSV body is sent, with status 200, only when
the query succeeds with at least one row. -/
theorem export_no_data_is_404 {σ : Type} (pool : Pool σ) (db : σ) :
    (((Pg.exportCsvHandler pool db).response
          = { status := 404, body := Body.failure "No data to export".toList } ↔
        ∃ result, (pool.run Pg.exportStatement db).1 = Except.ok result ∧ result.rows = []) ∧
      (∀ message, (pool.run Pg.exportStatement db).1 = Except.error message →
        (Pg.exportCsvHandler pool db).response
          = { status := 500, body := Body.failure message }) ∧
      (∀ csv, (Pg.exportCsvHandler pool db).response.body = Body.csv csv →
        ∃ result, (pool.run Pg.exportStatement db).1 = Except.ok result ∧ result.rows ≠ [] ∧
          Pg.exportCsv result.rows = some csv ∧
          (Pg.exportCsvHandler pool db).response.status = 200)) ∧
    (((Mssql.exportCsvHandler (some pool) db).response
          = { status := 404, body := Body.failure "No data to export".toList } ↔
        ∃ result, (pool.run Mssql.exportStatement db).1 = Except.ok result ∧
          result.rows = []) ∧
      (∀ message, (pool.run Mssql.exportStatement db).1 = Except.error message →
        (Mssql.exportCsvHandler (some pool) db).response
          = { status := 500, body := Body.failure message }) ∧
      (∀ csv, (Mssql.exportCsvHandler (some pool) db).response.body = Body.csv csv →
        ∃ result, (pool.run Mssql.exportStatement db).1 = Except.ok result ∧
          result.rows ≠ [] ∧ Mssql.exportCsv result.rows = some csv ∧
          (Mssql.exportCsvHandler (some pool) db).response.status = 200)) ∧
    (Mssql.exportCsvHandler (none : Option (Pool σ)) db).response
      = { status := 500, body := Body.failure Mssql.undefinedPoolMessage } := by
  refine ⟨?_, ?_, rfl⟩
  · rw [Pg.pgExportHandler_response]
    exact exportResponse_cases Pg.exportCsv Pg.pgExport_none _
  · rw [Mssql.mssqlExportHandler_response]
    exact exportResponse_cases Mssql.exportCsv Mssql.mssqlExport_none _

/-- Witness of C16: a failing store is answered 500, an empty one 404. -/
theorem export_no_data_is_404_witness :
    (Pg.exportCsvHandler (failingPool "connection refused".toList) ()).response
      = { status := 500, body := Body.failure "connection refused".toList } ∧
    (Pg.exportCsvHandler (fixedPool []) ()).response
      = { status := 404, body := Body.failure "No data to export".toList } :=
  ⟨(export_no_data_is_404 (failingPool "connection refused".toList) ()).1.2.1
      "connection refused".toList rfl,
   (export_no_data_is_404 (fixedPool []) ()).1.1.mpr ⟨_, rfl, rfl⟩⟩

/-- C17: `importFromCSV` tolerates trailing blank lines: a text, the text
followed by one newline, and the text followed by a newline and any number of
white-space-only lines are imported into the same records, with the same
returned count. -/
theorem import_ignores_trailing_blank_lines (store : List JsObject) (t tail : JsString)
    (h : ∀ c ∈ tail, isJsSpace c = true) :
    LocalDataCentre.importFromCSV store (t ++ "\n".toList)
      = LocalDataCentre.importFromCSV store t ∧
    LocalDataCentre.importFromCSV store (t ++ "\n".toList ++ tail)
      = LocalDataCentre.importFromCSV store t := by
  have h1 : LocalDataCentre.parseCSV (t ++ "\n".toList) = LocalDataCentre.parseCSV t :=
    parseCSV_blank_tail t [] (by simp)
  have h2 : LocalDataCentre.parseCSV (t ++ "\n".toList ++ tail) = LocalDataCentre.parseCSV t := by
    have := parseCSV_blank_tail t tail h
    simpa using this
  simp only [LocalDataCentre.importFromCSV, h1, h2, and_self]

/-- Witness of C17: two blank lines after a one-row text change nothing. -/
theorem import_ignores_trailing_blank_lines_witness :
    LocalDataCentre.importFromCSV [] ("name\nAnn".toList ++ "\n".toList)
      = LocalDataCentre.importFromCSV [] "name\nAnn".toList ∧
    LocalDataCentre.importFromCSV [] ("name\nAnn".toList ++ "\n".toList ++ "  \n\t\n".toList)
      = LocalDataCentre.importFromCSV [] "name\nAnn".toList :=
  import_ignores_trailing_blank_lines [] "name\nAnn".toList "  \n\t\n".toList (by decide)

/-- C18: for every CSV text, `importFromCSV` returns the number of non-blank
lines after the header line and appends, after the records already stored and
in line order, one record per such line; every field of every imported record
is a string. -/
theorem import_count_and_text_fields (store : List JsObject) (t : JsString) :
    ∃ records : List JsObject,
      LocalDataCentre.importFromCSV store t
        = (store ++ records,
            (((splitChar t '\n').drop 1).filter fun line => decide (trim line ≠ [])).length) ∧
      records
        = (((splitChar t '\n').drop 1).filter fun line => decide (trim line ≠ [])).map
            (fun line => LocalDataCentre.fillRow (splitChar line ',')
              (splitChar ((splitChar t '\n').headD []) ',') 0 []) ∧
      ∀ r ∈ records, ∀ e ∈ r, ∃ s, e.2 = JsVal.str s := by
  refine ⟨_, ?_, rfl, ?_⟩
  · simp only [LocalDataCentre.importFromCSV, LocalDataCentre.parseCSV, filterMap_nonblank,
      foldl_save, List.length_map]
  · intro r hr
    obtain ⟨line, _, rfl⟩ := List.mem_map.mp hr
    exact fillRow_values _ _ _ _ (by simp)

/-- Evaluation for C19: a stored record whose platform is `__proto__` is counted
in `totalRecords` but in no platform count, and a record whose platform is
`constructor` gets a text instead of a count, so the counts do not sum to
`totalRecords`. -/
theorem local_breakdown_misses_inherited_names :
    (LocalDataCentre.getStats objectPrototype [platformRecord "__proto__".toList]).totalRecords
      = 1 ∧
    (LocalDataCentre.getStats objectPrototype [platformRecord "__proto__".toList]).platforms
      = [] ∧
    (LocalDataCentre.getStats objectPrototype
        [platformRecord "Desktop".toList, platformRecord "constructor".toList]).totalRecords
      = 2 ∧
    (LocalDataCentre.getStats objectPrototype
        [platformRecord "Desktop".toList, platformRecord "constructor".toList]).platforms
      = [("Desktop".toList, JsVal.num 1),
         ("constructor".toList, JsVal.str "function Object() \x7b [native code] \x7d1".toList)] ∧
    sumCounts (LocalDataCentre.getStats objectPrototype
        [platformRecord "Desktop".toList, platformRecord "constructor".toList]).platforms
      = 1 := by
  decide

/-- C20: on a database that runs the delete statement on the submissions
table, for every table and every id the database reads as an integer that
identifies no stored submission, the delete handler of either variant answers
`Contact deleted successfully` and leaves the table unchanged; and for every
such id, stored or not, deleting twice leaves the table as deleting once. -/
theorem delete_is_idempotent (asInt : JsVal → Option Int) (table : List Row) (id : JsString)
    (n : Int) (hid : asInt (JsVal.str id) = some n) :
    ((∀ r ∈ table, r.id ≠ n) →
      (Pg.deleteContact (tablePool asInt) id table).response
        = { status := 200, body := Body.done "Contact deleted successfully".toList } ∧
      (Pg.deleteContact (tablePool asInt) id table).state = table ∧
      (Mssql.deleteContact (some (tablePool asInt)) id table).response
        = { status := 200, body := Body.done "Contact deleted successfully".toList } ∧
      (Mssql.deleteContact (some (tablePool asInt)) id table).state = table) ∧
    (Pg.deleteContact (tablePool asInt) id
        (Pg.deleteContact (tablePool asInt) id table).state).state
      = (Pg.deleteContact (tablePool asInt) id table).state ∧
    (Pg.deleteContact (tablePool asInt) id
        (Pg.deleteContact (tablePool asInt) id table).state).response
      = { status := 200, body := Body.done "Contact deleted successfully".toList } ∧
    (Mssql.deleteContact (some (tablePool asInt)) id
        (Mssql.deleteContact (some (tablePool asInt)) id table).state).state
      = (Mssql.deleteContact (some (tablePool asInt)) id table).state ∧
    (Mssql.deleteContact (some (tablePool asInt)) id
        (Mssql.deleteContact (some (tablePool asInt)) id table).state).response
      = { status := 200, body := Body.done "Contact deleted successfully".toList } ∧
    (Pg.deleteContact (tablePool asInt) id table).issued
      = [{ text := Pg.deleteText, values := [JsVal.str id], inputs := [] }] := by
  refine ⟨fun habsent => ?_, ?_, ?_, ?_, ?_, ?_⟩
  · refine ⟨(Pg.pgDelete_run asInt table id n hid).1, ?_,
      (Mssql.mssqlDelete_run asInt table id n hid).1, ?_⟩
    · rw [(Pg.pgDelete_run asInt table id n hid).2, filter_ne_self table n habsent]
    · rw [(Mssql.mssqlDelete_run asInt table id n hid).2, filter_ne_self table n habsent]
  · rw [(Pg.pgDelete_run asInt _ id n hid).2, (Pg.pgDelete_run asInt table id n hid).2,
      List.filter_filter]
    simp
  · exact (Pg.pgDelete_run asInt _ id n hid).1
  · rw [(Mssql.mssqlDelete_run asInt _ id n hid).2, (Mssql.mssqlDelete_run asInt table id n hid).2,
      List.filter_filter]
    simp
  · exact (Mssql.mssqlDelete_run asInt _ id n hid).1
  · simp only [Pg.deleteContact]
    rcases (tablePool asInt).run _ table with ⟨_ | _, _⟩ <;> rfl

/-- Witness of C20: deleting the id `7` from a table that holds the ids `1` and
`2` succeeds and changes nothing. -/
theorem delete_is_idempotent_witness :
    (Pg.deleteContact (tablePool decimalInt) "7".toList
        [sampleRow 1 "Anna".toList 5, sampleRow 2 "Juan".toList 9]).response
      = { status := 200, body := Body.done "Contact deleted successfully".toList } ∧
    (Pg.deleteContact (tablePool decimalInt) "7".toList
        [sampleRow 1 "Anna".toList 5, sampleRow 2 "Juan".toList 9]).state
      = [sampleRow 1 "Anna".toList 5, sampleRow 2 "Juan".toList 9] ∧
    (Mssql.deleteContact (some (tablePool decimalInt)) "7".toList
        [sampleRow 1 "Anna".toList 5, sampleRow 2 "Juan".toList 9]).response
      = { status := 200, body := Body.done "Contact deleted successfully".toList } ∧
    (Mssql.deleteContact (some (tablePool decimalInt)) "7".toList
        [sampleRow 1 "Anna".toList 5, sampleRow 2 "Juan".toList 9]).state
      = [sampleRow 1 "Anna".toList 5, sampleRow 2 "Juan".toList 9] :=
  (delete_is_idempotent decimalInt [sampleRow 1 "Anna".toList 5, sampleRow 2 "Juan".toList 9]
    "7".toList 7 (by decide)).1 (by decide)

/-- C21.  Every handler of the eight routes, in both variants, answers a
failure of its store operation by status 500 with the body
`{ success: false, error }` carrying the message of the failure: when the
statements of the route are sent to the pool in order and one of them fails,
the response is that one, with the message of the first failure.  The handler
sends exactly these statements, up to the first failure.  With the connection
pool of the SQL Server variant undefined the response is the 500 of the
`TypeError`, a create request that fails validation apart.  A body with
`success: false` always comes with status 400, 404 or 500.  The handlers are
total functions: a failure never leaves them without a response. -/
theorem store_failures_are_answered_500 {σ : Type} (pool : Pool σ) (request : ApiRequest) (db : σ) :
    (∀ m, firstFailure pool (Pg.statementsOf request) db = some m →
      (Pg.handle pool request db).response = ⟨500, Body.failure m⟩) ∧
    (∀ m, firstFailure pool (Mssql.statementsOf request) db = some m →
      (Mssql.handle (some pool) request db).response = ⟨500, Body.failure m⟩) ∧
    (Pg.handle pool request db).issued = ranUntilFailure pool (Pg.statementsOf request) db ∧
    (Mssql.handle (some pool) request db).issued
      = ranUntilFailure pool (Mssql.statementsOf request) db ∧
    ((Mssql.handle (none : Option (Pool σ)) request db).response
        = ⟨500, Body.failure Mssql.undefinedPoolMessage⟩ ∨
      (Mssql.handle (none : Option (Pool σ)) request db).response = requiredFieldsResponse) ∧
    (∀ e, (Pg.handle pool request db).response.body = Body.failure e →
      (Pg.handle pool request db).response.status ∈ [400, 404, 500]) ∧
    (∀ (p : Option (Pool σ)) e, (Mssql.handle p request db).response.body = Body.failure e →
      (Mssql.handle p request db).response.status ∈ [400, 404, 500]) := by
  refine ⟨(Pg.pgHandle_runs pool request db).2, (Mssql.mssqlHandle_runs pool request db).2,
    (Pg.pgHandle_runs pool request db).1, (Mssql.mssqlHandle_runs pool request db).1,
    (Mssql.mssqlHandle_undefined request db).2, (Pg.pgHandle_failure pool request db).2, ?_⟩
  intro p e he
  cases p with
  | some q => exact (Mssql.mssqlHandle_failure q request db).2 e he
  | none =>
    rcases (Mssql.mssqlHandle_undefined request db).2 with h | h <;> rw [h] <;>
      simp [requiredFieldsResponse]

theorem store_failures_are_answered_500_witness :
    (Pg.handle (failingPool "connection refused".toList) ApiRequest.clearContacts ()).response
        = ⟨500, Body.failure "connection refused".toList⟩ ∧
      (Mssql.handle (some (failingPool "connection refused".toList))
          ApiRequest.getStats ()).response
        = ⟨500, Body.failure "connection refused".toList⟩ :=
  ⟨(store_failures_are_answered_500 (failingPool "connection refused".toList) ApiRequest.clearContacts ()).1 _ rfl,
   (store_failures_are_answered_500 (failingPool "connection refused".toList) ApiRequest.getStats ()).2.1 _ rfl⟩

/-- C22.  The methods `getAll` and `query` of `SQLDataCentre` always return a
value: the empty list when `fetch` rejects or the body is not JSON, the empty
list when the parsed response has `success: false`, the `data` of the response
when it has `success: true`; and whatever they return other than the empty
list is the `data` of a parsed response whose `success` is truthy. -/
theorem facade_reads_return_data_or_empty (exchange : Exchange) :
    SQLDataCentre.query exchange = SQLDataCentre.getAll exchange ∧
    (exchange = Exchange.rejected ∨ exchange = Exchange.notJson →
      SQLDataCentre.getAll exchange = ApiValue.records []) ∧
    (∀ fields, exchange = Exchange.parsed (ParsedBody.object fields) →
      fieldOf fields "success".toList = ApiValue.value (JsVal.bool false) →
      SQLDataCentre.getAll exchange = ApiValue.records []) ∧
    (∀ fields, exchange = Exchange.parsed (ParsedBody.object fields) →
      fieldOf fields "success".toList = ApiValue.value (JsVal.bool true) →
      SQLDataCentre.getAll exchange = fieldOf fields "data".toList) ∧
    (SQLDataCentre.getAll exchange = ApiValue.records [] ∨
      ∃ fields, exchange = Exchange.parsed (ParsedBody.object fields) ∧
        (fieldOf fields "success".toList).truthy = true ∧
        SQLDataCentre.getAll exchange = fieldOf fields "data".toList) := by
  refine ⟨rfl, ?_, ?_, ?_, ?_⟩
  · rintro (h | h) <;> subst h <;> rfl
  · intro fields h hs
    subst h
    simp only [SQLDataCentre.getAll, successOr, hs, ApiValue.truthy, truthy,
      Bool.false_eq_true, if_false]
  · intro fields h hs
    subst h
    simp only [SQLDataCentre.getAll, successOr, hs, ApiValue.truthy, truthy, if_true]
  · cases exchange with
    | rejected => exact Or.inl rfl
    | notJson => exact Or.inl rfl
    | parsed result =>
      cases result with
      | null => exact Or.inl rfl
      | other => exact Or.inl rfl
      | object fields =>
        cases hs : (fieldOf fields "success".toList).truthy
        · left
          simp only [SQLDataCentre.getAll, successOr, hs, Bool.false_eq_true, if_false]
        · right
          refine ⟨fields, rfl, hs, ?_⟩
          simp only [SQLDataCentre.getAll, successOr, hs, if_true]

theorem facade_reads_return_data_or_empty_witness :
    SQLDataCentre.getAll (Exchange.parsed (listedJson 1 [annBody])) = ApiValue.records [annBody] ∧
      SQLDataCentre.getAll (Exchange.parsed (failureJson "connection refused".toList))
        = ApiValue.records [] ∧
      SQLDataCentre.getAll Exchange.rejected = ApiValue.records [] :=
  ⟨(facade_reads_return_data_or_empty (Exchange.parsed (listedJson 1 [annBody]))).2.2.2.1
      _ rfl (by decide),
   (facade_reads_return_data_or_empty
      (Exchange.parsed (failureJson "connection refused".toList))).2.2.1 _ rfl (by decide),
   (facade_reads_return_data_or_empty Exchange.rejected).2.1 (Or.inl rfl)⟩

/-- C23 (counterexample).  The submit handler of the contact form shows the
same alert, and leaves the form as it is, when the server answers 400 with
`success: false` and when the request itself fails. -/
theorem form_alert_is_the_same_for_both_causes :
    submitContactForm (Exchange.parsed (failureJson "Name, email, and message are required".toList))
      = submitContactForm Exchange.rejected := by
  decide

/-- C23 (amended).  Whenever `save` returns a falsy value the contact form
shows the one alert `❌ Error saving data. Please make sure the server is
running.` and is not reset; `save` is falsy when `fetch` rejects, when the body
is not JSON, and when the server answers `success: false`, so the alert does
not tell these causes apart. -/
theorem failed_create_shows_one_alert (exchange : Exchange)
    (h : (SQLDataCentre.save exchange).truthy = false) :
    submitContactForm exchange =
      { alert := "❌ Error saving data. Please make sure the server is running.".toList
        formReset := false } ∧
    (SQLDataCentre.save Exchange.rejected).truthy = false ∧
    (SQLDataCentre.save Exchange.notJson).truthy = false ∧
    ∀ error, (SQLDataCentre.save (Exchange.parsed (failureJson error))).truthy = false := by
  refine ⟨?_, rfl, rfl, fun error => rfl⟩
  simp only [submitContactForm, h, Bool.false_eq_true, if_false]

theorem failed_create_shows_one_alert_witness :
    (submitContactForm
        (Exchange.parsed (failureJson "Name, email, and message are required".toList))).alert
      = "❌ Error saving data. Please make sure the server is running.".toList :=
  congrArg FormOutcome.alert
    (failed_create_shows_one_alert
      (Exchange.parsed (failureJson "Name, email, and message are required".toList))
      (by decide)).1

/-- C24.  For a create request whose name, email and message are truthy, both
variants issue one insert binding name, email and message unchanged and, as
platform, `platform || 'Unknown'`: the platform of the request when it is a
non-empty text (or any truthy value), the string `Unknown` when it is absent
or empty (or any falsy value). -/
theorem create_binds_platform_or_unknown {σ : Type} (pool : Pool σ) (body : JsObject) (db : σ)
    (h1 : truthy (getProp body "name".toList) = true)
    (h2 : truthy (getProp body "email".toList) = true)
    (h3 : truthy (getProp body "message".toList) = true) :
    (Pg.createContact pool body db).issued =
      [{ text := Pg.insertText
         values := [getProp body "name".toList, getProp body "email".toList,
           getProp body "message".toList, platformOrUnknown (getProp body "platform".toList)]
         inputs := [] }] ∧
    (Mssql.createContact (some pool) body db).issued =
      [{ text := Mssql.insertText
         values := []
         inputs :=
           [ ⟨"name".toList, SqlType.NVarChar, getProp body "name".toList⟩,
             ⟨"email".toList, SqlType.NVarChar, getProp body "email".toList⟩,
             ⟨"message".toList, SqlType.NVarChar, getProp body "message".toList⟩,
             ⟨"platform".toList, SqlType.NVarChar,
               platformOrUnknown (getProp body "platform".toList)⟩ ] }] ∧
    (∀ s, s ≠ [] → getProp body "platform".toList = JsVal.str s →
      platformOrUnknown (getProp body "platform".toList) = JsVal.str s) ∧
    (getProp body "platform".toList = JsVal.undefined ∨
        getProp body "platform".toList = JsVal.str [] →
      platformOrUnknown (getProp body "platform".toList) = JsVal.str "Unknown".toList) ∧
    (truthy (getProp body "platform".toList) = true →
      platformOrUnknown (getProp body "platform".toList) = getProp body "platform".toList) ∧
    (truthy (getProp body "platform".toList) = false →
      platformOrUnknown (getProp body "platform".toList) = JsVal.str "Unknown".toList) := by
  refine ⟨(Pg.pgCreate_valid pool body db h1 h2 h3).1,
    (Mssql.mssqlCreate_valid pool body db h1 h2 h3).1, ?_, ?_, ?_, ?_⟩
  · intro s hs hp
    rw [hp]
    cases s with
    | nil => exact absurd rfl hs
    | cons c cs => rfl
  · rintro (hp | hp) <;> rw [hp] <;> rfl
  · intro ht
    simp only [platformOrUnknown, ht, if_true]
  · intro hf
    simp only [platformOrUnknown, hf, Bool.false_eq_true, if_false]

theorem create_binds_platform_or_unknown_witness :
    ((Pg.createContact memoryPool annBody []).issued.map fun s => s.values.getD 3 JsVal.null)
        = [JsVal.str "Mobile".toList] ∧
      (Pg.createContact memoryPool annBody []).state
        = [ [ ("id".toList, JsVal.num 1), ("name".toList, JsVal.str "Ann".toList),
              ("email".toList, JsVal.str "a@x.com".toList),
              ("message".toList, JsVal.str "hi".toList),
              ("platform".toList, JsVal.str "Mobile".toList) ] ] :=
  ⟨by rw [(create_binds_platform_or_unknown memoryPool annBody [] (by decide) (by decide)
      (by decide)).1]; decide, by decide⟩

/-- C25 (counterexample).  A record that owns the key `__proto__` meets every
condition of the restricted round trip (keys without comma, newline or
surrounding white space, plain string values, two fields), yet the record
imported from its export has lost that field. -/
theorem csv_round_trip_drops_proto_key :
    (∀ k ∈ objectKeys protoRecord, PlainKey k) ∧ PlainRecord protoRecord ∧
      2 ≤ protoRecord.length ∧
      LocalDataCentre.importFromCSV [] (LocalDataCentre.exportToCSV [protoRecord])
        = ([[("a".toList, JsVal.str "y".toList)]], 1) ∧
      (LocalDataCentre.importFromCSV [] (LocalDataCentre.exportToCSV [protoRecord])).1
        ≠ [protoRecord] := by
  decide

/-- C25 (amended).  For a non-empty list of records whose keys are those of the
first record, none of them `__proto__`, each key without comma, newline or
surrounding white space, whose values are plain strings, and whose row lines
are not blank (two fields at least, or one field with a non-empty value),
`importFromCSV` applied to `exportToCSV` of the list returns the number of
records and appends, in order, one record per original holding the same value
under every key; when the records list their keys in the order of the first
one, the appended records are the originals themselves. -/
theorem csv_round_trip_plain_records (store : List JsObject) (first : JsObject)
    (rest : List JsObject)
    (hkeys : ∀ k ∈ objectKeys first, PlainKey k ∧ k ≠ "__proto__".toList)
    (hsame : ∀ r ∈ first :: rest,
      (∀ k ∈ objectKeys first, k ∈ objectKeys r) ∧ (∀ k ∈ objectKeys r, k ∈ objectKeys first))
    (hvalues : ∀ r ∈ first :: rest, PlainRecord r)
    (hfields : ∀ r ∈ first :: rest, 2 ≤ (objectKeys first).length ∨
      ((objectKeys first).length = 1 ∧ ∀ h ∈ objectKeys first, getProp r h ≠ JsVal.str [])) :
    (LocalDataCentre.importFromCSV store (LocalDataCentre.exportToCSV (first :: rest))).2
      = (first :: rest).length ∧
    (LocalDataCentre.importFromCSV store (LocalDataCentre.exportToCSV (first :: rest))).1
      = store ++ (first :: rest).map (recordWithKeys (objectKeys first)) ∧
    (∀ r ∈ first :: rest, ∀ k,
      getProp (recordWithKeys (objectKeys first) r) k = getProp r k) ∧
    ((∀ r ∈ first :: rest,
        objectKeys r = objectKeys first ∧ (objectKeys r).Nodup ∧ objectOf r = r) →
      (LocalDataCentre.importFromCSV store (LocalDataCentre.exportToCSV (first :: rest))).1
        = store ++ first :: rest) := by
  have hparse := parseCSV_export_plain first rest hkeys (fun r hr => (hsame r hr).1) hvalues
    hfields
  have h1 : (LocalDataCentre.importFromCSV store
      (LocalDataCentre.exportToCSV (first :: rest))).1
      = store ++ (first :: rest).map (recordWithKeys (objectKeys first)) := by
    simp only [LocalDataCentre.importFromCSV, hparse, foldl_save]
  refine ⟨?_, h1, ?_, ?_⟩
  · simp only [LocalDataCentre.importFromCSV, hparse, List.length_map]
  · intro r hr k
    exact getProp_recordWithKeys _ r (hsame r hr).2 k
  · intro hown
    rw [h1]
    congr 1
    have : ∀ l : List JsObject, (∀ r ∈ l, r ∈ first :: rest) →
        l.map (recordWithKeys (objectKeys first)) = l := by
      intro l hl
      induction l with
      | nil => rfl
      | cons a t ih =>
        obtain ⟨hk, hn, ho⟩ := hown a (hl a (List.mem_cons_self _ _))
        rw [List.map_cons, ih (fun r hr => hl r (List.mem_cons_of_mem _ hr)), ← hk,
          recordWithKeys_self a hn ho]
    exact this _ (fun r h => h)

theorem csv_round_trip_plain_records_witness :
    LocalDataCentre.importFromCSV []
        (LocalDataCentre.exportToCSV
          [sampleRecord "Ann".toList "Oslo".toList, sampleRecord "Bob".toList []])
      = ([sampleRecord "Ann".toList "Oslo".toList, sampleRecord "Bob".toList []], 2) :=
  Prod.ext
    ((csv_round_trip_plain_records [] (sampleRecord "Ann".toList "Oslo".toList)
      [sampleRecord "Bob".toList []] (by decide) (by decide) (by decide) (by decide)).2.2.2
      (by decide))
    (csv_round_trip_plain_records [] (sampleRecord "Ann".toList "Oslo".toList)
      [sampleRecord "Bob".toList []] (by decide) (by decide) (by decide) (by decide)).1

set_option maxRecDepth 8000 in
/-- C26.  The text built by the PostgreSQL builder is the base text, then, for
each recognized key holding a truthy value, in the fixed order name, email,
platform, startDate, endDate, its clause followed by the placeholder `$i`, `i`
counting from 1, then the `ORDER BY`; the values are the values of those keys
in the same order, name and email wrapped between two `%`, the others
unchanged; there are as many values as truthy recognized keys, and as many
`$` signs in the text. -/
theorem pg_placeholders_number_the_values (filters : JsObject) :
    (Pg.buildQuery filters).query
      = "SELECT * FROM contact_submissions WHERE 1=1".toList
        ++ Pg.clauses 1 (Pg.activeFilters filters) ++ " ORDER BY timestamp DESC".toList ∧
    (Pg.buildQuery filters).values = (Pg.activeFilters filters).map (Pg.boundValue filters) ∧
    (Pg.buildQuery filters).values.length
      = (recognizedKeys.filter fun k => truthy (getProp filters k)).length ∧
    (Pg.buildQuery filters).query.count '$' = (Pg.buildQuery filters).values.length := by
  refine ⟨?_, ?_, ?_, ?_⟩
  · cases c1 : truthy (getProp filters "name".toList) <;>
    cases c2 : truthy (getProp filters "email".toList) <;>
    cases c3 : truthy (getProp filters "platform".toList) <;>
    cases c4 : truthy (getProp filters "startDate".toList) <;>
    cases c5 : truthy (getProp filters "endDate".toList) <;>
    simp only [Pg.buildQuery, Pg.addFilter, Pg.activeFilters, Pg.filterSpecs, recognizedKeys,
      List.filter, Pg.boundValue, List.map, c1, c2, c3, c4, c5,
      Bool.false_eq_true, if_true, if_false] <;>
    rfl
  · cases c1 : truthy (getProp filters "name".toList) <;>
    cases c2 : truthy (getProp filters "email".toList) <;>
    cases c3 : truthy (getProp filters "platform".toList) <;>
    cases c4 : truthy (getProp filters "startDate".toList) <;>
    cases c5 : truthy (getProp filters "endDate".toList) <;>
    simp only [Pg.buildQuery, Pg.addFilter, Pg.activeFilters, Pg.filterSpecs, recognizedKeys,
      List.filter, Pg.boundValue, List.map, c1, c2, c3, c4, c5,
      Bool.false_eq_true, if_true, if_false] <;>
    rfl
  · cases c1 : truthy (getProp filters "name".toList) <;>
    cases c2 : truthy (getProp filters "email".toList) <;>
    cases c3 : truthy (getProp filters "platform".toList) <;>
    cases c4 : truthy (getProp filters "startDate".toList) <;>
    cases c5 : truthy (getProp filters "endDate".toList) <;>
    simp only [Pg.buildQuery, Pg.addFilter, Pg.activeFilters, Pg.filterSpecs, recognizedKeys,
      List.filter, Pg.boundValue, List.map, c1, c2, c3, c4, c5,
      Bool.false_eq_true, if_true, if_false] <;>
    rfl
  · cases c1 : truthy (getProp filters "name".toList) <;>
    cases c2 : truthy (getProp filters "email".toList) <;>
    cases c3 : truthy (getProp filters "platform".toList) <;>
    cases c4 : truthy (getProp filters "startDate".toList) <;>
    cases c5 : truthy (getProp filters "endDate".toList) <;>
    simp only [Pg.buildQuery, Pg.addFilter, Pg.activeFilters, Pg.filterSpecs, recognizedKeys,
      List.filter, Pg.boundValue, List.map, c1, c2, c3, c4, c5,
      Bool.false_eq_true, if_true, if_false] <;>
    rfl

end ContactApi
